import Mathlib

/-!
# Bro_Backend: concern lifecycle, access checks and chat read state

A shallow embedding of the request handlers of
`src/controllers/concernController.js` and `src/controllers/chatController.js`,
of the schemas `src/models/Concern.js` and `src/models/Chat.js`, and of the
helpers of `src/services/socketService.js` and `src/services/emailService.js`.

Modelling conventions.

* The MongoDB collections are lists of documents; `findById` is the first
  document with the given `_id`, `save` of a loaded document replaces that
  document, `create` appends a document.
* A handler is a function from the request (the authenticated user `req.user`,
  the route parameter, the body) and the world before the request to the HTTP
  response and the world after it.  Requests are handled one at a time.
* An absent value (`undefined`, `null`) is `none`; a request field that is present
  is a string (or a number for `rating`), so Mongoose cast errors are outside
  the model. The body field `severity` keeps `null` apart from absent, since the
  schema default applies to an absent value only.
* `save` validates the whole document: the validators of every path of the
  schema run on the loaded values as well as on the modified ones.
* The thrown error's text that a 500 answer carries is not modelled.
-/

namespace BroBackend

/-! ## Values -/

/-- A MongoDB ObjectId; `a.toString() === b.toString()` is equality of ids. -/
abbrev ObjectId := Nat

/-- A JavaScript `Date`, as milliseconds. -/
abbrev Date := Nat

/-- The value of `x || ''` for an optional string `x` (an absent or empty
string is falsy). -/
def orEmpty : Option String → String
  | none => ""
  | some s => if s = "" then "" else s

/-- White space and line terminators of ECMAScript, the characters that
`String.prototype.trim` strips. -/
def isJsWhiteSpace (c : Char) : Bool :=
  decide (c.toNat ∈ [0x09, 0x0A, 0x0B, 0x0C, 0x0D, 0x20, 0xA0, 0x1680, 0x2028, 0x2029,
    0x202F, 0x205F, 0x3000, 0xFEFF]) || (decide (0x2000 ≤ c.toNat) && decide (c.toNat ≤ 0x200A))

/-- The method `String.prototype.trim`, which Mongoose applies on assignment to
a path declared `trim: true`. -/
def trim (s : String) : String :=
  String.mk ((s.data.dropWhile isJsWhiteSpace).reverse.dropWhile isJsWhiteSpace).reverse

/-- The `length` of a JavaScript string: the number of UTF-16 code units. -/
def jsLength (s : String) : Nat :=
  (s.data.map fun c => if c.toNat < 0x10000 then 1 else 2).sum

/-- The method `String.prototype.padStart` with a one-character filler. -/
def padStart (s : String) (targetLength : Nat) (fill : Char) : String :=
  String.mk (List.replicate (targetLength - jsLength s) fill ++ s.data)

/-! ## Documents -/

/-- Modelled from the spec: the user document of `models/User.js`, which is not
among the sources; the fields are those the controllers read (`_id`, `name`,
`email`, `role`, `campus`), and the spec names the roles student, mentor, admin
and superadmin. -/
structure User where
  _id : ObjectId
  name : String
  email : String
  role : String
  campus : Option String
deriving DecidableEq, Repr

/-- An uploaded file as multer hands it to the handler (`req.files`). -/
structure UploadedFile where
  filename : String
  originalname : String
  path : String
  mimetype : String
  size : Nat
deriving DecidableEq, Repr

/-- An element of `attachments` (Concern.js lines 56-66, Chat.js lines 20-26). -/
structure Attachment where
  filename : String
  originalName : String
  path : String
  mimetype : String
  size : Nat
  uploadedAt : Option Date
deriving DecidableEq, Repr

/-- An element of `timeline` (Concern.js lines 67-78). -/
structure TimelineEntry where
  status : String
  updatedBy : Option ObjectId
  comment : Option String
  timestamp : Date
deriving DecidableEq, Repr

/-- A concern document (Concern.js lines 3-108). -/
structure Concern where
  _id : ObjectId
  student : ObjectId
  ticketId : String
  title : String
  description : String
  category : String
  severity : String
  status : String
  assignedTo : Option ObjectId
  attachments : List Attachment
  timeline : List TimelineEntry
  isAnonymous : Bool
  rating : Option Int
  feedback : Option String
  resolvedAt : Option Date
  closedAt : Option Date
  campus : Option String
  createdAt : Date
deriving DecidableEq, Repr

/-- A chat message document (Chat.js lines 3-37). -/
structure Chat where
  _id : ObjectId
  concern : ObjectId
  sender : ObjectId
  message : String
  attachments : List Attachment
  isRead : Bool
  readAt : Option Date
  createdAt : Date
deriving DecidableEq, Repr

/-- The `enum` of `category` (Concern.js lines 28-38). -/
def categoryEnum : List String :=
  ["Technical", "Personal", "Financial", "Behavioral", "Misconduct", "Infrastructure",
    "Course Content", "Mentor Related", "Other"]

/-- The `enum` of `severity` (Concern.js line 43). -/
def severityEnum : List String := ["Low", "Medium", "High", "Critical"]

/-- The `enum` of `status` (Concern.js line 48). -/
def statusEnum : List String :=
  ["Submitted", "In Review", "Assigned", "In Progress", "Resolved", "Closed", "Reopened"]

/-- The `enum` of `campus` (Concern.js line 104). -/
def campusEnum : List String := ["Kochi", "Calicut", "Trivandrum", "Other"]

/-! ## The world -/

/-- What an emitted socket event carries. -/
inductive Payload where
  | statusUpdate (status : String) (updatedBy : Option String) (comment : Option String)
      (assignedTo : Option String) (timestamp : Date)
  | newMessage (chat : Chat) (sender : Option User)
deriving DecidableEq, Repr

/-- One `io.to(room).emit(event, payload)`. -/
structure Emitted where
  room : String
  event : String
  payload : Payload
deriving DecidableEq, Repr

/-- A mail handed to `transporter.sendMail`: the fields `to` and `subject` of
`mailOptions` (the HTML body is left out). -/
structure Mail where
  toAddr : Option String
  subject : String
deriving DecidableEq, Repr

/-- The collections, the socket server handle `io` of socketService.js (set by
`initializeSocket`), the events emitted so far and the mails delivered so far. -/
structure World where
  concerns : List Concern
  users : List User
  chats : List Chat
  io : Bool
  emitted : List Emitted
  outbox : List Mail
deriving DecidableEq, Repr

/-- What a request gets from outside the program: the value of the k-th
`new Date()` of the request, the ObjectId a new document receives, the address
in `process.env.ADMIN_EMAIL`, and whether `transporter.sendMail` delivers a
mail (`true`) or throws (`false`). -/
structure Env where
  now : Nat → Date
  newId : ObjectId
  adminEmail : Option String
  transport : Mail → Bool

/-- The response envelope `res.status(status).json(...)`. -/
structure Response (α : Type) where
  status : Nat
  success : Bool
  message : Option String
  data : Option α
  count : Option Nat
deriving DecidableEq, Repr

/-- The answer of a `catch` block: status 500, `success: false` and the error's
text, which is not modelled. -/
def serverError {α : Type} : Response α :=
  { status := 500, success := false, message := none, data := none, count := none }

/-- An answer `{ success: false, message }` with the given status. -/
def failure {α : Type} (status : Nat) (message : String) : Response α :=
  { status := status, success := false, message := some message, data := none, count := none }

/-! ## Collection access -/

/-- The query `Concern.findById(id)`. -/
def findById (concerns : List Concern) (id : ObjectId) : Option Concern :=
  concerns.find? fun c => c._id == id

/-- The query `User.findById(id)`, also what `populate` resolves a reference to. -/
def findUserById (users : List User) (id : ObjectId) : Option User :=
  users.find? fun u => u._id == id

/-- Writing a loaded concern back (`concern.save()`): the stored document with
its `_id` is replaced. -/
def saveConcern : List Concern → Concern → List Concern
  | [], _ => []
  | c :: cs, d => if c._id == d._id then d :: cs else c :: saveConcern cs d

/-- The query `Concern.countDocuments()`. -/
def countDocuments (concerns : List Concern) : Nat := concerns.length

/-- The ticket code of the `pre('validate')` hook (Concern.js line 114):
`BRT` followed by `String(count + 1).padStart(6, '0')`. -/
def ticketIdFor (count : Nat) : String :=
  "BRT" ++ padStart (toString (count + 1)) 6 '0'

/-- The hook `concernSchema.pre('validate')` (Concern.js lines 111-117), which
runs before every validation: a document without a truthy `ticketId` gets one
from the number of stored concerns. -/
def preValidate (concerns : List Concern) (c : Concern) : Concern :=
  if c.ticketId = "" then { c with ticketId := ticketIdFor (countDocuments concerns) } else c

/-- The unique indexes at an insert (`_id`, and `ticketId` by `unique: true`,
Concern.js line 11): no stored concern has the `_id` or the `ticketId` of the
new document. -/
def insertAccepted (concerns : List Concern) (c : Concern) : Bool :=
  concerns.all fun d => d._id != c._id && d.ticketId != c.ticketId

/-- A stored string path that is required and bounded: not empty and at most
`maxlength` code units long. -/
def storedText (v : String) (maxlength : Nat) : Bool :=
  decide (v ≠ "") && decide (jsLength v ≤ maxlength)

/-- The validators of the schema on the values of a document (Concern.js lines
13-105): `title` and `description` required and bounded, `category`,
`severity` and `status` in their enums, `campus` absent or in its enum,
`rating` absent or from 1 to 5, `feedback` absent or at most 1000 code units. -/
def validDocument (c : Concern) : Bool :=
  storedText c.title 200 && storedText c.description 2000 &&
  categoryEnum.contains c.category && severityEnum.contains c.severity &&
  statusEnum.contains c.status &&
  (match c.campus with
   | none => true
   | some v => campusEnum.contains v) &&
  (match c.rating with
   | none => true
   | some r => decide (1 ≤ r) && decide (r ≤ 5)) &&
  (match c.feedback with
   | none => true
   | some f => decide (jsLength f ≤ 1000))

/-- The call `concern.save()` on a loaded document: the hook runs, the document
is validated, and the write replaces the stored document; a `ticketId` the hook
had to set is checked against the unique index. A failed validation and a
rejection by the index throw (`none`). The result is the document as saved and
the collection after the write. -/
def save (concerns : List Concern) (c : Concern) : Option (Concern × List Concern) :=
  let c1 := preValidate concerns c
  if !validDocument c1 then none
  else if c.ticketId = "" &&
      concerns.any (fun d => d._id != c._id && d.ticketId == c1.ticketId) then
    none
  else some (c1, saveConcern concerns c1)

/-- The call `concern.deleteOne()`: the stored document with the `_id` is removed. -/
def deleteOne : List Concern → ObjectId → List Concern
  | [], _ => []
  | c :: cs, id => if c._id == id then cs else c :: deleteOne cs id

/-- The update `Chat.updateMany(filter, update)` of `markAsRead`
(chatController.js lines 121-131): every message of the concern that the user
did not send and that is unread becomes read at `readAt`. -/
def updateManyRead (chats : List Chat) (concernId userId : ObjectId) (readAt : Date) :
    List Chat :=
  chats.map fun m =>
    if m.concern == concernId && m.sender != userId && m.isRead == false then
      { m with isRead := true, readAt := some readAt }
    else m

/-! ## socketService.js and emailService.js -/

/-- The helper `emitStatusUpdate` (socketService.js lines 54-59): when `io` is
set, one `status-update` event to the room `concern-${concernId}`. -/
def emitStatusUpdate (concernId : ObjectId) (update : Payload) (w : World) : World :=
  if w.io then
    { w with emitted := w.emitted ++
        [{ room := "concern-" ++ toString concernId, event := "status-update", payload := update }] }
  else w

/-- The helper `emitNewMessage` (socketService.js lines 47-52). -/
def emitNewMessage (concernId : ObjectId) (message : Payload) (w : World) : World :=
  if w.io then
    { w with emitted := w.emitted ++
        [{ room := "concern-" ++ toString concernId, event := "new-message", payload := message }] }
  else w

/-- The call `transporter.sendMail(mailOptions)` inside the `try` of an email
helper: the mail is delivered, or the transport throws and the `catch` of the
helper logs the error; the helper returns normally in both cases. -/
def sendMail (env : Env) (mail : Mail) (w : World) : World :=
  if env.transport mail then { w with outbox := w.outbox ++ [mail] } else w

/-- The helper `sendConcernSubmissionEmail` (emailService.js lines 27-89). -/
def sendConcernSubmissionEmail (env : Env) (concern : Concern) (_student : User) (w : World) :
    World :=
  sendMail env { toAddr := env.adminEmail,
                 subject := "🔔 New Concern Submitted - " ++ concern.ticketId } w

/-- The helper `sendStatusUpdateEmail` (emailService.js lines 92-156); `student`
is the populated `concern.student`, and reading `student.email` of a reference
that populated to `null` throws inside the `try`. -/
def sendStatusUpdateEmail (env : Env) (concern : Concern) (student : Option User)
    (_updatedBy : User) (_comment : Option String) (w : World) : World :=
  match student with
  | none => w
  | some st =>
    sendMail env { toAddr := some st.email,
                   subject := "📢 Concern Status Updated - " ++ concern.ticketId } w

/-- The helper `sendAssignmentEmail` (emailService.js lines 159-211); the body
reads `student.name` unless the concern is anonymous, which throws inside the
`try` when the reference populated to `null`. -/
def sendAssignmentEmail (env : Env) (concern : Concern) (student : Option User) (mentor : User)
    (w : World) : World :=
  if concern.isAnonymous then
    sendMail env { toAddr := some mentor.email,
                   subject := "📋 New Concern Assigned - " ++ concern.ticketId } w
  else
    match student with
    | none => w
    | some _ =>
      sendMail env { toAddr := some mentor.email,
                     subject := "📋 New Concern Assigned - " ++ concern.ticketId } w

/-! ## Route guards -/

/-- Modelled from the spec: the middleware `authorize(...roles)` of
`middleware/authMiddleware.js`, which is not among the sources (only its uses
in `src/routes` are); by the spec's access rules and response statuses a role
outside `roles` is answered 403 before the handler runs. -/
def authorize {α : Type} (roles : List String) (user : User)
    (handler : World → Response α × World) (w : World) : Response α × World :=
  if roles.contains user.role then handler w
  else (failure 403 "Not authorized", w)

/-! ## concernController.js -/

/-- The timeline entry that `updateConcernStatus` pushes (lines 167-172). -/
def statusEntry (env : Env) (user : User) (status : String) (comment : Option String) :
    TimelineEntry :=
  { status := status, updatedBy := some user._id, comment := some (orEmpty comment),
    timestamp := env.now 0 }

/-- The handler `updateConcernStatus` (concernController.js lines 151-199).
`concern.save()` validates `status` against its `enum` and throws into the
`catch` when that fails. -/
def updateConcernStatus (env : Env) (user : User) (id : ObjectId) (status : String)
    (comment : Option String) (w : World) : Response Concern × World :=
  match findById w.concerns id with
  | none => (failure 404 "Concern not found", w)
  | some concern =>
    let concern1 : Concern :=
      { concern with status := status
                     timeline := concern.timeline ++ [statusEntry env user status comment] }
    if statusEnum.contains status then
      match save w.concerns concern1 with
      | none => (serverError, w)
      | some (saved, concerns1) =>
        let w1 := { w with concerns := concerns1 }
        let w2 := sendStatusUpdateEmail env saved (findUserById w.users concern.student) user
          comment w1
        let w3 := emitStatusUpdate concern._id
          (Payload.statusUpdate status (some user.name) comment none (env.now 1)) w2
        ({ status := 200, success := true, message := some "Concern status updated successfully",
           data := some saved, count := none }, w3)
    else (serverError, w)

/-- The route `PUT /api/concerns/:id/status` (concernRoutes.js line 27). -/
def putStatus (env : Env) (user : User) (id : ObjectId) (status : String)
    (comment : Option String) (w : World) : Response Concern × World :=
  authorize ["mentor", "admin", "superadmin"] user
    (updateConcernStatus env user id status comment) w

/-- A string field of a JSON body where `null` and absent differ: the field is
absent (`undefined`), `null`, or a text. -/
inductive BodyField where
  | absent
  | null
  | text (value : String)
deriving DecidableEq, Repr

/-- The body of `POST /api/concerns` (the fields `createConcern` reads). -/
structure CreateBody where
  title : Option String
  description : Option String
  category : Option String
  severity : BodyField
  isAnonymous : Option Bool
  campus : Option String
deriving DecidableEq, Repr

/-- The value of `a || b` for two optional strings. -/
def orElseStr (a b : Option String) : Option String :=
  match a with
  | some s => if s = "" then b else some s
  | none => b

/-- A required string path with `trim` and `maxlength`: present, not empty after
trimming, and at most `maxlength` code units long. -/
def requiredText (v : Option String) (maxlength : Nat) : Bool :=
  match v with
  | none => false
  | some s => decide (trim s ≠ "") && decide (jsLength (trim s) ≤ maxlength)

/-- The validators of the paths `Concern.create` sets (Concern.js lines 13-45
and 102-105): `title` and `description` are required and bounded, `category`
is required and in its enum, `severity` defaults to `Medium` when absent, fails
`required` when `null` and is otherwise in its enum, `campus` is absent or in its enum. -/
def validCreate (user : User) (body : CreateBody) : Bool :=
  requiredText body.title 200 && requiredText body.description 2000 &&
  (match body.category with
   | none => false
   | some c => categoryEnum.contains c) &&
  (match body.severity with
   | BodyField.absent => true
   | BodyField.null => false
   | BodyField.text v => severityEnum.contains v) &&
  (match orElseStr body.campus user.campus with
   | none => true
   | some c => campusEnum.contains c)

/-- The document `Concern.create` builds from the body (concernController.js
lines 14-26) with the setters and defaults of the schema applied. -/
def newConcern (env : Env) (user : User) (body : CreateBody) : Concern :=
  { _id := env.newId, student := user._id, ticketId := "",
    title := trim (body.title.getD ""), description := trim (body.description.getD ""),
    category := body.category.getD "",
    severity := (match body.severity with
      | BodyField.absent => "Medium"
      | BodyField.null => ""
      | BodyField.text v => v),
    status := "Submitted", assignedTo := none, attachments := [],
    timeline := [{ status := "Submitted", updatedBy := none, comment := none,
                   timestamp := env.now 0 }],
    isAnonymous := body.isAnonymous.getD false, rating := none, feedback := none,
    resolvedAt := none, closedAt := none, campus := orElseStr body.campus user.campus,
    createdAt := env.now 1 }

/-- The attachment `createConcern` and `sendMessage` build from an uploaded file. -/
def toAttachment (uploadedAt : Option Date) (file : UploadedFile) : Attachment :=
  { filename := file.filename, originalName := file.originalname, path := file.path,
    mimetype := file.mimetype, size := file.size, uploadedAt := uploadedAt }

/-- The handler `createConcern` (concernController.js lines 9-58). -/
def createConcern (env : Env) (user : User) (body : CreateBody) (files : List UploadedFile)
    (w : World) : Response Concern × World :=
  let concern := preValidate w.concerns (newConcern env user body)
  if validCreate user body && insertAccepted w.concerns concern then
    let w1 := { w with concerns := w.concerns ++ [concern] }
    if files.length > 0 then
      match save w1.concerns
          { concern with attachments := files.map (toAttachment (some (env.now 2))) } with
      | none => (serverError, w1)
      | some (saved, concerns2) =>
        let w2 := { w1 with concerns := concerns2 }
        let w3 := sendConcernSubmissionEmail env saved user w2
        ({ status := 201, success := true, message := some "Concern submitted successfully",
           data := some saved, count := none }, w3)
    else
      let w3 := sendConcernSubmissionEmail env concern user w1
      ({ status := 201, success := true, message := some "Concern submitted successfully",
         data := some concern, count := none }, w3)
  else (serverError, w)

/-- The handler `getConcernById` (concernController.js lines 113-146);
`concern.student` is populated, and reading `_id` of a reference that populated
to `null` throws. -/
def getConcernById (user : User) (id : ObjectId) (w : World) : Response Concern × World :=
  match findById w.concerns id with
  | none => (failure 404 "Concern not found", w)
  | some concern =>
    if user.role = "student" then
      match findUserById w.users concern.student with
      | none => (serverError, w)
      | some student =>
        if student._id ≠ user._id then
          (failure 403 "Not authorized to access this concern", w)
        else
          ({ status := 200, success := true, message := none, data := some concern,
             count := none }, w)
    else
      ({ status := 200, success := true, message := none, data := some concern,
         count := none }, w)

/-- The timeline entry that `assignConcern` pushes (lines 229-234). -/
def assignEntry (env : Env) (user : User) (mentor : User) : TimelineEntry :=
  { status := "Assigned", updatedBy := some user._id,
    comment := some ("Assigned to " ++ mentor.name), timestamp := env.now 0 }

/-- The handler `assignConcern` (concernController.js lines 204-261). -/
def assignConcern (env : Env) (user : User) (id : ObjectId) (mentorId : ObjectId) (w : World) :
    Response Concern × World :=
  match findById w.concerns id with
  | none => (failure 404 "Concern not found", w)
  | some concern =>
    match findUserById w.users mentorId with
    | none => (failure 404 "Mentor not found", w)
    | some mentor =>
      let concern1 : Concern :=
        { concern with assignedTo := some mentorId
                       status := "Assigned"
                       timeline := concern.timeline ++ [assignEntry env user mentor] }
      if statusEnum.contains concern1.status then
        match save w.concerns concern1 with
        | none => (serverError, w)
        | some (saved, concerns1) =>
          let student := findUserById w.users concern.student
          let w1 := { w with concerns := concerns1 }
          let w2 := sendAssignmentEmail env saved student mentor w1
          let w3 := sendStatusUpdateEmail env saved student user
            (some ("Assigned to " ++ mentor.name)) w2
          let w4 := emitStatusUpdate concern._id
            (Payload.statusUpdate "Assigned" none none (some mentor.name) (env.now 1)) w3
          ({ status := 200, success := true, message := some "Concern assigned successfully",
             data := some saved, count := none }, w4)
      else (serverError, w)

/-- The validators of the paths `rateConcern` sets (Concern.js lines 83-93):
`rating` is absent or between 1 and 5, `feedback` is at most 1000 code units. -/
def validRating (rating : Option Int) (feedback : String) : Bool :=
  (match rating with
   | none => true
   | some r => decide (1 ≤ r) && decide (r ≤ 5)) &&
  decide (jsLength feedback ≤ 1000)

/-- The handler `rateConcern` (concernController.js lines 266-311); assigning
to `feedback` applies the `trim` setter of the schema. -/
def rateConcern (user : User) (id : ObjectId) (rating : Option Int) (feedback : Option String)
    (w : World) : Response Concern × World :=
  match findById w.concerns id with
  | none => (failure 404 "Concern not found", w)
  | some concern =>
    if concern.student ≠ user._id then
      (failure 403 "Not authorized to rate this concern", w)
    else if concern.status ≠ "Resolved" ∧ concern.status ≠ "Closed" then
      (failure 400 "Can only rate resolved or closed concerns", w)
    else
      let concern1 : Concern :=
        { concern with rating := rating, feedback := some (trim (orEmpty feedback)) }
      if validRating rating (trim (orEmpty feedback)) then
        match save w.concerns concern1 with
        | none => (serverError, w)
        | some (saved, concerns1) =>
          ({ status := 200, success := true, message := some "Rating submitted successfully",
             data := some saved, count := none }, { w with concerns := concerns1 })
      else (serverError, w)

/-- The handler `deleteConcern` (concernController.js lines 316-340). -/
def deleteConcern (id : ObjectId) (w : World) : Response Concern × World :=
  match findById w.concerns id with
  | none => (failure 404 "Concern not found", w)
  | some concern =>
    ({ status := 200, success := true, message := some "Concern deleted successfully",
       data := none, count := none },
     { w with concerns := deleteOne w.concerns concern._id })

/-! ## chatController.js -/

/-- The access check of `getMessages` and `sendMessage` (chatController.js
lines 22-26 and 69-73): `isStudent || isAssigned || isAdmin`. -/
def chatAccess (user : User) (concern : Concern) : Bool :=
  let isStudent := decide (user.role = "student") && decide (concern.student = user._id)
  let isAssigned := match concern.assignedTo with
    | none => false
    | some a => decide (a = user._id)
  let isAdmin := ["admin", "superadmin"].contains user.role
  isStudent || isAssigned || isAdmin

/-- The ordering `.sort({ createdAt: 1 })`: ascending creation time, messages
of equal time in stored order. -/
def sortByCreatedAt (ms : List Chat) : List Chat :=
  ms.insertionSort fun a b => a.createdAt ≤ b.createdAt

/-- The handler `getMessages` (chatController.js lines 8-49). -/
def getMessages (user : User) (concernId : ObjectId) (w : World) : Response (List Chat) × World :=
  match findById w.concerns concernId with
  | none => (failure 404 "Concern not found", w)
  | some concern =>
    if !chatAccess user concern then
      (failure 403 "Not authorized to access this chat", w)
    else
      let messages := sortByCreatedAt (w.chats.filter fun m => m.concern == concernId)
      ({ status := 200, success := true, message := none, data := some messages,
         count := some messages.length }, w)

/-- The handler `sendMessage` (chatController.js lines 54-112). `Chat.create`
trims `message` and validates it: required (not empty) and at most 1000 code
units (Chat.js lines 14-19); the insert needs a new `_id`. -/
def sendMessage (env : Env) (user : User) (concernId : ObjectId) (message : Option String)
    (files : Option (List UploadedFile)) (w : World) : Response Chat × World :=
  match findById w.concerns concernId with
  | none => (failure 404 "Concern not found", w)
  | some concern =>
    if !chatAccess user concern then
      (failure 403 "Not authorized to send messages in this chat", w)
    else
      let chatMessage : Chat :=
        { _id := env.newId, concern := concernId, sender := user._id,
          message := trim (message.getD ""),
          attachments := match files with
            | some fs => fs.map (toAttachment none)
            | none => [],
          isRead := false, readAt := none, createdAt := env.now 0 }
      if requiredText message 1000 && w.chats.all (fun m => m._id != chatMessage._id) then
        let w1 := { w with chats := w.chats ++ [chatMessage] }
        let w2 := emitNewMessage concernId
          (Payload.newMessage chatMessage (findUserById w.users user._id)) w1
        ({ status := 201, success := true, message := some "Message sent successfully",
           data := some chatMessage, count := none }, w2)
      else (serverError, w)

/-- The handler `markAsRead` (chatController.js lines 117-144). -/
def markAsRead (env : Env) (user : User) (concernId : ObjectId) (w : World) :
    Response Unit × World :=
  ({ status := 200, success := true, message := some "Messages marked as read", data := none,
     count := none },
   { w with chats := updateManyRead w.chats concernId user._id (env.now 0) })

/-- The route `PUT /api/concerns/:id/assign` (concernRoutes.js line 28). -/
def putAssign (env : Env) (user : User) (id : ObjectId) (mentorId : ObjectId) (w : World) :
    Response Concern × World :=
  authorize ["admin", "superadmin"] user (assignConcern env user id mentorId) w

/-- The route `PUT /api/concerns/:id/rate` (concernRoutes.js line 29). -/
def putRate (user : User) (id : ObjectId) (rating : Option Int) (feedback : Option String)
    (w : World) : Response Concern × World :=
  authorize ["student"] user (rateConcern user id rating feedback) w

/-- The route `POST /api/concerns` (concernRoutes.js line 21); the files are
those multer accepted. -/
def postConcern (env : Env) (user : User) (body : CreateBody) (files : List UploadedFile)
    (w : World) : Response Concern × World :=
  authorize ["student"] user (createConcern env user body files) w

/-- The route `DELETE /api/concerns/:id` (concernRoutes.js line 24). -/
def deleteRoute (user : User) (id : ObjectId) (w : World) : Response Concern × World :=
  authorize ["admin", "superadmin"] user (deleteConcern id) w

/-- One call of `PUT /api/concerns/:id/status`: what it gets from outside, who
calls, and the body. -/
structure StatusCall where
  env : Env
  user : User
  status : String
  comment : Option String

/-- A sequence of `PUT /api/concerns/:id/status` requests on one concern, each
handled on the world the previous one left; the responses come in order. -/
def putStatusSeq (id : ObjectId) : List StatusCall → World → List (Response Concern) × World
  | [], w => ([], w)
  | call :: rest, w =>
    let r := putStatus call.env call.user id call.status call.comment w
    let rs := putStatusSeq id rest r.2
    (r.1 :: rs.1, rs.2)


/-- The document `updateConcernStatus` hands to `save` (lines 165-172). -/
def withStatus (env : Env) (user : User) (status : String) (comment : Option String)
    (c : Concern) : Concern :=
  { c with status := status, timeline := c.timeline ++ [statusEntry env user status comment] }

/-- The document `assignConcern` hands to `save` (lines 226-234). -/
def withAssignment (env : Env) (user : User) (mentorId : ObjectId) (mentor : User)
    (c : Concern) : Concern :=
  { c with assignedTo := some mentorId, status := "Assigned",
           timeline := c.timeline ++ [assignEntry env user mentor] }

/-- The document `rateConcern` hands to `save` (lines 295-296). -/
def withRating (rating : Option Int) (feedback : Option String) (c : Concern) : Concern :=
  { c with rating := rating, feedback := some (trim (orEmpty feedback)) }

/-- A later operation on a concern: a call of `updateConcernStatus`, of
`assignConcern` or of `rateConcern`, with what the call gets. -/
inductive ConcernOp where
  | updateStatus (env : Env) (user : User) (id : ObjectId) (status : String)
      (comment : Option String)
  | assign (env : Env) (user : User) (id : ObjectId) (mentorId : ObjectId)
  | rate (user : User) (id : ObjectId) (rating : Option Int) (feedback : Option String)

/-- The handler call an operation stands for. -/
def ConcernOp.run : ConcernOp → World → Response Concern × World
  | .updateStatus env user id status comment, w => updateConcernStatus env user id status comment w
  | .assign env user id mentorId, w => assignConcern env user id mentorId w
  | .rate user id rating feedback, w => rateConcern user id rating feedback w

/-- The world after a sequence of operations, each handled on the world the
previous one left. -/
def runOps : List ConcernOp → World → World
  | [], w => w
  | op :: ops, w => runOps ops (op.run w).2

/-- The document `createConcern` answers with: the new document with the
generated ticket code and, when files were uploaded, their attachments. -/
def createdConcern (env : Env) (user : User) (body : CreateBody) (files : List UploadedFile)
    (w : World) : Concern :=
  { newConcern env user body with
    ticketId := ticketIdFor (countDocuments w.concerns)
    attachments := if files.length > 0 then files.map (toAttachment (some (env.now 2))) else [] }

/-- The number a string of decimal digits denotes. -/
def decimalValue (s : String) : Nat :=
  s.data.foldl (fun acc c => acc * 10 + (c.toNat - 48)) 0

/-- The part of a ticket id after its three-character prefix. -/
def ticketCode (ticketId : String) : String :=
  String.mk (ticketId.data.drop 3)

/-- The format of a generated ticket id: `BRT`, then decimal digits only, at
least six of them. -/
def isGeneratedTicketId (ticketId : String) : Bool :=
  (ticketId.data.take 3 == ['B', 'R', 'T']) && (ticketCode ticketId).data.all Char.isDigit &&
    decide (6 ≤ (ticketCode ticketId).length)

/-- The query string of `GET /api/concerns` (the fields `getAllConcerns` reads). -/
structure ListQuery where
  status : Option String
  category : Option String
  severity : Option String
  campus : Option String
  search : Option String
deriving DecidableEq, Repr

/-- A query value that is truthy: present and not the empty string. -/
def given : Option String → Option String
  | none => none
  | some s => if s = "" then none else some s

/-- The role part of the query of `getAllConcerns` (lines 69-75): a student
sees the concerns they own, a mentor those assigned to them, every other role
all concerns. -/
def roleFilter (user : User) (c : Concern) : Bool :=
  if user.role = "student" then c.student == user._id
  else if user.role = "mentor" then c.assignedTo == some user._id
  else true

/-- One equality condition of the query: absent when the query value is falsy. -/
def fieldMatches (filter : Option String) (value : Option String) : Bool :=
  match given filter with
  | none => true
  | some v => value == some v

/-- The conditions `status`, `category`, `severity` and `campus` of the query
(lines 78-81). -/
def fieldFilter (q : ListQuery) (c : Concern) : Bool :=
  fieldMatches q.status (some c.status) && fieldMatches q.category (some c.category) &&
  fieldMatches q.severity (some c.severity) && fieldMatches q.campus c.campus

/-- The regular-expression engine of the database with the option `i`: a
pattern is rejected (`none`) or compiled to a test on a subject string. The
engine is not part of the repository. -/
abbrev RegexEngine := String → Option (String → Bool)

/-- The ordering `.sort({ createdAt: -1 })`: descending creation time. -/
def sortNewestFirst (cs : List Concern) : List Concern :=
  cs.insertionSort fun a b => b.createdAt ≤ a.createdAt

/-- The answer of `getAllConcerns` with the concerns found. -/
def listed (cs : List Concern) : Response (List Concern) :=
  { status := 200, success := true, message := none, data := some cs, count := some cs.length }

/-- The handler `getAllConcerns` (concernController.js lines 63-108); a search
string is handed to the database as a regular expression on `title` and on
`ticketId`, and a pattern the database rejects makes the query throw. -/
def getAllConcerns (regex : RegexEngine) (user : User) (q : ListQuery) (w : World) :
    Response (List Concern) × World :=
  match given q.search with
  | none =>
    (listed (sortNewestFirst (w.concerns.filter fun c => roleFilter user c && fieldFilter q c)), w)
  | some search =>
    match regex search with
    | none => (serverError, w)
    | some test =>
      (listed (sortNewestFirst (w.concerns.filter fun c =>
        roleFilter user c && fieldFilter q c && (test c.title || test c.ticketId))), w)

/-- A request to one of the handlers of the two controllers. -/
inductive Request where
  | createConcern (env : Env) (user : User) (body : CreateBody) (files : List UploadedFile)
  | getAllConcerns (regex : RegexEngine) (user : User) (q : ListQuery)
  | getConcernById (user : User) (id : ObjectId)
  | updateConcernStatus (env : Env) (user : User) (id : ObjectId) (status : String)
      (comment : Option String)
  | assignConcern (env : Env) (user : User) (id : ObjectId) (mentorId : ObjectId)
  | rateConcern (user : User) (id : ObjectId) (rating : Option Int) (feedback : Option String)
  | deleteConcern (id : ObjectId)
  | getMessages (user : User) (concernId : ObjectId)
  | sendMessage (env : Env) (user : User) (concernId : ObjectId) (message : Option String)
      (files : Option (List UploadedFile))
  | markAsRead (env : Env) (user : User) (concernId : ObjectId)

/-- The world after a request. -/
def Request.handle : Request → World → World
  | .createConcern env user body files, w => (BroBackend.createConcern env user body files w).2
  | .getAllConcerns regex user q, w => (BroBackend.getAllConcerns regex user q w).2
  | .getConcernById user id, w => (BroBackend.getConcernById user id w).2
  | .updateConcernStatus env user id status comment, w =>
    (BroBackend.updateConcernStatus env user id status comment w).2
  | .assignConcern env user id mentorId, w => (BroBackend.assignConcern env user id mentorId w).2
  | .rateConcern user id rating feedback, w => (BroBackend.rateConcern user id rating feedback w).2
  | .deleteConcern id, w => (BroBackend.deleteConcern id w).2
  | .getMessages user concernId, w => (BroBackend.getMessages user concernId w).2
  | .sendMessage env user concernId message files, w =>
    (BroBackend.sendMessage env user concernId message files w).2
  | .markAsRead env user concernId, w => (BroBackend.markAsRead env user concernId w).2

/-- The world after a sequence of requests. -/
def handleAll : List Request → World → World
  | [], w => w
  | r :: rs, w => handleAll rs (r.handle w)

/-- What `markAsRead` does to one message: `m1` is the message `m` after a
call for the concern `concernId` by the user `userId` at the time `now`. -/
def ReadStep (concernId userId : ObjectId) (now : Date) (m m1 : Chat) : Prop :=
  (m1.isRead = true ↔ m.isRead = true ∨ (m.concern = concernId ∧ m.sender ≠ userId)) ∧
  (m.isRead = false → m1.isRead = true → m1.readAt = some now) ∧
  (m.sender = userId ∨ m.concern ≠ concernId ∨ m.isRead = true → m1 = m) ∧
  m1 = { m with isRead := m1.isRead, readAt := m1.readAt }

/-- The document `sendMessage` hands to `Chat.create` (chatController.js
lines 81-92), with the setters and defaults of the schema applied. -/
def newChat (env : Env) (user : User) (concernId : ObjectId) (message : Option String)
    (files : Option (List UploadedFile)) : Chat :=
  { _id := env.newId, concern := concernId, sender := user._id,
    message := trim (message.getD ""),
    attachments := match files with
      | some fs => fs.map (toAttachment none)
      | none => [],
    isRead := false, readAt := none, createdAt := env.now 0 }

/-- The query without any filter. -/
def noFilters : ListQuery :=
  { status := none, category := none, severity := none, campus := none, search := none }

/-- The query `q` without its four equality filters; the search string stays. -/
def searchOnly (q : ListQuery) : ListQuery := { noFilters with search := q.search }

/-- A concern that an equality filter of the query removes: the filter is given and the
concern's field differs from its value. -/
def DiffersFromFilter (q : ListQuery) (c : Concern) : Prop :=
  (∃ v, given q.status = some v ∧ c.status ≠ v) ∨
  (∃ v, given q.category = some v ∧ c.category ≠ v) ∨
  (∃ v, given q.severity = some v ∧ c.severity ≠ v) ∨
  (∃ v, given q.campus = some v ∧ c.campus ≠ some v)

/-- The characters with a special meaning in a regular expression, by code
point: backslash, `^`, `$`, `.`, `|`, `?`, `*`, `+`, the round, square and curly
brackets. -/
def isRegexMeta (c : Char) : Bool :=
  decide (c.toNat ∈ [92, 94, 36, 46, 124, 63, 42, 43, 40, 41, 91, 93, 123, 125])

/-- A search string without regular-expression metacharacters. -/
def isLiteralPattern (s : String) : Bool :=
  s.data.all fun c => !isRegexMeta c

/-- The case folding of the option `i` on ASCII letters. -/
def foldCase (c : Char) : Char := c.toLower

/-- The list `subject` starts with `needle`, letters compared without case. -/
def startsWithIgnoreCase : List Char → List Char → Bool
  | [], _ => true
  | _ :: _, [] => false
  | p :: ps, c :: cs => (foldCase p == foldCase c) && startsWithIgnoreCase ps cs

/-- The string `needle` is a substring of `subject`, letters compared without
case. -/
def containsIgnoreCase (needle subject : String) : Bool :=
  subject.data.tails.any (startsWithIgnoreCase needle.data)

/-- One pattern character of the fragment against one subject character: the
dot matches every character but the line feed, another character matches
itself without case. -/
def itemMatches (p c : Char) : Bool :=
  if p = '.' then c.toNat != 10 else foldCase p == foldCase c

/-- The pattern matches at the start of the subject. -/
def matchesAt : List Char → List Char → Bool
  | [], _ => true
  | _ :: _, [] => false
  | p :: ps, c :: cs => itemMatches p c && matchesAt ps cs

/-- A regular-expression engine for the patterns made of ordinary characters
and the dot, with the option `i`: the pattern matches when it matches at some
position of the subject. A pattern with another metacharacter is outside this
fragment: the definition rejects it, as the database rejects a malformed
pattern such as `(`. -/
def literalDotEngine : RegexEngine := fun pattern =>
  if pattern.data.all (fun c => c == '.' || !isRegexMeta c) then
    some fun subject => subject.data.tails.any (matchesAt pattern.data)
  else none

/-- The query with the search string `s` and no other filter. -/
def searchFor (s : String) : ListQuery := { noFilters with search := some s }

/-- The `status-update` event for the room of the concern `id`. -/
def statusUpdateEvent (id : ObjectId) (payload : Payload) : Emitted :=
  { room := "concern-" ++ toString id, event := "status-update", payload := payload }

/-- The `new-message` event for the room of the concern `id`. -/
def newMessageEvent (id : ObjectId) (payload : Payload) : Emitted :=
  { room := "concern-" ++ toString id, event := "new-message", payload := payload }

/-- Two `sendMessage` requests for the same concern, the second handled on the
world the first left: the two responses and the world after both. -/
def sendTwo (env1 : Env) (user1 : User) (message1 : Option String)
    (files1 : Option (List UploadedFile)) (env2 : Env) (user2 : User) (message2 : Option String)
    (files2 : Option (List UploadedFile)) (concernId : ObjectId) (w : World) :
    (Response Chat × Response Chat) × World :=
  let r1 := sendMessage env1 user1 concernId message1 files1 w
  let r2 := sendMessage env2 user2 concernId message2 files2 r1.2
  ((r1.1, r2.1), r2.2)

/-- The environment `env` with the mail transport `transport`. -/
def withTransport (env : Env) (transport : Mail → Bool) : Env :=
  { env with transport := transport }

/-- The world without the record of delivered mails: the collections, the
socket handle and the emitted events. -/
def eraseOutbox (w : World) : World := { w with outbox := [] }

/-- The status of a concern is the status of the last entry of its timeline. -/
def StatusIsLastEntry (c : Concern) : Prop :=
  c.timeline.getLast?.map TimelineEntry.status = some c.status

/-- The stored concerns all meet the schema and have a ticket id. -/
def WellStored (concerns : List Concern) : Prop :=
  ∀ c ∈ concerns, validDocument c = true ∧ c.ticketId ≠ ""

/-- The concern collections the handlers can produce: the empty collection,
and the collection after a request handled on a world with a collection
already produced. -/
inductive ReachableStore : List Concern → Prop where
  | empty : ReachableStore []
  | step (r : Request) (w : World) :
      ReachableStore w.concerns → ReachableStore (r.handle w).concerns

/-- The pattern characters of the fragment: ordinary characters and the dot. -/
def inFragment (pattern : String) : Bool :=
  pattern.data.all fun c => c == '.' || !isRegexMeta c

/-- One pattern character of the fragment against one subject character, for
an engine whose option `i` takes the characters `a` and `b` as the same letter
when `sameLetter a b`. -/
def itemMatchesUnder (sameLetter : Char → Char → Bool) (p c : Char) : Bool :=
  if p = '.' then c.toNat != 10 else sameLetter p c

/-- The pattern matches at the start of the subject. -/
def matchesAtUnder (sameLetter : Char → Char → Bool) : List Char → List Char → Bool
  | [], _ => true
  | _ :: _, [] => false
  | p :: ps, c :: cs => itemMatchesUnder sameLetter p c && matchesAtUnder sameLetter ps cs

/-- The regular-expression semantics of a pattern of the fragment: an
unanchored search, the pattern matches when it matches at some position of the
subject. -/
def fragmentMatch (sameLetter : Char → Char → Bool) (pattern subject : String) : Bool :=
  subject.data.tails.any (matchesAtUnder sameLetter pattern.data)

/-- An engine that accepts the patterns of the fragment and matches them by the
regular-expression semantics, with `sameLetter` as its comparison of letters
under the option `i`. -/
def ImplementsFragment (regex : RegexEngine) (sameLetter : Char → Char → Bool) : Prop :=
  ∀ pattern, inFragment pattern = true →
    ∃ test, regex pattern = some test ∧
      ∀ subject, test subject = fragmentMatch sameLetter pattern subject

/-- The list `subject` starts with `needle`, letters compared by `sameLetter`. -/
def startsWithUnder (sameLetter : Char → Char → Bool) : List Char → List Char → Bool
  | [], _ => true
  | _ :: _, [] => false
  | p :: ps, c :: cs => sameLetter p c && startsWithUnder sameLetter ps cs

/-- The string `needle` is a substring of `subject`, letters compared by
`sameLetter`. -/
def containsUnder (sameLetter : Char → Char → Bool) (needle subject : String) : Bool :=
  subject.data.tails.any (startsWithUnder sameLetter needle.data)

/-- The comparison of letters that folds the ASCII letters. -/
def asciiSameLetter (a b : Char) : Bool := foldCase a == foldCase b

/-! ## Sample data -/

/-- A student, the owner of `sampleConcern`. -/
def asha : User :=
  { _id := 10, name := "Asha", email := "asha@example.com", role := "student",
    campus := some "Kochi" }

/-- A second student, who owns no concern. -/
def bibin : User :=
  { _id := 11, name := "Bibin", email := "bibin@example.com", role := "student",
    campus := some "Calicut" }

/-- A mentor. -/
def meera : User :=
  { _id := 20, name := "Meera", email := "meera@example.com", role := "mentor", campus := none }

/-- A second mentor. -/
def manu : User :=
  { _id := 21, name := "Manu", email := "manu@example.com", role := "mentor", campus := none }

/-- An admin. -/
def adminUser : User :=
  { _id := 30, name := "Admin User", email := "admin@brototype.com", role := "admin",
    campus := some "Kochi" }

/-- A concern of `asha`, as `createConcern` leaves it in an empty collection. -/
def sampleConcern : Concern :=
  { _id := 1, student := 10, ticketId := "BRT000001", title := "Projector broken",
    description := "The projector in lab 2 does not start", category := "Infrastructure",
    severity := "Medium", status := "Submitted", assignedTo := none, attachments := [],
    timeline := [{ status := "Submitted", updatedBy := none, comment := none, timestamp := 500 }],
    isAnonymous := false, rating := none, feedback := none, resolvedAt := none,
    closedAt := none, campus := some "Kochi", createdAt := 500 }

/-- A world with the five sample users and `sampleConcern`. -/
def sampleWorld : World :=
  { concerns := [sampleConcern], users := [asha, bibin, meera, manu, adminUser], chats := [],
    io := true, emitted := [], outbox := [] }

/-- An environment whose clock starts at 1000 and whose mail transport delivers. -/
def sampleEnv : Env :=
  { now := fun k => 1000 + k, newId := 2, adminEmail := some "admin@brototype.com",
    transport := fun _ => true }

/-- A world with the five sample users and no concern yet. -/
def emptyWorld : World :=
  { concerns := [], users := [asha, bibin, meera, manu, adminUser], chats := [],
    io := true, emitted := [], outbox := [] }

/-- An environment for the creation of `sampleConcern`: the clock reads 500,
the new document gets the id 1. -/
def createEnv : Env :=
  { now := fun _ => 500, newId := 1, adminEmail := some "admin@brototype.com",
    transport := fun _ => true }

/-- The body of the request that creates `sampleConcern`. -/
def sampleBody : CreateBody :=
  { title := some "  Projector broken ", description := some "The projector in lab 2 does not start",
    category := some "Infrastructure", severity := BodyField.absent, isAnonymous := none,
    campus := none }

/-- An environment like `createEnv` whose new document gets the id `newId`. -/
def createEnvWith (newId : ObjectId) : Env :=
  { now := fun _ => 500 + newId, newId := newId, adminEmail := some "admin@brototype.com",
    transport := fun _ => true }

/-- The world after `asha` has created two concerns (ids 1 and 2) and the admin
has deleted the first. -/
def worldAfterDelete : World :=
  (deleteRoute adminUser 1
    (postConcern (createEnvWith 2) asha sampleBody []
      (postConcern (createEnvWith 1) asha sampleBody [] emptyWorld).2).2).2

/-- An unread message of `asha` in the chat of `sampleConcern`. -/
def sampleChat : Chat :=
  { _id := 100, concern := 1, sender := 10, message := "Any update?", attachments := [],
    isRead := false, readAt := none, createdAt := 600 }

/-- The sample world with `sampleChat` in the chat of `sampleConcern`. -/
def chatWorld : World := { sampleWorld with chats := [sampleChat] }

/-- The sample concern after the admin assigned it to `meera` and `meera`
resolved it. -/
def resolvedConcern : Concern :=
  { sampleConcern with
    status := "Resolved", assignedTo := some 20,
    timeline := sampleConcern.timeline ++
      [{ status := "Assigned", updatedBy := some 30, comment := some "Assigned to Meera",
         timestamp := 700 },
       { status := "Resolved", updatedBy := some 20, comment := some "fixed",
         timestamp := 800 }] }

/-- The sample world with the concern resolved. -/
def resolvedWorld : World := { sampleWorld with concerns := [resolvedConcern] }

/-- A feedback text of 1001 characters. -/
def longFeedback : String := String.mk (List.replicate 1001 'a')

/-- A message of `meera` in the chat of `sampleConcern`, already read. -/
def readChat : Chat :=
  { _id := 101, concern := 1, sender := 20, message := "Looking into it", attachments := [],
    isRead := true, readAt := some 650, createdAt := 620 }

/-- A message of `asha` in the chat of another concern. -/
def otherChat : Chat :=
  { _id := 102, concern := 2, sender := 10, message := "Second concern", attachments := [],
    isRead := false, readAt := none, createdAt := 630 }

/-- The sample world with three chat messages. -/
def threeChatsWorld : World := { sampleWorld with chats := [sampleChat, readChat, otherChat] }

/-- A concern of `bibin`, assigned to `manu`, whose title mentions the ticket
code of `sampleConcern`. -/
def secondConcern : Concern :=
  { sampleConcern with
    _id := 2, student := 11, ticketId := "BRT000002", title := "Same as BRT000001 (lab 2)",
    status := "Assigned", assignedTo := some 21, campus := some "Calicut", createdAt := 510,
    timeline := sampleConcern.timeline ++
      [{ status := "Assigned", updatedBy := some 30, comment := some "Assigned to Manu",
         timestamp := 520 }] }

/-- A second concern of `asha`, assigned to `meera`. -/
def thirdConcern : Concern :=
  { sampleConcern with
    _id := 3, ticketId := "BRT000003", title := "Wifi down", category := "Technical",
    severity := "High", status := "Assigned", assignedTo := some 20, createdAt := 530,
    timeline := sampleConcern.timeline ++
      [{ status := "Assigned", updatedBy := some 30, comment := some "Assigned to Meera",
         timestamp := 540 }] }

/-- The sample world with three concerns. -/
def listWorld : World :=
  { sampleWorld with concerns := [sampleConcern, secondConcern, thirdConcern] }

/-- The sample world with the concern assigned to `meera`. -/
def assignedWorld : World :=
  { sampleWorld with concerns := [{ sampleConcern with status := "Assigned", assignedTo := some 20 }] }

/-- An environment whose clock starts at 2000 and whose new document gets the id 201. -/
def laterEnv : Env :=
  { now := fun k => 2000 + k, newId := 201, adminEmail := some "admin@brototype.com",
    transport := fun _ => true }

/-- An environment whose clock starts at 1500 and whose new document gets the id 200. -/
def chatEnv : Env :=
  { now := fun k => 1500 + k, newId := 200, adminEmail := some "admin@brototype.com",
    transport := fun _ => true }

/-- A message text of 1001 characters: 1000 letters and a trailing space. -/
def paddedMessage : String := String.mk (List.replicate 1000 'a' ++ [' '])

/-- An environment whose clock reads `t`; the mail transport throws. -/
def envAt (t : Date) : Env :=
  { now := fun _ => t, newId := 0, adminEmail := none, transport := fun _ => false }

/-- The mentor `meera` sets the status `Resolved`. -/
def resolveCall : StatusCall :=
  { env := sampleEnv, user := meera, status := "Resolved", comment := some "fixed" }

/-! ## Lemmas on the collections and the helpers -/

theorem findById_id {cs : List Concern} {id : ObjectId} {c : Concern}
    (h : findById cs id = some c) : c._id = id := by
  have := List.find?_some h
  simpa using this

theorem findById_saveConcern_self {cs : List Concern} {c d : Concern}
    (h : findById cs d._id = some c) : findById (saveConcern cs d) d._id = some d := by
  induction cs with
  | nil => simp [findById] at h
  | cons x xs ih =>
    unfold saveConcern
    by_cases hx : x._id = d._id
    · simp [hx, findById]
    · have hxs : findById xs d._id = some c := by
        simpa [findById, List.find?_cons, hx] using h
      simpa [hx, findById, List.find?_cons] using ih hxs

theorem findById_saveConcern_other {cs : List Concern} {d : Concern} {id : ObjectId}
    (h : id ≠ d._id) : findById (saveConcern cs d) id = findById cs id := by
  induction cs with
  | nil => simp [saveConcern]
  | cons x xs ih =>
    unfold saveConcern
    by_cases hx : x._id = d._id
    · have hne : ¬ x._id = id := fun e => h (e ▸ hx)
      have hne2 : ¬ d._id = id := fun e => h e.symm
      simp [hx, findById, List.find?_cons, hne2]
    · by_cases hid : x._id = id
      · subst hid
        simp [hx, findById, List.find?_cons]
      · simpa [hx, findById, List.find?_cons, hid] using ih

@[simp] theorem sendMail_concerns (env : Env) (m : Mail) (w : World) :
    (sendMail env m w).concerns = w.concerns := by
  unfold sendMail; split <;> rfl

@[simp] theorem sendMail_chats (env : Env) (m : Mail) (w : World) :
    (sendMail env m w).chats = w.chats := by
  unfold sendMail; split <;> rfl

@[simp] theorem sendMail_users (env : Env) (m : Mail) (w : World) :
    (sendMail env m w).users = w.users := by
  unfold sendMail; split <;> rfl

@[simp] theorem sendMail_io (env : Env) (m : Mail) (w : World) :
    (sendMail env m w).io = w.io := by
  unfold sendMail; split <;> rfl

@[simp] theorem sendMail_emitted (env : Env) (m : Mail) (w : World) :
    (sendMail env m w).emitted = w.emitted := by
  unfold sendMail; split <;> rfl

@[simp] theorem sendStatusUpdateEmail_concerns (env : Env) (c : Concern) (st : Option User)
    (u : User) (cm : Option String) (w : World) :
    (sendStatusUpdateEmail env c st u cm w).concerns = w.concerns := by
  unfold sendStatusUpdateEmail; split <;> simp

@[simp] theorem sendStatusUpdateEmail_chats (env : Env) (c : Concern) (st : Option User)
    (u : User) (cm : Option String) (w : World) :
    (sendStatusUpdateEmail env c st u cm w).chats = w.chats := by
  unfold sendStatusUpdateEmail; split <;> simp

@[simp] theorem sendStatusUpdateEmail_users (env : Env) (c : Concern) (st : Option User)
    (u : User) (cm : Option String) (w : World) :
    (sendStatusUpdateEmail env c st u cm w).users = w.users := by
  unfold sendStatusUpdateEmail; split <;> simp

@[simp] theorem sendStatusUpdateEmail_io (env : Env) (c : Concern) (st : Option User)
    (u : User) (cm : Option String) (w : World) :
    (sendStatusUpdateEmail env c st u cm w).io = w.io := by
  unfold sendStatusUpdateEmail; split <;> simp

@[simp] theorem sendStatusUpdateEmail_emitted (env : Env) (c : Concern) (st : Option User)
    (u : User) (cm : Option String) (w : World) :
    (sendStatusUpdateEmail env c st u cm w).emitted = w.emitted := by
  unfold sendStatusUpdateEmail; split <;> simp

@[simp] theorem sendAssignmentEmail_concerns (env : Env) (c : Concern) (st : Option User)
    (m : User) (w : World) : (sendAssignmentEmail env c st m w).concerns = w.concerns := by
  unfold sendAssignmentEmail
  split
  · simp
  · split <;> simp

@[simp] theorem sendAssignmentEmail_chats (env : Env) (c : Concern) (st : Option User)
    (m : User) (w : World) : (sendAssignmentEmail env c st m w).chats = w.chats := by
  unfold sendAssignmentEmail
  split
  · simp
  · split <;> simp

@[simp] theorem sendAssignmentEmail_users (env : Env) (c : Concern) (st : Option User)
    (m : User) (w : World) : (sendAssignmentEmail env c st m w).users = w.users := by
  unfold sendAssignmentEmail
  split
  · simp
  · split <;> simp

@[simp] theorem sendConcernSubmissionEmail_concerns (env : Env) (c : Concern) (u : User)
    (w : World) : (sendConcernSubmissionEmail env c u w).concerns = w.concerns := by
  simp [sendConcernSubmissionEmail]

@[simp] theorem sendConcernSubmissionEmail_chats (env : Env) (c : Concern) (u : User)
    (w : World) : (sendConcernSubmissionEmail env c u w).chats = w.chats := by
  simp [sendConcernSubmissionEmail]

@[simp] theorem emitStatusUpdate_concerns (i : ObjectId) (p : Payload) (w : World) :
    (emitStatusUpdate i p w).concerns = w.concerns := by
  unfold emitStatusUpdate; split <;> rfl

@[simp] theorem emitStatusUpdate_chats (i : ObjectId) (p : Payload) (w : World) :
    (emitStatusUpdate i p w).chats = w.chats := by
  unfold emitStatusUpdate; split <;> rfl

@[simp] theorem emitStatusUpdate_users (i : ObjectId) (p : Payload) (w : World) :
    (emitStatusUpdate i p w).users = w.users := by
  unfold emitStatusUpdate; split <;> rfl

@[simp] theorem emitNewMessage_concerns (i : ObjectId) (p : Payload) (w : World) :
    (emitNewMessage i p w).concerns = w.concerns := by
  unfold emitNewMessage; split <;> rfl

@[simp] theorem emitNewMessage_chats (i : ObjectId) (p : Payload) (w : World) :
    (emitNewMessage i p w).chats = w.chats := by
  unfold emitNewMessage; split <;> rfl

theorem findUserById_id {us : List User} {id : ObjectId} {u : User}
    (h : findUserById us id = some u) : u._id = id := by
  have := List.find?_some h
  simpa using this

@[simp] theorem preValidate_id (cs : List Concern) (c : Concern) :
    (preValidate cs c)._id = c._id := by
  unfold preValidate; split <;> rfl

@[simp] theorem preValidate_timeline (cs : List Concern) (c : Concern) :
    (preValidate cs c).timeline = c.timeline := by
  unfold preValidate; split <;> rfl

@[simp] theorem preValidate_status (cs : List Concern) (c : Concern) :
    (preValidate cs c).status = c.status := by
  unfold preValidate; split <;> rfl

@[simp] theorem preValidate_student (cs : List Concern) (c : Concern) :
    (preValidate cs c).student = c.student := by
  unfold preValidate; split <;> rfl

@[simp] theorem preValidate_assignedTo (cs : List Concern) (c : Concern) :
    (preValidate cs c).assignedTo = c.assignedTo := by
  unfold preValidate; split <;> rfl

@[simp] theorem preValidate_rating (cs : List Concern) (c : Concern) :
    (preValidate cs c).rating = c.rating := by
  unfold preValidate; split <;> rfl

@[simp] theorem preValidate_feedback (cs : List Concern) (c : Concern) :
    (preValidate cs c).feedback = c.feedback := by
  unfold preValidate; split <;> rfl

theorem preValidate_of_ticketId {cs : List Concern} {c : Concern} (h : c.ticketId ≠ "") :
    preValidate cs c = c := by
  unfold preValidate; simp [h]

theorem save_eq_some {cs : List Concern} {c saved : Concern} {cs1 : List Concern}
    (h : save cs c = some (saved, cs1)) :
    saved = preValidate cs c ∧ cs1 = saveConcern cs (preValidate cs c) := by
  unfold save at h
  simp only at h
  split at h
  · cases h
  · split at h
    · cases h
    · simp only [Option.some.injEq, Prod.mk.injEq] at h
      exact ⟨h.1.symm, h.2.symm⟩

/-- A `save` that went through stored a document that meets its schema. -/
theorem save_valid {cs : List Concern} {c saved : Concern} {cs1 : List Concern}
    (h : save cs c = some (saved, cs1)) : validDocument saved = true := by
  have hs := (save_eq_some h).1
  unfold save at h
  simp only at h
  split at h
  · cases h
  · rename_i hv
    rw [hs]
    simpa using hv

/-- A document that fails its schema is not saved. -/
theorem save_invalid {cs : List Concern} {c : Concern}
    (h : validDocument (preValidate cs c) = false) : save cs c = none := by
  unfold save
  simp [h]

theorem save_of_valid {cs : List Concern} {c : Concern} (hv : validDocument c = true)
    (h : c.ticketId ≠ "") : save cs c = some (c, saveConcern cs c) := by
  unfold save
  simp [h, preValidate_of_ticketId h, hv]

/-- After a `save` that went through, `findById` returns the saved document. -/
theorem findById_save {cs : List Concern} {c0 c saved : Concern} {cs1 : List Concern}
    (h0 : findById cs c._id = some c0) (h : save cs c = some (saved, cs1)) :
    findById cs1 c._id = some saved := by
  obtain ⟨rfl, rfl⟩ := save_eq_some h
  have h2 : findById cs (preValidate cs c)._id = some c0 := by simpa using h0
  simpa using findById_saveConcern_self h2

/-- A `save` leaves the documents with another `_id` as they were. -/
theorem findById_save_other {cs : List Concern} {c saved : Concern} {cs1 : List Concern}
    {id : ObjectId} (hid : id ≠ c._id) (h : save cs c = some (saved, cs1)) :
    findById cs1 id = findById cs id := by
  obtain ⟨rfl, rfl⟩ := save_eq_some h
  exact findById_saveConcern_other (by simpa using hid)

theorem updateConcernStatus_found (env : Env) (user : User) (id : ObjectId) (status : String)
    (comment : Option String) (w : World) (c : Concern) (hc : findById w.concerns id = some c) :
    (∀ saved cs1, status ∈ statusEnum →
      save w.concerns (withStatus env user status comment c) = some (saved, cs1) →
      (updateConcernStatus env user id status comment w).1.status = 200 ∧
      (updateConcernStatus env user id status comment w).1.data = some saved ∧
      (updateConcernStatus env user id status comment w).2.concerns = cs1 ∧
      (updateConcernStatus env user id status comment w).2.chats = w.chats ∧
      (updateConcernStatus env user id status comment w).2.users = w.users) ∧
    (status ∉ statusEnum ∨ save w.concerns (withStatus env user status comment c) = none →
      updateConcernStatus env user id status comment w = (serverError, w)) := by
  unfold updateConcernStatus
  rw [hc]
  constructor
  · intro saved cs1 hs hsave
    simp only [withStatus] at hsave
    simp [hs, hsave]
  · intro h
    rcases h with hs | hsave
    · simp [hs]
    · simp only [withStatus] at hsave
      simp [hsave]

theorem putStatus_of_role (env : Env) (user : User) (id : ObjectId) (status : String)
    (comment : Option String) (w : World)
    (hrole : user.role = "mentor" ∨ user.role = "admin" ∨ user.role = "superadmin") :
    putStatus env user id status comment w = updateConcernStatus env user id status comment w := by
  unfold putStatus authorize
  rcases hrole with h | h | h <;> simp [h]

/-- What one accepted `PUT /:id/status` does to the concern it names. -/
theorem putStatus_step (call : StatusCall) (id : ObjectId) (w : World) (c : Concern)
    (hrole : call.user.role = "mentor" ∨ call.user.role = "admin" ∨
      call.user.role = "superadmin")
    (hc : findById w.concerns id = some c)
    (hok : (putStatus call.env call.user id call.status call.comment w).1.status = 200) :
    call.status ∈ statusEnum ∧
    ∃ c1, (putStatus call.env call.user id call.status call.comment w).1.data = some c1 ∧
      findById (putStatus call.env call.user id call.status call.comment w).2.concerns id
        = some c1 ∧
      c1.timeline = c.timeline ++ [statusEntry call.env call.user call.status call.comment] ∧
      c1.status = call.status := by
  rw [putStatus_of_role _ _ _ _ _ _ hrole] at hok ⊢
  have hfound := updateConcernStatus_found call.env call.user id call.status call.comment w c hc
  by_cases hs : call.status ∈ statusEnum
  · cases hsave : save w.concerns (withStatus call.env call.user call.status call.comment c) with
    | none =>
      rw [hfound.2 (Or.inr hsave)] at hok
      simp [serverError] at hok
    | some p =>
      obtain ⟨saved, cs1⟩ := p
      obtain ⟨_, hdata, hconc, _⟩ := hfound.1 saved cs1 hs hsave
      have hid : c._id = id := findById_id hc
      have h0 : findById w.concerns
          (withStatus call.env call.user call.status call.comment c)._id = some c := by
        simpa [withStatus, hid] using hc
      have hfind := findById_save h0 hsave
      obtain ⟨hsaved, _⟩ := save_eq_some hsave
      refine ⟨hs, saved, hdata, ?_, ?_, ?_⟩
      · rw [hconc]; simpa [withStatus, hid] using hfind
      · rw [hsaved]; simp [withStatus]
      · rw [hsaved]; simp [withStatus]
  · rw [hfound.2 (Or.inl hs)] at hok
    simp [serverError] at hok

theorem putStatusSeq_all_ok (id : ObjectId) (calls : List StatusCall) :
    ∀ (w : World) (c : Concern),
      (∀ call ∈ calls, call.user.role = "mentor" ∨ call.user.role = "admin" ∨
        call.user.role = "superadmin") →
      findById w.concerns id = some c →
      (∀ r ∈ (putStatusSeq id calls w).1, r.status = 200) →
      ∃ c1, findById (putStatusSeq id calls w).2.concerns id = some c1 ∧
        c1.timeline.length = c.timeline.length + calls.length ∧
        c1.status = (calls.getLast?.map StatusCall.status).getD c.status := by
  induction calls with
  | nil =>
    intro w c _ hc _
    exact ⟨c, by simpa [putStatusSeq] using hc, by simp, by simp⟩
  | cons call rest ih =>
    intro w c hroles hc hall
    have hrole := hroles call (List.mem_cons_self _ _)
    have hok : (putStatus call.env call.user id call.status call.comment w).1.status = 200 :=
      hall _ (by simp [putStatusSeq])
    obtain ⟨_, c2, _, hfind, htl, hst⟩ := putStatus_step call id w c hrole hc hok
    have hrest : ∀ r ∈ (putStatusSeq id rest
        (putStatus call.env call.user id call.status call.comment w).2).1, r.status = 200 := by
      intro r hr
      exact hall r (by simp [putStatusSeq, hr])
    obtain ⟨c1, h1, h2, h3⟩ := ih _ _ (fun x hx => hroles x (List.mem_cons_of_mem _ hx)) hfind hrest
    refine ⟨c1, by simpa [putStatusSeq] using h1, ?_, ?_⟩
    · rw [h2, htl]; simp; omega
    · rw [h3, hst]
      cases rest with
      | nil => simp
      | cons y ys =>
        have hl : (y :: ys).getLast? = some ((y :: ys).getLast (List.cons_ne_nil _ _)) :=
          List.getLast?_eq_getLast _ _
        simp only [List.getLast?_cons_cons, hl, Option.map_some', Option.getD_some]

/-! ## What each handler does to the collections -/

theorem updateConcernStatus_cases (env : Env) (user : User) (id : ObjectId) (status : String)
    (comment : Option String) (w : World) :
    ((updateConcernStatus env user id status comment w).1.status ≠ 200 ∧
      (updateConcernStatus env user id status comment w).2 = w) ∨
    ∃ c0 saved cs1, findById w.concerns id = some c0 ∧ status ∈ statusEnum ∧
      save w.concerns (withStatus env user status comment c0) = some (saved, cs1) ∧
      (updateConcernStatus env user id status comment w).1.status = 200 ∧
      (updateConcernStatus env user id status comment w).1.data = some saved ∧
      (updateConcernStatus env user id status comment w).2.concerns = cs1 ∧
      (updateConcernStatus env user id status comment w).2.chats = w.chats ∧
      (updateConcernStatus env user id status comment w).2.users = w.users := by
  cases hc : findById w.concerns id with
  | none => left; simp [updateConcernStatus, hc, failure]
  | some c0 =>
    have hfound := updateConcernStatus_found env user id status comment w c0 hc
    by_cases hs : status ∈ statusEnum
    · cases hsave : save w.concerns (withStatus env user status comment c0) with
      | none => left; rw [hfound.2 (Or.inr hsave)]; simp [serverError]
      | some p =>
        obtain ⟨saved, cs1⟩ := p
        right
        exact ⟨c0, saved, cs1, rfl, hs, hsave, hfound.1 saved cs1 hs hsave⟩
    · left; rw [hfound.2 (Or.inl hs)]; simp [serverError]

theorem assignConcern_cases (env : Env) (user : User) (id mentorId : ObjectId) (w : World) :
    ((assignConcern env user id mentorId w).1.status ≠ 200 ∧
      (assignConcern env user id mentorId w).2 = w) ∨
    ∃ c0 mentor saved cs1, findById w.concerns id = some c0 ∧
      findUserById w.users mentorId = some mentor ∧
      save w.concerns (withAssignment env user mentorId mentor c0) = some (saved, cs1) ∧
      (assignConcern env user id mentorId w).1.status = 200 ∧
      (assignConcern env user id mentorId w).1.data = some saved ∧
      (assignConcern env user id mentorId w).2.concerns = cs1 ∧
      (assignConcern env user id mentorId w).2.chats = w.chats ∧
      (assignConcern env user id mentorId w).2.users = w.users := by
  cases hc : findById w.concerns id with
  | none => left; simp [assignConcern, hc, failure]
  | some c0 =>
    cases hm : findUserById w.users mentorId with
    | none => left; simp [assignConcern, hc, hm, failure]
    | some mentor =>
      cases hsave : save w.concerns (withAssignment env user mentorId mentor c0) with
      | none =>
        left
        simp only [withAssignment] at hsave
        simp [assignConcern, hc, hm, hsave, serverError, statusEnum]
      | some p =>
        obtain ⟨saved, cs1⟩ := p
        right
        refine ⟨c0, mentor, saved, cs1, rfl, rfl, hsave, ?_⟩
        simp only [withAssignment] at hsave
        simp [assignConcern, hc, hm, hsave, statusEnum]

theorem rateConcern_cases (user : User) (id : ObjectId) (rating : Option Int)
    (feedback : Option String) (w : World) :
    ((rateConcern user id rating feedback w).1.status ≠ 200 ∧
      (rateConcern user id rating feedback w).2 = w) ∨
    ∃ c0 saved cs1, findById w.concerns id = some c0 ∧ c0.student = user._id ∧
      (c0.status = "Resolved" ∨ c0.status = "Closed") ∧
      validRating rating (trim (orEmpty feedback)) = true ∧
      save w.concerns (withRating rating feedback c0) = some (saved, cs1) ∧
      (rateConcern user id rating feedback w).1.status = 200 ∧
      (rateConcern user id rating feedback w).1.data = some saved ∧
      (rateConcern user id rating feedback w).2.concerns = cs1 ∧
      (rateConcern user id rating feedback w).2.chats = w.chats ∧
      (rateConcern user id rating feedback w).2.users = w.users := by
  cases hc : findById w.concerns id with
  | none => left; simp [rateConcern, hc, failure]
  | some c0 =>
    by_cases hown : c0.student = user._id
    · by_cases hst : c0.status ≠ "Resolved" ∧ c0.status ≠ "Closed"
      · left; simp [rateConcern, hc, hown, hst, failure]
      · have hst2 : c0.status = "Resolved" ∨ c0.status = "Closed" := by
          by_contra hcon
          exact hst ⟨fun h => hcon (Or.inl h), fun h => hcon (Or.inr h)⟩
        cases hv : validRating rating (trim (orEmpty feedback)) with
        | false => left; simp [rateConcern, hc, hown, hst, hv, serverError]
        | true =>
          cases hsave : save w.concerns (withRating rating feedback c0) with
          | none =>
            left
            simp only [withRating, hown] at hsave
            simp [rateConcern, hc, hown, hst, hv, hsave, serverError]
          | some p =>
            obtain ⟨saved, cs1⟩ := p
            right
            refine ⟨c0, saved, cs1, rfl, hown, hst2, rfl, hsave, ?_⟩
            simp only [withRating, hown] at hsave
            simp [rateConcern, hc, hown, hst, hv, hsave]
    · left; simp [rateConcern, hc, hown, failure]

theorem ticketIdFor_ne_empty (n : Nat) : ticketIdFor n ≠ "" := by
  intro h
  have h2 := congrArg String.length h
  simp only [ticketIdFor, String.length_append] at h2
  have h3 : "BRT".length = 3 := by decide
  simp [h3] at h2

theorem preValidate_newConcern (env : Env) (user : User) (body : CreateBody)
    (cs : List Concern) :
    preValidate cs (newConcern env user body)
      = { newConcern env user body with ticketId := ticketIdFor (countDocuments cs) } := by
  simp [preValidate, newConcern]

theorem findById_append_new {cs : List Concern} {c : Concern}
    (h : ∀ d ∈ cs, d._id ≠ c._id) : findById (cs ++ [c]) c._id = some c := by
  unfold findById
  rw [List.find?_append]
  have hnone : cs.find? (fun d => d._id == c._id) = none := by
    rw [List.find?_eq_none]
    intro d hd
    simpa using h d hd
  simp [hnone]

theorem findById_append_other {cs : List Concern} {c : Concern} {id : ObjectId}
    (h : id ≠ c._id) : findById (cs ++ [c]) id = findById cs id := by
  unfold findById
  rw [List.find?_append]
  have hne : ¬ c._id = id := fun e => h e.symm
  cases cs.find? (fun d => d._id == id) <;> simp [hne]

theorem saveConcern_length (cs : List Concern) (d : Concern) :
    (saveConcern cs d).length = cs.length := by
  induction cs with
  | nil => rfl
  | cons x xs ih =>
    unfold saveConcern
    split <;> simp [ih]

theorem insertAccepted_ids {cs : List Concern} {c : Concern}
    (h : insertAccepted cs c = true) : ∀ d ∈ cs, d._id ≠ c._id ∧ d.ticketId ≠ c.ticketId := by
  intro d hd
  have := (List.all_eq_true.mp h) d hd
  simpa using this

theorem requiredText_stored {v : Option String} {n : Nat} (h : requiredText v n = true) :
    storedText (trim (v.getD "")) n = true := by
  cases v with
  | none => simp [requiredText] at h
  | some t => simpa [requiredText, storedText] using h

/-- A creation request that passes `validCreate` yields a document that meets
the schema, whatever its ticket id and attachments. -/
theorem validDocument_newConcern (env : Env) (user : User) (body : CreateBody)
    (ticketId : String) (attachments : List Attachment) (h : validCreate user body = true) :
    validDocument { newConcern env user body with
      ticketId := ticketId, attachments := attachments } = true := by
  unfold validCreate at h
  simp only [Bool.and_eq_true] at h
  obtain ⟨⟨⟨⟨h1, h2⟩, h3⟩, h4⟩, h5⟩ := h
  have t1 := requiredText_stored h1
  have t2 := requiredText_stored h2
  have t3 : categoryEnum.contains (body.category.getD "") = true := by
    cases hc : body.category with
    | none => rw [hc] at h3; cases h3
    | some c => rw [hc] at h3; simpa using h3
  have t4 : severityEnum.contains (match body.severity with
      | BodyField.absent => "Medium"
      | BodyField.null => ""
      | BodyField.text v => v) = true := by
    cases hs : body.severity with
    | absent => decide
    | null => rw [hs] at h4; cases h4
    | text v => rw [hs] at h4; simpa using h4
  have t5 : (match orElseStr body.campus user.campus with
      | none => true
      | some v => campusEnum.contains v) = true := h5
  have t6 : statusEnum.contains "Submitted" = true := by decide
  simp only [validDocument, newConcern, t1, t2, t3, t4, t5, t6, Bool.and_self]

theorem storedText_required {v : Option String} {n : Nat}
    (h : storedText (trim (v.getD "")) n = true) : requiredText v n = true := by
  cases v with
  | none =>
    exfalso
    have he : trim "" = "" := by decide
    simp [storedText, he] at h
  | some t => simpa [requiredText, storedText] using h

/-- The check `validCreate` on the body is the validation of the document
`Concern.create` builds from it. -/
theorem validCreate_eq_validDocument (env : Env) (user : User) (body : CreateBody) :
    validCreate user body = validDocument (newConcern env user body) := by
  rw [Bool.eq_iff_iff]
  constructor
  · intro h
    exact validDocument_newConcern env user body "" [] h
  · intro h
    simp only [validDocument, newConcern, Bool.and_eq_true] at h
    obtain ⟨⟨⟨⟨⟨⟨⟨h1, h2⟩, h3⟩, h4⟩, _⟩, h6⟩, _⟩, _⟩ := h
    have t1 := storedText_required h1
    have t2 := storedText_required h2
    have t3 : (match body.category with
        | none => false
        | some c => categoryEnum.contains c) = true := by
      cases hc : body.category with
      | none => rw [hc] at h3; exact absurd h3 (by decide)
      | some c => rw [hc] at h3; simpa using h3
    have t4 : (match body.severity with
        | BodyField.absent => true
        | BodyField.null => false
        | BodyField.text v => severityEnum.contains v) = true := by
      cases hs : body.severity with
      | absent => rfl
      | null => rw [hs] at h4; exact absurd h4 (by decide)
      | text v => rw [hs] at h4; simpa using h4
    simp only [validCreate, t1, t2, t3, t4, h6, Bool.and_self]

/-- The two outcomes of `createConcern`: the request fails validation or the
insert is rejected, and nothing changes; or the concern is stored and returned. -/
theorem createConcern_cases (env : Env) (user : User) (body : CreateBody)
    (files : List UploadedFile) (w : World) :
    (¬ (validCreate user body = true ∧
        insertAccepted w.concerns (preValidate w.concerns (newConcern env user body)) = true) ∧
      createConcern env user body files w = (serverError, w)) ∨
    (validCreate user body = true ∧
      insertAccepted w.concerns (preValidate w.concerns (newConcern env user body)) = true ∧
      (createConcern env user body files w).1.status = 201 ∧
      (createConcern env user body files w).1.data = some (createdConcern env user body files w) ∧
      findById (createConcern env user body files w).2.concerns env.newId
        = some (createdConcern env user body files w) ∧
      (∀ id, id ≠ env.newId →
        findById (createConcern env user body files w).2.concerns id = findById w.concerns id) ∧
      (createConcern env user body files w).2.concerns.length = w.concerns.length + 1 ∧
      (createConcern env user body files w).2.chats = w.chats ∧
      (createConcern env user body files w).2.users = w.users) := by
  by_cases hv : validCreate user body = true ∧
      insertAccepted w.concerns (preValidate w.concerns (newConcern env user body)) = true
  · right
    obtain ⟨hv1, hv2⟩ := hv
    have hids := insertAccepted_ids hv2
    have hnew : findById (w.concerns ++ [preValidate w.concerns (newConcern env user body)])
        env.newId = some (preValidate w.concerns (newConcern env user body)) := by
      have := @findById_append_new w.concerns
        (preValidate w.concerns (newConcern env user body)) (fun d hd => (hids d hd).1)
      simpa [newConcern] using this
    refine ⟨hv1, hv2, ?_⟩
    by_cases hf : files.length > 0
    · have hsave : save (w.concerns ++ [preValidate w.concerns (newConcern env user body)])
          { preValidate w.concerns (newConcern env user body) with
            attachments := files.map (toAttachment (some (env.now 2))) }
          = some (createdConcern env user body files w,
              saveConcern (w.concerns ++ [preValidate w.concerns (newConcern env user body)])
                (createdConcern env user body files w)) := by
        have hne : ({ preValidate w.concerns (newConcern env user body) with
            attachments := files.map (toAttachment (some (env.now 2))) } : Concern).ticketId
            ≠ "" := by
          simpa [preValidate_newConcern] using ticketIdFor_ne_empty _
        have hvd : validDocument ({ preValidate w.concerns (newConcern env user body) with
            attachments := files.map (toAttachment (some (env.now 2))) } : Concern) = true := by
          rw [preValidate_newConcern]
          exact validDocument_newConcern env user body _ _ hv1
        rw [save_of_valid hvd hne]
        simp [createdConcern, preValidate_newConcern, hf]
      have hfind := @findById_saveConcern_self
        (w.concerns ++ [preValidate w.concerns (newConcern env user body)])
        (preValidate w.concerns (newConcern env user body))
        (createdConcern env user body files w)
        (by simpa [createdConcern, newConcern] using hnew)
      have hcid : (createdConcern env user body files w)._id = env.newId := by
        simp [createdConcern, newConcern]
      have heq : createConcern env user body files w
          = ({ status := 201, success := true, message := some "Concern submitted successfully",
               data := some (createdConcern env user body files w), count := none },
             sendConcernSubmissionEmail env (createdConcern env user body files w) user
               { w with concerns := (saveConcern
                  (w.concerns ++ [preValidate w.concerns (newConcern env user body)])
                  (createdConcern env user body files w)) }) := by
        unfold createConcern
        simp only [hv1, hv2, hf, Bool.and_self, if_true, hsave]
      rw [heq]
      refine ⟨rfl, rfl, ?_, ?_, ?_, ?_, ?_⟩
      · simpa [hcid] using hfind
      · intro id hid
        simp only [sendConcernSubmissionEmail_concerns]
        rw [findById_saveConcern_other (by simpa [hcid] using hid)]
        exact findById_append_other (by simpa [newConcern] using hid)
      · simp [saveConcern_length]
      · simp
      · simp [sendConcernSubmissionEmail]
    · have hcc : createdConcern env user body files w
          = preValidate w.concerns (newConcern env user body) := by
        rw [preValidate_newConcern]
        simp [createdConcern, hf, newConcern]
      have heq : createConcern env user body files w
          = ({ status := 201, success := true, message := some "Concern submitted successfully",
               data := some (createdConcern env user body files w), count := none },
             sendConcernSubmissionEmail env (createdConcern env user body files w) user
               { w with concerns :=
                  (w.concerns ++ [preValidate w.concerns (newConcern env user body)]) }) := by
        unfold createConcern
        simp only [hv1, hv2, hf, Bool.and_self, if_true, if_false, hcc]
      rw [heq]
      refine ⟨rfl, rfl, ?_, ?_, ?_, ?_, ?_⟩
      · simpa [hcc] using hnew
      · intro id hid
        simp only [sendConcernSubmissionEmail_concerns]
        exact findById_append_other (by simpa [newConcern] using hid)
      · simp
      · simp
      · simp [sendConcernSubmissionEmail]
  · left
    refine ⟨hv, ?_⟩
    unfold createConcern
    have : (validCreate user body &&
        insertAccepted w.concerns (preValidate w.concerns (newConcern env user body))) = false := by
      simpa using hv
    simp only [this]
    rfl

/-- After a `save` of a modified copy of the stored document `c0`, a lookup
finds the saved document under its `_id` and the old document under any other. -/
theorem findById_after_save {cs cs1 : List Concern} {c0 cmod saved c : Concern}
    {id0 id : ObjectId} (h0 : findById cs id0 = some c0) (hid : cmod._id = c0._id)
    (hsave : save cs cmod = some (saved, cs1)) (hc : findById cs id = some c) :
    (id = id0 ∧ c = c0 ∧ findById cs1 id = some saved) ∨
    (id ≠ id0 ∧ findById cs1 id = some c) := by
  have hid0 : c0._id = id0 := findById_id h0
  by_cases hE : id = id0
  · left
    subst hE
    have hcc : c = c0 := by rw [h0] at hc; exact (Option.some.inj hc).symm
    refine ⟨rfl, hcc, ?_⟩
    have h0' : findById cs cmod._id = some c0 := by rw [hid, hid0]; exact h0
    have := findById_save h0' hsave
    rwa [hid, hid0] at this
  · right
    refine ⟨hE, ?_⟩
    rw [findById_save_other (by rw [hid, hid0]; exact hE) hsave]
    exact hc

/-- What an operation does to a stored concern: nothing, or it saves the
concern with a new status entry, with an assignment, or with a rating. -/
theorem ConcernOp.run_find (op : ConcernOp) (w : World) (id : ObjectId) (c : Concern)
    (hc : findById w.concerns id = some c) :
    findById (op.run w).2.concerns id = some c ∨
    (∃ env user status comment, status ∈ statusEnum ∧
      findById (op.run w).2.concerns id
        = some (preValidate w.concerns (withStatus env user status comment c))) ∨
    (∃ env user mentorId mentor,
      findById (op.run w).2.concerns id
        = some (preValidate w.concerns (withAssignment env user mentorId mentor c))) ∨
    (∃ rating feedback, (c.status = "Resolved" ∨ c.status = "Closed") ∧
      findById (op.run w).2.concerns id
        = some (preValidate w.concerns (withRating rating feedback c))) := by
  cases op with
  | updateStatus env user id0 status comment =>
    simp only [ConcernOp.run]
    rcases updateConcernStatus_cases env user id0 status comment w with h | h
    · left; rw [h.2]; exact hc
    · obtain ⟨c0, saved, cs1, h0, hs, hsave, _, _, hcs, _⟩ := h
      rw [hcs]
      rcases findById_after_save h0 (by simp [withStatus]) hsave hc with ⟨_, hcc, hf⟩ | ⟨_, hf⟩
      · right; left
        refine ⟨env, user, status, comment, hs, ?_⟩
        rw [hf, hcc, (save_eq_some hsave).1]
      · left; exact hf
  | assign env user id0 mentorId =>
    simp only [ConcernOp.run]
    rcases assignConcern_cases env user id0 mentorId w with h | h
    · left; rw [h.2]; exact hc
    · obtain ⟨c0, mentor, saved, cs1, h0, _, hsave, _, _, hcs, _⟩ := h
      rw [hcs]
      rcases findById_after_save h0 (by simp [withAssignment]) hsave hc with
        ⟨_, hcc, hf⟩ | ⟨_, hf⟩
      · right; right; left
        refine ⟨env, user, mentorId, mentor, ?_⟩
        rw [hf, hcc, (save_eq_some hsave).1]
      · left; exact hf
  | rate user id0 rating feedback =>
    simp only [ConcernOp.run]
    rcases rateConcern_cases user id0 rating feedback w with h | h
    · left; rw [h.2]; exact hc
    · obtain ⟨c0, saved, cs1, h0, _, hst, _, hsave, _, _, hcs, _⟩ := h
      rw [hcs]
      rcases findById_after_save h0 (by simp [withRating]) hsave hc with ⟨_, hcc, hf⟩ | ⟨_, hf⟩
      · right; right; right
        refine ⟨rating, feedback, hcc ▸ hst, ?_⟩
        rw [hf, hcc, (save_eq_some hsave).1]
      · left; exact hf

/-- One operation keeps every stored concern and extends its timeline at the end. -/
theorem ConcernOp.run_timeline (op : ConcernOp) (w : World) (id : ObjectId) (c : Concern)
    (hc : findById w.concerns id = some c) :
    ∃ c1, findById (op.run w).2.concerns id = some c1 ∧ c.timeline <+: c1.timeline := by
  rcases op.run_find w id c hc with h | ⟨env, user, status, comment, _, h⟩ |
    ⟨env, user, mentorId, mentor, h⟩ | ⟨rating, feedback, _, h⟩
  · exact ⟨c, h, ⟨[], by simp⟩⟩
  · exact ⟨_, h, ⟨[statusEntry env user status comment], by simp [withStatus]⟩⟩
  · exact ⟨_, h, ⟨[assignEntry env user mentor], by simp [withAssignment]⟩⟩
  · exact ⟨_, h, ⟨[], by simp [withRating]⟩⟩

theorem runOps_timeline (ops : List ConcernOp) :
    ∀ (w : World) (id : ObjectId) (c : Concern), findById w.concerns id = some c →
      ∃ c1, findById (runOps ops w).concerns id = some c1 ∧ c.timeline <+: c1.timeline := by
  induction ops with
  | nil => intro w id c hc; exact ⟨c, hc, ⟨[], by simp⟩⟩
  | cons op ops ih =>
    intro w id c hc
    obtain ⟨c1, h1, ⟨t1, ht1⟩⟩ := op.run_timeline w id c hc
    obtain ⟨c2, h2, ⟨t2, ht2⟩⟩ := ih (op.run w).2 id c1 h1
    exact ⟨c2, h2, ⟨t1 ++ t2, by rw [← ht2, ← ht1, List.append_assoc]⟩⟩

/-- C2: the timeline is append-only and never empty. Every call of
`updateConcernStatus`, `assignConcern` or `rateConcern`, on any concern and
whether it is accepted or rejected, keeps each stored concern and leaves its
earlier timeline as a prefix of its later timeline, entry for entry; and a
concern that `createConcern` returns is stored with a timeline of one entry and
has, after any sequence of those operations, a timeline that starts with that
entry and has length at least 1. -/
theorem timeline_append_only :
    (∀ (op : ConcernOp) (w : World) (id : ObjectId) (c : Concern),
      findById w.concerns id = some c →
      ∃ c1, findById (op.run w).2.concerns id = some c1 ∧ c.timeline <+: c1.timeline ∧
        c.timeline.length ≤ c1.timeline.length) ∧
    (∀ (env : Env) (user : User) (body : CreateBody) (files : List UploadedFile) (w : World)
      (c : Concern), (createConcern env user body files w).1.data = some c →
      findById (createConcern env user body files w).2.concerns c._id = some c ∧
      c.timeline.length = 1 ∧
      ∀ ops : List ConcernOp,
        ∃ c1, findById (runOps ops (createConcern env user body files w).2).concerns c._id
            = some c1 ∧
          c.timeline <+: c1.timeline ∧ 1 ≤ c1.timeline.length) := by
  constructor
  · intro op w id c hc
    obtain ⟨c1, h1, ⟨t, ht⟩⟩ := op.run_timeline w id c hc
    exact ⟨c1, h1, ⟨t, ht⟩, by rw [← ht]; simp⟩
  · intro env user body files w c hdata
    rcases createConcern_cases env user body files w with ⟨_, h⟩ | h
    · rw [h] at hdata
      simp [serverError] at hdata
    · obtain ⟨_, _, _, hd, hfind, _⟩ := h
      rw [hd] at hdata
      have hcc : createdConcern env user body files w = c := Option.some.inj hdata
      have hid : c._id = env.newId := by rw [← hcc]; simp [createdConcern, newConcern]
      have hlen : c.timeline.length = 1 := by rw [← hcc]; simp [createdConcern, newConcern]
      rw [hid]
      rw [hcc] at hfind
      refine ⟨hfind, hlen, ?_⟩
      intro ops
      obtain ⟨c1, h1, ⟨t, ht⟩⟩ := runOps_timeline ops _ env.newId c hfind
      refine ⟨c1, h1, ⟨t, ht⟩, ?_⟩
      rw [← ht, List.length_append, hlen]
      omega

/-- Witness of C2: `asha` creates the sample concern; the admin assigns it to
`meera`, `meera` resolves it and `asha` rates it; the one-entry timeline of the
created concern is a prefix of the final timeline. -/
theorem timeline_append_only_witness :
    (createConcern createEnv asha sampleBody [] emptyWorld).1.data = some sampleConcern ∧
    ∃ c1, findById (runOps [ConcernOp.assign sampleEnv adminUser 1 20,
          ConcernOp.updateStatus sampleEnv meera 1 "Resolved" none,
          ConcernOp.rate asha 1 (some 5) (some "great")]
        (createConcern createEnv asha sampleBody [] emptyWorld).2).concerns sampleConcern._id
        = some c1 ∧
      sampleConcern.timeline <+: c1.timeline ∧ 1 ≤ c1.timeline.length :=
  ⟨by decide,
   ((timeline_append_only.2 createEnv asha sampleBody [] emptyWorld sampleConcern
      (by decide)).2.2 _)⟩

/-! ## Decimal numerals -/

theorem digitChar_isDigit (k : Nat) (h : k < 10) : (Nat.digitChar k).isDigit = true := by
  interval_cases k <;> decide

theorem digitChar_value (k : Nat) (h : k < 10) : (Nat.digitChar k).toNat - 48 = k := by
  interval_cases k <;> decide

theorem toDigitsCore_isDigit (fuel : Nat) :
    ∀ (n : Nat) (ds : List Char), (∀ c ∈ ds, c.isDigit = true) →
      ∀ c ∈ Nat.toDigitsCore 10 fuel n ds, c.isDigit = true := by
  induction fuel with
  | zero => intro n ds h; simpa [Nat.toDigitsCore] using h
  | succ fuel ih =>
    intro n ds h
    have hd : ∀ c ∈ Nat.digitChar (n % 10) :: ds, c.isDigit = true := by
      intro c hc
      rcases List.mem_cons.mp hc with rfl | hc
      · exact digitChar_isDigit _ (Nat.mod_lt _ (by norm_num))
      · exact h c hc
    simp only [Nat.toDigitsCore]
    split
    · exact hd
    · exact ih _ _ hd

theorem toDigitsCore_value (fuel : Nat) :
    ∀ (n : Nat) (ds : List Char), n < fuel →
      (Nat.toDigitsCore 10 fuel n ds).foldl (fun acc c => acc * 10 + (c.toNat - 48)) 0
        = ds.foldl (fun acc c => acc * 10 + (c.toNat - 48)) n := by
  induction fuel with
  | zero => intro n ds h; omega
  | succ fuel ih =>
    intro n ds h
    have hv := digitChar_value (n % 10) (Nat.mod_lt _ (by norm_num))
    simp only [Nat.toDigitsCore]
    split
    · rename_i h0
      have hn : n % 10 = n := by omega
      rw [List.foldl_cons, Nat.zero_mul, Nat.zero_add, hv, hn]
    · rename_i h0
      have hlt : n / 10 < fuel := by omega
      rw [ih (n / 10) _ hlt]
      simp only [List.foldl_cons, hv]
      have hn : n / 10 * 10 + n % 10 = n := by omega
      rw [hn]

theorem isDigit_value_le (c : Char) (h : c.isDigit = true) : c.toNat - 48 ≤ 9 := by
  simp only [Char.isDigit, Bool.and_eq_true, decide_eq_true_eq] at h
  have h2 : c.val.toNat ≤ 57 := by
    have := h.2
    exact UInt32.le_def.mp this
  show c.val.toNat - 48 ≤ 9
  omega

theorem foldl_value_lt (ds : List Char) :
    ∀ a : Nat, (∀ c ∈ ds, c.isDigit = true) →
      ds.foldl (fun acc c => acc * 10 + (c.toNat - 48)) a < (a + 1) * 10 ^ ds.length := by
  induction ds with
  | nil => intro a _; simp
  | cons d ds ih =>
    intro a h
    have hd := isDigit_value_le d (h d (List.mem_cons_self _ _))
    have := ih (a * 10 + (d.toNat - 48)) (fun c hc => h c (List.mem_cons_of_mem _ hc))
    simp only [List.foldl_cons, List.length_cons, pow_succ]
    calc _ < (a * 10 + (d.toNat - 48) + 1) * 10 ^ ds.length := this
      _ ≤ ((a + 1) * 10) * 10 ^ ds.length := Nat.mul_le_mul_right _ (by omega)
      _ = (a + 1) * (10 ^ ds.length * 10) := by ring

theorem foldl_value_zeros (k : Nat) (ds : List Char) :
    (List.replicate k '0' ++ ds).foldl (fun acc c => acc * 10 + (c.toNat - 48)) 0
      = ds.foldl (fun acc c => acc * 10 + (c.toNat - 48)) 0 := by
  induction k with
  | zero => simp
  | succ k ih =>
    rw [List.replicate_succ, List.cons_append, List.foldl_cons]
    have : (0 * 10 + ('0'.toNat - 48)) = 0 := by decide
    rw [this, ih]

theorem toString_data (n : Nat) : (toString n).data = Nat.toDigits 10 n := rfl

theorem toString_isDigit (n : Nat) : ∀ c ∈ (toString n).data, c.isDigit = true := by
  rw [toString_data]
  exact toDigitsCore_isDigit _ _ _ (by simp)

theorem toString_value (n : Nat) : decimalValue (toString n) = n := by
  unfold decimalValue
  rw [toString_data]
  have := toDigitsCore_value (n + 1) n [] (by omega)
  simpa [Nat.toDigits] using this

theorem jsLength_digits (s : String) (h : ∀ c ∈ s.data, c.isDigit = true) :
    jsLength s = s.length := by
  unfold jsLength
  have hone : ∀ l : List Char, (∀ c ∈ l, c.isDigit = true) →
      (l.map fun c => if c.toNat < 0x10000 then 1 else 2).sum = l.length := by
    intro l
    induction l with
    | nil => intro _; rfl
    | cons c l ih =>
      intro hl
      have hc := isDigit_value_le c (hl c (List.mem_cons_self _ _))
      have hlt : c.toNat < 0x10000 := by omega
      simp only [List.map_cons, List.sum_cons, hlt, if_true, List.length_cons,
        ih (fun x hx => hl x (List.mem_cons_of_mem _ hx))]
      omega
  exact hone s.data h

/-! ## The generated ticket id -/

theorem ticketIdFor_data (n : Nat) :
    (ticketIdFor n).data = ['B', 'R', 'T'] ++ (padStart (toString (n + 1)) 6 '0').data := by
  simp [ticketIdFor, String.data_append]

theorem ticketCode_ticketIdFor (n : Nat) :
    ticketCode (ticketIdFor n) = padStart (toString (n + 1)) 6 '0' := by
  unfold ticketCode
  rw [ticketIdFor_data]
  rfl

theorem padStart_toString_data (n : Nat) :
    (padStart (toString n) 6 '0').data
      = List.replicate (6 - (toString n).length) '0' ++ (toString n).data := by
  simp [padStart, jsLength_digits _ (toString_isDigit n)]

theorem padStart_toString_isDigit (n : Nat) :
    ∀ c ∈ (padStart (toString n) 6 '0').data, c.isDigit = true := by
  intro c hc
  rw [padStart_toString_data, List.mem_append] at hc
  rcases hc with hc | hc
  · rw [(List.mem_replicate.mp hc).2]; decide
  · exact toString_isDigit n c hc

theorem padStart_toString_value (n : Nat) : decimalValue (padStart (toString n) 6 '0') = n := by
  have h := toString_value n
  unfold decimalValue at h ⊢
  rw [padStart_toString_data, foldl_value_zeros, h]

theorem padStart_toString_length (n : Nat) :
    (padStart (toString n) 6 '0').length = max 6 (toString n).length := by
  show (padStart (toString n) 6 '0').data.length = _
  rw [padStart_toString_data, List.length_append, List.length_replicate]
  show _ + (toString n).length = _
  omega

theorem toString_length_le (n : Nat) (h : n < 10 ^ 6) : (toString n).length ≤ 6 :=
  Nat.repr_length n 6 (by norm_num) h

theorem toString_length_gt (n : Nat) (h : 10 ^ 6 ≤ n) : 6 < (toString n).length := by
  have hv := toString_value n
  have hlt := foldl_value_lt (toString n).data 0 (toString_isDigit n)
  unfold decimalValue at hv
  rw [hv, Nat.zero_add, Nat.one_mul] at hlt
  have h2 : 10 ^ 6 < 10 ^ (toString n).data.length := lt_of_le_of_lt h hlt
  exact (Nat.pow_lt_pow_iff_right (by norm_num)).mp h2

theorem ticketIdFor_length (n : Nat) :
    (ticketIdFor n).length = 3 + (padStart (toString (n + 1)) 6 '0').length := by
  show (ticketIdFor n).data.length = _
  rw [ticketIdFor_data]
  simp [List.length_append]
  omega

theorem isGeneratedTicketId_ticketIdFor (n : Nat) : isGeneratedTicketId (ticketIdFor n) = true := by
  unfold isGeneratedTicketId
  rw [ticketCode_ticketIdFor]
  have h1 : (ticketIdFor n).data.take 3 = ['B', 'R', 'T'] := by
    rw [ticketIdFor_data]; rfl
  have h2 : (padStart (toString (n + 1)) 6 '0').data.all Char.isDigit = true :=
    List.all_eq_true.mpr (padStart_toString_isDigit (n + 1))
  have h3 : 6 ≤ (padStart (toString (n + 1)) 6 '0').length := by
    rw [padStart_toString_length]; omega
  simp [h1, h2, h3]

/-- C3: for a creation request that passes the validators (with or without
uploaded files), every concern that `createConcern` returns has status
`Submitted`, a timeline of exactly one entry whose status is `Submitted`, and a
non-empty ticket id in the generated format (`BRT`, then the number of stored
concerns plus one in decimal digits, padded with zeros to at least six digits);
the answer is then 201 and the concern is stored. The request is answered with
such a concern exactly when no stored concern already has the new `_id` or the
generated ticket id. -/
theorem createConcern_submitted (env : Env) (user : User) (body : CreateBody)
    (files : List UploadedFile) (w : World) (hvalid : validCreate user body = true) :
    (∀ c, (createConcern env user body files w).1.data = some c →
      c.status = "Submitted" ∧ c.timeline.length = 1 ∧
      c.timeline.map TimelineEntry.status = ["Submitted"] ∧
      c.ticketId ≠ "" ∧ c.ticketId = ticketIdFor (countDocuments w.concerns) ∧
      isGeneratedTicketId c.ticketId = true ∧
      (createConcern env user body files w).1.status = 201 ∧
      findById (createConcern env user body files w).2.concerns c._id = some c) ∧
    ((∃ c, (createConcern env user body files w).1.data = some c) ↔
      ∀ d ∈ w.concerns, d._id ≠ env.newId ∧
        d.ticketId ≠ ticketIdFor (countDocuments w.concerns)) := by
  have hfresh : insertAccepted w.concerns (preValidate w.concerns (newConcern env user body))
      = true ↔ ∀ d ∈ w.concerns, d._id ≠ env.newId ∧
        d.ticketId ≠ ticketIdFor (countDocuments w.concerns) := by
    rw [preValidate_newConcern]
    simp [insertAccepted, newConcern]
  constructor
  · intro c hdata
    rcases createConcern_cases env user body files w with ⟨_, h⟩ | h
    · rw [h] at hdata
      simp [serverError] at hdata
    · obtain ⟨_, _, hst, hd, hfind, _⟩ := h
      rw [hd] at hdata
      have hcc : createdConcern env user body files w = c := Option.some.inj hdata
      have hid : c._id = env.newId := by rw [← hcc]; simp [createdConcern, newConcern]
      have htid : c.ticketId = ticketIdFor (countDocuments w.concerns) := by
        rw [← hcc]; simp [createdConcern]
      refine ⟨by rw [← hcc]; simp [createdConcern, newConcern],
        by rw [← hcc]; simp [createdConcern, newConcern],
        by rw [← hcc]; simp [createdConcern, newConcern], ?_, htid, ?_, hst, ?_⟩
      · rw [htid]; exact ticketIdFor_ne_empty _
      · rw [htid]; exact isGeneratedTicketId_ticketIdFor _
      · rw [hid, ← hcc]; exact hfind
  · constructor
    · rintro ⟨c, hdata⟩
      rcases createConcern_cases env user body files w with ⟨_, h⟩ | h
      · rw [h] at hdata
        simp [serverError] at hdata
      · exact hfresh.mp h.2.1
    · intro h
      rcases createConcern_cases env user body files w with ⟨hno, _⟩ | hyes
      · exact absurd ⟨hvalid, hfresh.mpr h⟩ hno
      · exact ⟨_, hyes.2.2.2.1⟩

/-- Witness of C3: the request of `asha` on the world without concerns is valid
and is answered with `sampleConcern`. -/
theorem createConcern_submitted_witness :
    validCreate asha sampleBody = true ∧
    (createConcern createEnv asha sampleBody [] emptyWorld).1.data = some sampleConcern ∧
    sampleConcern.status = "Submitted" ∧ sampleConcern.timeline.length = 1 ∧
    sampleConcern.ticketId = ticketIdFor 0 ∧ isGeneratedTicketId sampleConcern.ticketId = true := by
  have h := (createConcern_submitted createEnv asha sampleBody [] emptyWorld (by decide)).1
    sampleConcern (by decide)
  exact ⟨by decide, by decide, h.1, h.2.1, h.2.2.2.2.1, h.2.2.2.2.2.1⟩

/-- C4, as amended: the generated ticket id for `n` stored concerns is `BRT`
followed by `n + 1` in decimal digits, padded with zeros on the left to at
least six digits. While `n + 1 < 1000000` the code has exactly six digits and
the ticket id has length 9; from `n = 999999` on the code is the unpadded
numeral of `n + 1`, with more than six digits. -/
theorem ticketId_format (n : Nat) :
    (ticketIdFor n).data = ['B', 'R', 'T'] ++ (ticketCode (ticketIdFor n)).data ∧
    ticketCode (ticketIdFor n) = padStart (toString (n + 1)) 6 '0' ∧
    (∀ c ∈ (ticketCode (ticketIdFor n)).data, c.isDigit = true) ∧
    decimalValue (ticketCode (ticketIdFor n)) = n + 1 ∧
    (n + 1 < 10 ^ 6 →
      (ticketCode (ticketIdFor n)).length = 6 ∧ (ticketIdFor n).length = 9) ∧
    (10 ^ 6 ≤ n + 1 →
      ticketCode (ticketIdFor n) = toString (n + 1) ∧
      6 < (ticketCode (ticketIdFor n)).length ∧ 9 < (ticketIdFor n).length) := by
  rw [ticketCode_ticketIdFor]
  refine ⟨ticketIdFor_data n, rfl, padStart_toString_isDigit _, padStart_toString_value _, ?_, ?_⟩
  · intro h
    have hl := toString_length_le (n + 1) h
    have h6 : (padStart (toString (n + 1)) 6 '0').length = 6 := by
      rw [padStart_toString_length]; omega
    exact ⟨h6, by rw [ticketIdFor_length, h6]⟩
  · intro h
    have hl := toString_length_gt (n + 1) h
    have hpad : padStart (toString (n + 1)) 6 '0' = toString (n + 1) := by
      have hd := padStart_toString_data (n + 1)
      have h0 : 6 - (toString (n + 1)).length = 0 := by omega
      rw [h0] at hd
      exact String.ext (by simpa using hd)
    refine ⟨hpad, by rw [hpad]; exact hl, ?_⟩
    rw [ticketIdFor_length, hpad]
    omega

/-- Witness of C4 as amended: with 41 concerns stored the ticket id is
`BRT000042`, and with 999999 it is `BRT1000000`. -/
theorem ticketId_format_witness :
    ((41 : Nat) + 1 < 10 ^ 6 ∧ ticketIdFor 41 = "BRT000042" ∧
      (ticketCode (ticketIdFor 41)).length = 6 ∧ (ticketIdFor 41).length = 9) ∧
    (10 ^ 6 ≤ (999999 : Nat) + 1 ∧ 6 < (ticketCode (ticketIdFor 999999)).length) :=
  ⟨⟨by norm_num, by decide, ((ticketId_format 41).2.2.2.2.1 (by norm_num)).1,
      ((ticketId_format 41).2.2.2.2.1 (by norm_num)).2⟩,
    ⟨by norm_num, ((ticketId_format 999999).2.2.2.2.2 (by norm_num)).2.1⟩⟩

/-- Counterexample to C4 as stated: with 999999 concerns stored the hook
generates `BRT1000000`, whose code has seven digits and whose length is 10. -/
theorem ticketId_width_counterexample :
    (preValidate (List.replicate 999999 sampleConcern)
        (newConcern createEnv asha sampleBody)).ticketId = "BRT1000000" ∧
    ticketIdFor 999999 = "BRT1000000" ∧
    (ticketCode (ticketIdFor 999999)).length = 7 ∧
    (ticketIdFor 999999).length = 10 ∧
    ¬ ((ticketCode (ticketIdFor 999999)).length = 6 ∧ (ticketIdFor 999999).length = 9) := by
  have h : ticketIdFor 999999 = "BRT1000000" := by decide
  refine ⟨?_, h, ?_, ?_, ?_⟩
  · rw [preValidate_newConcern]
    simp only [countDocuments, List.length_replicate]
    exact h
  · rw [h]; decide
  · rw [h]; decide
  · rw [h]; decide

/-- C5 (the code at the failing input): `asha` creates two concerns, which get
`BRT000001` and `BRT000002`; the admin deletes the first; at the next creation
the hook generates `BRT000002` again, the ticket id of the concern still stored,
and the creation is answered 500 with nothing stored. -/
theorem ticketId_reused_after_delete :
    ((postConcern (createEnvWith 1) asha sampleBody [] emptyWorld).1.data.map Concern.ticketId
      = some "BRT000001") ∧
    ((postConcern (createEnvWith 2) asha sampleBody []
        (postConcern (createEnvWith 1) asha sampleBody [] emptyWorld).2).1.data.map
        Concern.ticketId = some "BRT000002") ∧
    worldAfterDelete.concerns.map Concern.ticketId = ["BRT000002"] ∧
    (preValidate worldAfterDelete.concerns (newConcern (createEnvWith 3) asha sampleBody)).ticketId
      = "BRT000002" ∧
    validCreate asha sampleBody = true ∧
    (postConcern (createEnvWith 3) asha sampleBody [] worldAfterDelete).1.status = 500 ∧
    (postConcern (createEnvWith 3) asha sampleBody [] worldAfterDelete).2 = worldAfterDelete := by
  decide

/-- C6 (the code at the failing input): `bibin` is a student and not the owner
of `sampleConcern`; `getConcernById`, `getMessages`, `sendMessage` and
`rateConcern` answer 403 and change nothing, but `markAsRead` answers 200 and
marks the unread message of the concern's chat as read. -/
theorem markAsRead_by_other_student :
    bibin.role = "student" ∧ sampleConcern.student ≠ bibin._id ∧
    findById chatWorld.concerns 1 = some sampleConcern ∧
    getConcernById bibin 1 chatWorld = (failure 403 "Not authorized to access this concern",
      chatWorld) ∧
    getMessages bibin 1 chatWorld = (failure 403 "Not authorized to access this chat",
      chatWorld) ∧
    sendMessage sampleEnv bibin 1 (some "hello") none chatWorld
      = (failure 403 "Not authorized to send messages in this chat", chatWorld) ∧
    putRate bibin 1 (some 5) none chatWorld
      = (failure 403 "Not authorized to rate this concern", chatWorld) ∧
    (markAsRead sampleEnv bibin 1 chatWorld).1.status = 200 ∧
    (markAsRead sampleEnv bibin 1 chatWorld).2.chats
      = [{ sampleChat with isRead := true, readAt := some 1000 }] ∧
    (markAsRead sampleEnv bibin 1 chatWorld).2.chats ≠ chatWorld.chats := by
  decide

/-- C7 (the code at the failing input): `manu` is a mentor and not the assignee
of `sampleConcern`; `getMessages` and `sendMessage` refuse with 403, but
`getConcernById` answers 200 with the concern. -/
theorem getConcernById_by_other_mentor :
    manu.role = "mentor" ∧ sampleConcern.assignedTo ≠ some manu._id ∧
    findById chatWorld.concerns 1 = some sampleConcern ∧
    (getMessages manu 1 chatWorld).1.status = 403 ∧
    (sendMessage sampleEnv manu 1 (some "hello") none chatWorld).1.status = 403 ∧
    (getConcernById manu 1 chatWorld).1.status = 200 ∧
    (getConcernById manu 1 chatWorld).1.data = some sampleConcern := by
  decide

/-- Counterexample to C8 as stated: `asha` owns the resolved sample concern;
her rating 9 fails the `max: 5` validator, and her rating 5 with a feedback of
1001 characters fails the `maxlength` validator; both are answered 500 and no
rating is persisted. -/
theorem rateConcern_invalid_rating_counterexample :
    findById resolvedWorld.concerns 1 = some resolvedConcern ∧
    resolvedConcern.student = asha._id ∧ resolvedConcern.status = "Resolved" ∧
    rateConcern asha 1 (some 9) none resolvedWorld = (serverError, resolvedWorld) ∧
    (rateConcern asha 1 (some 9) none resolvedWorld).1.status = 500 ∧
    (findById (rateConcern asha 1 (some 9) none resolvedWorld).2.concerns 1).map Concern.rating
      = some none ∧
    rateConcern asha 1 (some 5) (some longFeedback) resolvedWorld
      = (serverError, resolvedWorld) := by
  refine ⟨by decide, by decide, by decide, by decide, by decide, by decide, ?_⟩
  have hv : validRating (some 5) (trim (orEmpty (some longFeedback))) = false := by
    have ht : trim (orEmpty (some longFeedback)) = longFeedback := by
      have h1 : orEmpty (some longFeedback) = longFeedback := by
        unfold orEmpty
        have hne : longFeedback ≠ "" := by
          intro h
          have h2 : longFeedback.length = 1001 := by
            show (List.replicate 1001 'a').length = 1001
            rw [List.length_replicate]
          rw [h] at h2
          exact absurd h2 (by decide)
        simp [hne]
      rw [h1]
      unfold trim longFeedback
      have ha : isJsWhiteSpace 'a' = false := by decide
      have hd : ∀ k, (List.replicate (k + 1) 'a').dropWhile isJsWhiteSpace
          = List.replicate (k + 1) 'a' := by
        intro k
        rw [List.replicate_succ, List.dropWhile_cons, ha]
        rfl
      simp only [hd 1000, List.reverse_replicate]
    have hl : jsLength longFeedback = 1001 := by
      have hone : (if 'a'.toNat < 0x10000 then 1 else 2 : Nat) = 1 := by decide
      show ((List.replicate 1001 'a').map fun c => if c.toNat < 0x10000 then 1 else 2).sum = 1001
      rw [List.map_replicate, List.sum_replicate, hone]
      rfl
    rw [ht]
    simp [validRating, hl]
  exact ((rateConcern_cases asha 1 (some 5) (some longFeedback) resolvedWorld).elim
    (fun h => by
      have hs := h.1
      have hw := h.2
      have : (rateConcern asha 1 (some 5) (some longFeedback) resolvedWorld).1
          = (serverError : Response Concern) := by
        have hc : findById resolvedWorld.concerns 1 = some resolvedConcern := by decide
        have hown : resolvedConcern.student = asha._id := by decide
        have hst : ¬ (resolvedConcern.status ≠ "Resolved" ∧ resolvedConcern.status ≠ "Closed") := by
          decide
        simp [rateConcern, hc, hown, hst, hv]
      exact Prod.ext this hw)
    (fun h => by
      obtain ⟨_, _, _, _, _, _, hv2, _⟩ := h
      rw [hv] at hv2
      cases hv2))

/-- Counterexample to C9 as stated: `asha` rates her resolved concern with the
feedback `"  great "`; the call succeeds and the stored feedback is `"great"`,
not the feedback given. -/
theorem rateConcern_feedback_counterexample :
    findById resolvedWorld.concerns 1 = some resolvedConcern ∧
    resolvedConcern.student = asha._id ∧ resolvedConcern.status = "Resolved" ∧
    (rateConcern asha 1 (some 5) (some "  great ") resolvedWorld).1.status = 200 ∧
    (findById (rateConcern asha 1 (some 5) (some "  great ") resolvedWorld).2.concerns
      1).map Concern.feedback = some (some "great") ∧
    ((rateConcern asha 1 (some 5) (some "  great ") resolvedWorld).1.data.map Concern.feedback
      ≠ some (some "  great ")) := by
  decide

/-- C9, as amended: for a concern with status `Resolved` or `Closed` (stored
with its ticket id) and its owning student, a successful `rateConcern` sets
`rating` to the given rating and `feedback` to the given feedback with the
leading and trailing white space removed (the empty string when none is
given), and leaves `status`, `timeline`, `assignedTo` and `ticketId` unchanged;
a call is successful only on such a concern by its owner. -/
theorem rateConcern_frame (user : User) (id : ObjectId) (rating : Option Int)
    (feedback : Option String) (w : World) (c : Concern)
    (hc : findById w.concerns id = some c) (hticket : c.ticketId ≠ "")
    (hok : (rateConcern user id rating feedback w).1.status = 200) :
    c.student = user._id ∧ (c.status = "Resolved" ∨ c.status = "Closed") ∧
    ∃ c1, findById (rateConcern user id rating feedback w).2.concerns id = some c1 ∧
      (rateConcern user id rating feedback w).1.data = some c1 ∧
      c1.rating = rating ∧ c1.feedback = some (trim (orEmpty feedback)) ∧
      c1.status = c.status ∧ c1.timeline = c.timeline ∧
      c1.timeline.length = c.timeline.length ∧ c1.assignedTo = c.assignedTo ∧
      c1.ticketId = c.ticketId ∧ (feedback = none → c1.feedback = some "") := by
  rcases rateConcern_cases user id rating feedback w with h | h
  · exact absurd hok h.1
  · obtain ⟨c0, saved, cs1, h0, hown, hst, _, hsave, _, hdata, hcs, _⟩ := h
    have hcc : c0 = c := by rw [hc] at h0; exact (Option.some.inj h0).symm
    subst hcc
    have hid : c0._id = id := findById_id hc
    have h0' : findById w.concerns (withRating rating feedback c0)._id = some c0 := by
      simpa [withRating, hid] using hc
    have hfind := findById_save h0' hsave
    have hsaved : saved = withRating rating feedback c0 := by
      rw [(save_eq_some hsave).1]
      exact preValidate_of_ticketId (by simpa [withRating] using hticket)
    refine ⟨hown, hst, saved, ?_, hdata, ?_⟩
    · rw [hcs]; simpa [withRating, hid] using hfind
    · rw [hsaved]
      refine ⟨rfl, rfl, rfl, rfl, rfl, rfl, rfl, ?_⟩
      intro hnone
      subst hnone
      rfl

/-- Witness of C9 as amended: `asha` rates her resolved concern 5 with the
feedback `"  great "`. -/
theorem rateConcern_frame_witness :
    findById resolvedWorld.concerns 1 = some resolvedConcern ∧
    ∃ c1, findById (rateConcern asha 1 (some 5) (some "  great ") resolvedWorld).2.concerns 1
        = some c1 ∧
      (rateConcern asha 1 (some 5) (some "  great ") resolvedWorld).1.data = some c1 ∧
      c1.rating = some 5 ∧ c1.feedback = some (trim (orEmpty (some "  great "))) ∧
      c1.status = resolvedConcern.status ∧ c1.timeline = resolvedConcern.timeline ∧
      c1.timeline.length = resolvedConcern.timeline.length ∧
      c1.assignedTo = resolvedConcern.assignedTo ∧ c1.ticketId = resolvedConcern.ticketId ∧
      ((some "  great " : Option String) = none → c1.feedback = some "") :=
  ⟨by decide,
   (rateConcern_frame asha 1 (some 5) (some "  great ") resolvedWorld resolvedConcern
      (by decide) (by decide) (by decide)).2.2⟩

theorem putAssign_of_role (env : Env) (user : User) (id mentorId : ObjectId) (w : World)
    (hrole : user.role = "admin" ∨ user.role = "superadmin") :
    putAssign env user id mentorId w = assignConcern env user id mentorId w := by
  unfold putAssign authorize
  rcases hrole with h | h <;> simp [h]

/-! ## Read state of the chat -/

theorem forall₂_map_of_forall {α : Type} (R : α → α → Prop) (f : α → α) (l : List α)
    (h : ∀ x ∈ l, R x (f x)) : List.Forall₂ R l (l.map f) := by
  induction l with
  | nil => exact List.Forall₂.nil
  | cons x xs ih =>
    exact List.Forall₂.cons (h x (List.mem_cons_self _ _))
      (ih fun y hy => h y (List.mem_cons_of_mem _ hy))

theorem updateManyRead_step (concernId userId : ObjectId) (now : Date) (m : Chat) :
    ReadStep concernId userId now m
      (if m.concern == concernId && m.sender != userId && m.isRead == false then
        { m with isRead := true, readAt := some now }
      else m) := by
  unfold ReadStep
  rcases m with ⟨mid, mc, ms, mm, ma, mr, mra, mca⟩
  by_cases h1 : mc = concernId <;> by_cases h2 : ms = userId <;>
    cases mr <;> simp [h1, h2]

theorem updateManyRead_getElem? (chats : List Chat) (concernId userId : ObjectId) (now : Date)
    (i : Nat) (m : Chat) (hm : chats[i]? = some m) (hread : m.isRead = true) :
    (updateManyRead chats concernId userId now)[i]? = some m := by
  unfold updateManyRead
  rw [List.getElem?_map, hm]
  simp [hread]

/-- The two outcomes of `sendMessage`: it is answered 404, 403 or 500 and
nothing changes; or the message is stored, emitted and returned with 201. -/
theorem sendMessage_cases (env : Env) (user : User) (concernId : ObjectId)
    (message : Option String) (files : Option (List UploadedFile)) (w : World) :
    ((sendMessage env user concernId message files w).1.status ≠ 201 ∧
      (sendMessage env user concernId message files w).1.data = none ∧
      (sendMessage env user concernId message files w).2 = w) ∨
    (∃ c, findById w.concerns concernId = some c ∧ chatAccess user c = true ∧
      requiredText message 1000 = true ∧ (∀ m ∈ w.chats, m._id ≠ env.newId) ∧
      (sendMessage env user concernId message files w).1.status = 201 ∧
      (sendMessage env user concernId message files w).1.data
        = some (newChat env user concernId message files) ∧
      (sendMessage env user concernId message files w).2
        = emitNewMessage concernId
            (Payload.newMessage (newChat env user concernId message files)
              (findUserById w.users user._id))
            { w with chats := w.chats ++ [newChat env user concernId message files] }) := by
  cases hc : findById w.concerns concernId with
  | none => left; simp [sendMessage, hc, failure]
  | some c =>
    cases ha : chatAccess user c with
    | false => left; simp [sendMessage, hc, ha, failure]
    | true =>
      by_cases hv : (requiredText message 1000 &&
          w.chats.all (fun m => m._id != (newChat env user concernId message files)._id)) = true
      · right
        have hv2 := hv
        simp only [Bool.and_eq_true, List.all_eq_true] at hv2
        refine ⟨c, rfl, ha, hv2.1, ?_, ?_⟩
        · intro m hm
          simpa [newChat] using hv2.2 m hm
        · simp only [newChat] at hv
          simp [sendMessage, hc, ha, hv, newChat]
      · left
        simp only [newChat] at hv
        simp [sendMessage, hc, ha, hv, serverError]

/-- The chat collection after a request: unchanged, one message longer, or the
collection after a `markAsRead`. -/
theorem Request.handle_chats (r : Request) (w : World) :
    (r.handle w).chats = w.chats ∨
    (∃ m : Chat, m.isRead = false ∧ (r.handle w).chats = w.chats ++ [m]) ∨
    (∃ concernId userId now, (r.handle w).chats = updateManyRead w.chats concernId userId now) := by
  cases r with
  | createConcern env user body files =>
    left
    rcases createConcern_cases env user body files w with ⟨_, h⟩ | h
    · simp [Request.handle, h]
    · exact h.2.2.2.2.2.2.2.1
  | getAllConcerns regex user q =>
    left
    simp only [Request.handle, BroBackend.getAllConcerns]
    split
    · rfl
    · split <;> rfl
  | getConcernById user id =>
    left
    simp only [Request.handle, BroBackend.getConcernById]
    split
    · rfl
    · split
      · split
        · rfl
        · split <;> rfl
      · rfl
  | updateConcernStatus env user id status comment =>
    left
    rcases updateConcernStatus_cases env user id status comment w with h | h
    · simp [Request.handle, h.2]
    · obtain ⟨_, _, _, _, _, _, _, _, _, hch, _⟩ := h
      exact hch
  | assignConcern env user id mentorId =>
    left
    rcases assignConcern_cases env user id mentorId w with h | h
    · simp [Request.handle, h.2]
    · obtain ⟨_, _, _, _, _, _, _, _, _, _, hch, _⟩ := h
      exact hch
  | rateConcern user id rating feedback =>
    left
    rcases rateConcern_cases user id rating feedback w with h | h
    · simp [Request.handle, h.2]
    · obtain ⟨_, _, _, _, _, _, _, _, _, _, _, hch, _⟩ := h
      exact hch
  | deleteConcern id =>
    left
    simp only [Request.handle, BroBackend.deleteConcern]
    split <;> rfl
  | getMessages user concernId =>
    left
    simp only [Request.handle, BroBackend.getMessages]
    split
    · rfl
    · split <;> rfl
  | sendMessage env user concernId message files =>
    simp only [Request.handle, BroBackend.sendMessage]
    split
    · left; rfl
    · split
      · left; rfl
      · split
        · right; left
          refine ⟨newChat env user concernId message files, rfl, ?_⟩
          simp [newChat]
        · left; rfl
  | markAsRead env user concernId =>
    right; right
    exact ⟨concernId, user._id, env.now 0, rfl⟩

/-- C11: after `markAsRead(concernId)` by a user at the time `now`, a message is
read exactly when it was read before or it belongs to the concern and was not
sent by the user; a message newly marked has `readAt = now`; the messages the
user sent, the messages of other concerns and the messages already read are
unchanged, and no field other than `isRead` and `readAt` changes; the answer is
200 and the concerns are untouched. No request to any handler changes a
message that is read: it stays in its place, read, with its `readAt`. -/
theorem markAsRead_read_state :
    (∀ (env : Env) (user : User) (concernId : ObjectId) (w : World),
      (markAsRead env user concernId w).1.status = 200 ∧
      (markAsRead env user concernId w).2.concerns = w.concerns ∧
      List.Forall₂ (ReadStep concernId user._id (env.now 0)) w.chats
        (markAsRead env user concernId w).2.chats) ∧
    (∀ (r : Request) (w : World) (i : Nat) (m : Chat),
      w.chats[i]? = some m → m.isRead = true → (r.handle w).chats[i]? = some m) ∧
    (∀ (rs : List Request) (w : World) (i : Nat) (m : Chat),
      w.chats[i]? = some m → m.isRead = true → (handleAll rs w).chats[i]? = some m) := by
  have hone : ∀ (r : Request) (w : World) (i : Nat) (m : Chat),
      w.chats[i]? = some m → m.isRead = true → (r.handle w).chats[i]? = some m := by
    intro r w i m hm hread
    rcases r.handle_chats w with h | ⟨m1, _, h⟩ | ⟨cid, uid, now, h⟩
    · rw [h]; exact hm
    · rw [h]
      have hlt : i < w.chats.length := (List.getElem?_eq_some_iff.mp hm).1
      rw [List.getElem?_append_left hlt]
      exact hm
    · rw [h]
      exact updateManyRead_getElem? _ _ _ _ _ _ hm hread
  refine ⟨?_, hone, ?_⟩
  · intro env user concernId w
    refine ⟨rfl, rfl, ?_⟩
    exact forall₂_map_of_forall _ _ _ fun m _ => updateManyRead_step concernId user._id _ m
  · intro rs
    induction rs with
    | nil => intro w i m hm _; exact hm
    | cons r rs ih =>
      intro w i m hm hread
      exact ih (r.handle w) i m (hone r w i m hm hread) hread

/-- Witness of C11: `meera` marks the chat of the sample concern as read; the
unread message of `asha` becomes read at the time of the call, the message
`meera` sent and the message of the other concern stay as they were, and the
message that was read stays read after a later `markAsRead` by `asha`. -/
theorem markAsRead_read_state_witness :
    (markAsRead sampleEnv meera 1 threeChatsWorld).2.chats
      = [{ sampleChat with isRead := true, readAt := some 1000 }, readChat, otherChat] ∧
    threeChatsWorld.chats[1]? = some readChat ∧ readChat.isRead = true ∧
    ((Request.markAsRead sampleEnv asha 1).handle threeChatsWorld).chats[1]? = some readChat :=
  ⟨by decide, by decide, by decide,
   markAsRead_read_state.2.1 (Request.markAsRead sampleEnv asha 1) threeChatsWorld 1 readChat
     (by decide) (by decide)⟩

/-- C12: `markAsRead` is idempotent: a second call for the same concern by the
same user, at any time, leaves the world (every message with its `isRead` and
`readAt`) exactly as the first call left it. -/
theorem markAsRead_idempotent (env1 env2 : Env) (user : User) (concernId : ObjectId)
    (w : World) :
    (markAsRead env2 user concernId (markAsRead env1 user concernId w).2).2
      = (markAsRead env1 user concernId w).2 ∧
    (markAsRead env2 user concernId (markAsRead env1 user concernId w).2).2.chats
      = (markAsRead env1 user concernId w).2.chats ∧
    (markAsRead env2 user concernId (markAsRead env1 user concernId w).2).1.status = 200 := by
  have hchats : updateManyRead (updateManyRead w.chats concernId user._id (env1.now 0))
      concernId user._id (env2.now 0) = updateManyRead w.chats concernId user._id (env1.now 0) := by
    unfold updateManyRead
    rw [List.map_map]
    apply List.map_congr_left
    intro m _
    rcases m with ⟨mid, mc, ms, mm, ma, mr, mra, mca⟩
    by_cases h1 : mc = concernId <;> by_cases h2 : ms = user._id <;>
      cases mr <;> simp [h1, h2]
  refine ⟨?_, ?_, rfl⟩
  · simp only [markAsRead, hchats]
  · simp only [markAsRead, hchats]

/-! ## Listing concerns -/

/-- The outcomes of `getAllConcerns`: the database rejects the search pattern
and the answer is 500, or the answer lists the stored concerns that pass the
role filter, the equality filters and the search test, newest first. -/
theorem getAllConcerns_cases (regex : RegexEngine) (user : User) (q : ListQuery) (w : World) :
    (∃ s, given q.search = some s ∧ regex s = none ∧
      getAllConcerns regex user q w = (serverError, w)) ∨
    (∃ test : String → Bool,
      ((given q.search = none ∧ test = fun _ => true) ∨
        ∃ s, given q.search = some s ∧ regex s = some test) ∧
      getAllConcerns regex user q w
        = (listed (sortNewestFirst (w.concerns.filter fun c =>
            roleFilter user c && fieldFilter q c && (test c.title || test c.ticketId))), w)) := by
  unfold getAllConcerns
  cases hs : given q.search with
  | none =>
    right
    exact ⟨fun _ => true, Or.inl ⟨rfl, rfl⟩, by simp⟩
  | some s =>
    cases hr : regex s with
    | none => left; exact ⟨s, rfl, hr, by simp [hr]⟩
    | some test => right; exact ⟨test, Or.inr ⟨s, rfl, hr⟩, by simp [hr]⟩

theorem fieldFilter_noSearch (q : ListQuery) (c : Concern) :
    fieldFilter (searchOnly q) c = true := by
  simp [fieldFilter, fieldMatches, searchOnly, noFilters, given]

theorem fieldFilter_false (q : ListQuery) (c : Concern) (h : fieldFilter q c = false) :
    DiffersFromFilter q c := by
  unfold DiffersFromFilter
  unfold fieldFilter fieldMatches at h
  cases h1 : given q.status with
  | some v =>
    by_cases e : c.status = v
    · cases h2 : given q.category with
      | some v2 =>
        by_cases e2 : c.category = v2
        · cases h3 : given q.severity with
          | some v3 =>
            by_cases e3 : c.severity = v3
            · cases h4 : given q.campus with
              | some v4 =>
                by_cases e4 : c.campus = some v4
                · simp [h1, h2, h3, h4, e, e2, e3, e4] at h
                · exact Or.inr (Or.inr (Or.inr ⟨v4, rfl, e4⟩))
              | none => simp [h1, h2, h3, h4, e, e2, e3] at h
            · exact Or.inr (Or.inr (Or.inl ⟨v3, rfl, e3⟩))
          | none =>
            cases h4 : given q.campus with
            | some v4 =>
              by_cases e4 : c.campus = some v4
              · simp [h1, h2, h3, h4, e, e2, e4] at h
              · exact Or.inr (Or.inr (Or.inr ⟨v4, rfl, e4⟩))
            | none => simp [h1, h2, h3, h4, e, e2] at h
        · exact Or.inr (Or.inl ⟨v2, rfl, e2⟩)
      | none =>
        cases h3 : given q.severity with
        | some v3 =>
          by_cases e3 : c.severity = v3
          · cases h4 : given q.campus with
            | some v4 =>
              by_cases e4 : c.campus = some v4
              · simp [h1, h2, h3, h4, e, e3, e4] at h
              · exact Or.inr (Or.inr (Or.inr ⟨v4, rfl, e4⟩))
            | none => simp [h1, h2, h3, h4, e, e3] at h
          · exact Or.inr (Or.inr (Or.inl ⟨v3, rfl, e3⟩))
        | none =>
          cases h4 : given q.campus with
          | some v4 =>
            by_cases e4 : c.campus = some v4
            · simp [h1, h2, h3, h4, e, e4] at h
            · exact Or.inr (Or.inr (Or.inr ⟨v4, rfl, e4⟩))
          | none => simp [h1, h2, h3, h4, e] at h
    · exact Or.inl ⟨v, rfl, e⟩
  | none =>
    cases h2 : given q.category with
    | some v2 =>
      by_cases e2 : c.category = v2
      · cases h3 : given q.severity with
        | some v3 =>
          by_cases e3 : c.severity = v3
          · cases h4 : given q.campus with
            | some v4 =>
              by_cases e4 : c.campus = some v4
              · simp [h1, h2, h3, h4, e2, e3, e4] at h
              · exact Or.inr (Or.inr (Or.inr ⟨v4, rfl, e4⟩))
            | none => simp [h1, h2, h3, h4, e2, e3] at h
          · exact Or.inr (Or.inr (Or.inl ⟨v3, rfl, e3⟩))
        | none =>
          cases h4 : given q.campus with
          | some v4 =>
            by_cases e4 : c.campus = some v4
            · simp [h1, h2, h3, h4, e2, e4] at h
            · exact Or.inr (Or.inr (Or.inr ⟨v4, rfl, e4⟩))
          | none => simp [h1, h2, h3, h4, e2] at h
      · exact Or.inr (Or.inl ⟨v2, rfl, e2⟩)
    | none =>
      cases h3 : given q.severity with
      | some v3 =>
        by_cases e3 : c.severity = v3
        · cases h4 : given q.campus with
          | some v4 =>
            by_cases e4 : c.campus = some v4
            · simp [h1, h2, h3, h4, e3, e4] at h
            · exact Or.inr (Or.inr (Or.inr ⟨v4, rfl, e4⟩))
          | none => simp [h1, h2, h3, h4, e3] at h
        · exact Or.inr (Or.inr (Or.inl ⟨v3, rfl, e3⟩))
      | none =>
        cases h4 : given q.campus with
        | some v4 =>
          by_cases e4 : c.campus = some v4
          · simp [h1, h2, h3, h4, e4] at h
          · exact Or.inr (Or.inr (Or.inr ⟨v4, rfl, e4⟩))
        | none => simp [h1, h2, h3, h4] at h

theorem sortNewestFirst_perm (cs : List Concern) : (sortNewestFirst cs).Perm cs :=
  List.perm_insertionSort _ cs

theorem getAllConcerns_noFilters (regex : RegexEngine) (user : User) (w : World) :
    getAllConcerns regex user noFilters w
      = (listed (sortNewestFirst (w.concerns.filter (roleFilter user))), w) := by
  have hp : (fun c => roleFilter user c && fieldFilter noFilters c) = roleFilter user := by
    funext c
    simp [fieldFilter, fieldMatches, noFilters, given]
  simp [getAllConcerns, noFilters, given, hp]
  rw [← hp]
  simp [noFilters]

/-- C13: without query filters `getAllConcerns` answers 200 with exactly the
stored concerns the role may see: for a student those whose `student` is the
caller, for a mentor those whose `assignedTo` is the caller, for an admin or
superadmin all of them; `count` is the number of concerns returned. With the
filters `status`, `category`, `severity` or `campus` added (the search string
kept), the answer is the unfiltered answer without the concerns that differ
from a given filter value in the filtered field, and nothing else is removed. -/
theorem getAllConcerns_visibility (regex : RegexEngine) (user : User) (w : World) :
    (∃ cs, getAllConcerns regex user noFilters w = (listed cs, w) ∧
      (getAllConcerns regex user noFilters w).1.status = 200 ∧
      (getAllConcerns regex user noFilters w).1.data = some cs ∧
      (getAllConcerns regex user noFilters w).1.count = some cs.length ∧
      (user.role = "student" →
        cs.Perm (w.concerns.filter fun c => c.student == user._id) ∧
        ∀ c, c ∈ cs ↔ c ∈ w.concerns ∧ c.student = user._id) ∧
      (user.role = "mentor" →
        cs.Perm (w.concerns.filter fun c => c.assignedTo == some user._id) ∧
        ∀ c, c ∈ cs ↔ c ∈ w.concerns ∧ c.assignedTo = some user._id) ∧
      (user.role = "admin" ∨ user.role = "superadmin" →
        cs.Perm w.concerns ∧ ∀ c, c ∈ cs ↔ c ∈ w.concerns)) ∧
    (∀ (q : ListQuery) (cs0 : List Concern),
      (getAllConcerns regex user (searchOnly q) w).1.data = some cs0 →
      ∃ cs, getAllConcerns regex user q w = (listed cs, w) ∧
        (getAllConcerns regex user q w).1.count = some cs.length ∧
        cs.Perm (cs0.filter (fieldFilter q)) ∧
        (∀ c, c ∈ cs → c ∈ cs0) ∧
        (∀ c, c ∈ cs0 → c ∉ cs → DiffersFromFilter q c) ∧
        (∀ c, c ∈ cs → ¬ DiffersFromFilter q c)) := by
  constructor
  · refine ⟨_, getAllConcerns_noFilters regex user w, ?_, ?_, ?_, ?_, ?_, ?_⟩
    · rw [getAllConcerns_noFilters]; rfl
    · rw [getAllConcerns_noFilters]; rfl
    · rw [getAllConcerns_noFilters]; rfl
    · intro hrole
      have hp : roleFilter user = fun c => c.student == user._id := by
        funext c; simp [roleFilter, hrole]
      rw [hp]
      refine ⟨sortNewestFirst_perm _, ?_⟩
      intro c
      rw [(sortNewestFirst_perm _).mem_iff]
      simp [List.mem_filter]
    · intro hrole
      have hp : roleFilter user = fun c => c.assignedTo == some user._id := by
        funext c; simp [roleFilter, hrole]
      rw [hp]
      refine ⟨sortNewestFirst_perm _, ?_⟩
      intro c
      rw [(sortNewestFirst_perm _).mem_iff]
      simp [List.mem_filter]
    · intro hrole
      have hp : roleFilter user = fun _ => true := by
        funext c
        rcases hrole with h | h <;> simp [roleFilter, h]
      rw [hp]
      have hall : w.concerns.filter (fun _ => true) = w.concerns := by simp
      rw [hall]
      exact ⟨sortNewestFirst_perm _, fun c => (sortNewestFirst_perm _).mem_iff⟩
  · intro q cs0 hdata
    have hsearch : given (searchOnly q).search = given q.search := rfl
    rcases getAllConcerns_cases regex user (searchOnly q) w with
      ⟨s, _, _, h0⟩ | ⟨test0, ht0, h0⟩
    · rw [h0] at hdata
      simp [serverError] at hdata
    · rw [h0] at hdata
      have hcs0 : cs0 = sortNewestFirst (w.concerns.filter fun c =>
          roleFilter user c && (test0 c.title || test0 c.ticketId)) := by
        have := (Option.some.inj hdata).symm
        simpa [listed, fieldFilter_noSearch] using this
      rcases getAllConcerns_cases regex user q w with ⟨s, hs, hr, _⟩ | ⟨test, ht, h1⟩
      · exfalso
        rcases ht0 with ⟨hn, _⟩ | ⟨s0, hs0, hr0⟩
        · rw [hsearch, hs] at hn; cases hn
        · rw [hsearch, hs] at hs0
          cases hs0
          rw [hr] at hr0
          cases hr0
      · have htest : test = test0 := by
          rcases ht with ⟨hn, ht⟩ | ⟨s, hs, hr⟩
          · rcases ht0 with ⟨_, ht0⟩ | ⟨s0, hs0, _⟩
            · rw [ht, ht0]
            · rw [hsearch, hn] at hs0; cases hs0
          · rcases ht0 with ⟨hn0, _⟩ | ⟨s0, hs0, hr0⟩
            · rw [hsearch, hs] at hn0; cases hn0
            · rw [hsearch, hs] at hs0
              cases hs0
              rw [hr] at hr0
              exact Option.some.inj hr0
        subst htest
        have hperm : (sortNewestFirst (w.concerns.filter fun c =>
            roleFilter user c && fieldFilter q c && (test c.title || test c.ticketId))).Perm
            (cs0.filter (fieldFilter q)) := by
          refine (sortNewestFirst_perm _).trans ?_
          rw [hcs0]
          refine List.Perm.trans ?_ ((sortNewestFirst_perm _).filter _).symm
          rw [List.filter_filter]
          apply List.Perm.of_eq
          apply List.filter_congr
          intro c _
          cases roleFilter user c <;> cases fieldFilter q c <;> simp
        have hnot : ∀ c, fieldFilter q c = true → ¬ DiffersFromFilter q c := by
          intro c hf hd
          unfold fieldFilter fieldMatches at hf
          simp only [Bool.and_eq_true] at hf
          obtain ⟨⟨⟨f1, f2⟩, f3⟩, f4⟩ := hf
          rcases hd with ⟨v, hv, hne⟩ | ⟨v, hv, hne⟩ | ⟨v, hv, hne⟩ | ⟨v, hv, hne⟩
          · rw [hv] at f1; exact hne (by simpa using f1)
          · rw [hv] at f2; exact hne (by simpa using f2)
          · rw [hv] at f3; exact hne (by simpa using f3)
          · rw [hv] at f4; exact hne (by simpa using f4)
        refine ⟨_, h1, by rw [h1]; rfl, hperm, ?_, ?_, ?_⟩
        · intro c hc
          exact (List.mem_filter.mp (hperm.mem_iff.mp hc)).1
        · intro c hc0 hc
          cases hf : fieldFilter q c with
          | false => exact fieldFilter_false q c hf
          | true => exact absurd (hperm.mem_iff.mpr (List.mem_filter.mpr ⟨hc0, hf⟩)) hc
        · intro c hc
          exact hnot c (List.mem_filter.mp (hperm.mem_iff.mp hc)).2

/-- Witness of C13: in the world with three concerns the student `asha` gets her
two concerns, newest first, and with the filter `severity = High` only the one
of high severity. -/
theorem getAllConcerns_visibility_witness :
    asha.role = "student" ∧
    (getAllConcerns literalDotEngine asha noFilters listWorld).1.data
      = some [thirdConcern, sampleConcern] ∧
    (∀ c, c ∈ [thirdConcern, sampleConcern] ↔ c ∈ listWorld.concerns ∧ c.student = asha._id) ∧
    (getAllConcerns literalDotEngine asha (searchOnly { noFilters with severity := some "High" })
      listWorld).1.data = some [thirdConcern, sampleConcern] ∧
    ∃ cs, getAllConcerns literalDotEngine asha { noFilters with severity := some "High" } listWorld
        = (listed cs, listWorld) ∧
      cs.Perm ([thirdConcern, sampleConcern].filter
        (fieldFilter { noFilters with severity := some "High" })) := by
  obtain ⟨cs, _, _, hd, _, hst, _, _⟩ :=
    (getAllConcerns_visibility literalDotEngine asha listWorld).1
  have hd2 : (getAllConcerns literalDotEngine asha noFilters listWorld).1.data
      = some [thirdConcern, sampleConcern] := by decide
  have hcs : cs = [thirdConcern, sampleConcern] := by
    rw [hd] at hd2; exact Option.some.inj hd2
  subst hcs
  obtain ⟨cs1, h1, _, hp, _⟩ := (getAllConcerns_visibility literalDotEngine asha listWorld).2
    { noFilters with severity := some "High" } [thirdConcern, sampleConcern] (by decide)
  exact ⟨by decide, hd2, (hst (by decide)).2, by decide, cs1, h1, hp⟩

/-! ## Searching concerns -/

theorem matchesAtUnder_literal (sameLetter : Char → Char → Bool) (pattern : List Char)
    (h : ∀ c ∈ pattern, isRegexMeta c = false) :
    ∀ subject, matchesAtUnder sameLetter pattern subject
      = startsWithUnder sameLetter pattern subject := by
  induction pattern with
  | nil => intro subject; rfl
  | cons p ps ih =>
    intro subject
    cases subject with
    | nil => rfl
    | cons c cs =>
      have hp : p ≠ '.' := by
        intro e
        have := h p (List.mem_cons_self _ _)
        rw [e] at this
        exact absurd this (by decide)
      simp only [matchesAtUnder, startsWithUnder, itemMatchesUnder, hp, if_false]
      rw [ih (fun x hx => h x (List.mem_cons_of_mem _ hx))]

theorem isLiteralPattern_chars {s : String} (h : isLiteralPattern s = true) :
    ∀ c ∈ s.data, isRegexMeta c = false := by
  intro c hc
  have := (List.all_eq_true.mp h) c hc
  simpa using this

/-- A pattern without metacharacters is a pattern of the fragment. -/
theorem inFragment_of_literal {s : String} (h : isLiteralPattern s = true) :
    inFragment s = true := by
  unfold inFragment
  rw [List.all_eq_true]
  intro c hc
  simp [isLiteralPattern_chars h c hc]

/-- For a pattern without metacharacters the regular-expression semantics is
the search for the pattern as a text. -/
theorem fragmentMatch_literal (sameLetter : Char → Char → Bool) {s : String}
    (h : isLiteralPattern s = true) (subject : String) :
    fragmentMatch sameLetter s subject = containsUnder sameLetter s subject := by
  unfold fragmentMatch containsUnder
  have hf : matchesAtUnder sameLetter s.data = startsWithUnder sameLetter s.data := by
    funext t
    exact matchesAtUnder_literal sameLetter s.data (isLiteralPattern_chars h) t
  rw [hf]

theorem startsWithUnder_self (sameLetter : Char → Char → Bool)
    (hrefl : ∀ a, sameLetter a a = true) (l : List Char) :
    startsWithUnder sameLetter l l = true := by
  induction l with
  | nil => rfl
  | cons c cs ih => simp [startsWithUnder, ih, hrefl]

theorem containsUnder_self (sameLetter : Char → Char → Bool)
    (hrefl : ∀ a, sameLetter a a = true) (s : String) :
    containsUnder sameLetter s s = true := by
  unfold containsUnder
  rw [List.any_eq_true]
  refine ⟨s.data, ?_, startsWithUnder_self sameLetter hrefl _⟩
  cases s.data <;> simp [List.tails]

theorem matchesAt_eq_under (pattern : List Char) :
    ∀ subject, matchesAt pattern subject = matchesAtUnder asciiSameLetter pattern subject := by
  induction pattern with
  | nil => intro subject; rfl
  | cons p ps ih =>
    intro subject
    cases subject with
    | nil => rfl
    | cons c cs =>
      simp only [matchesAt, matchesAtUnder, itemMatches, itemMatchesUnder, asciiSameLetter]
      rw [ih]

/-- The engine `literalDotEngine` matches the patterns of the fragment by the
regular-expression semantics, with the folding of the ASCII letters. -/
theorem literalDotEngine_implements : ImplementsFragment literalDotEngine asciiSameLetter := by
  intro pattern hp
  refine ⟨fun subject => subject.data.tails.any (matchesAt pattern.data), ?_, ?_⟩
  · unfold inFragment at hp
    simp [literalDotEngine, hp]
  · intro subject
    unfold fragmentMatch
    have hf : matchesAt pattern.data = matchesAtUnder asciiSameLetter pattern.data := by
      funext t
      exact matchesAt_eq_under pattern.data t
    simp only [hf]

theorem isDigit_not_meta (c : Char) (h : c.isDigit = true) : isRegexMeta c = false := by
  have h9 := isDigit_value_le c h
  simp only [Char.isDigit, Bool.and_eq_true, decide_eq_true_eq] at h
  have h48 : 48 ≤ c.val.toNat := UInt32.le_def.mp h.1
  have h57 : c.toNat ≤ 57 := by
    have : c.toNat = c.val.toNat := rfl
    omega
  have h48' : 48 ≤ c.toNat := h48
  unfold isRegexMeta
  simp only [List.mem_cons, List.mem_singleton, List.not_mem_nil, or_false,
    decide_eq_false_iff_not]
  omega

theorem ticketIdFor_literal (n : Nat) : isLiteralPattern (ticketIdFor n) = true := by
  unfold isLiteralPattern
  rw [List.all_eq_true]
  intro c hc
  rw [ticketIdFor_data, List.mem_append] at hc
  rcases hc with hc | hc
  · have : c = 'B' ∨ c = 'R' ∨ c = 'T' := by simpa using hc
    rcases this with rfl | rfl | rfl <;> decide
  · simp [isDigit_not_meta c (padStart_toString_isDigit _ c hc)]

/-- Counterexample to C14 as stated: the search string `.` returns all three
concerns of the world although no title and no ticket id contains a dot; the
search string `(` occurs in a title but the database rejects it as a pattern
and the answer is 500; the search for the ticket code `BRT000001` returns, next
to the concern with that ticket id, the concern `BRT000002` whose title
mentions the code. -/
theorem search_is_regex_counterexample :
    (getAllConcerns literalDotEngine adminUser (searchFor ".") listWorld).1.data
      = some [thirdConcern, secondConcern, sampleConcern] ∧
    (∀ c ∈ listWorld.concerns,
      containsIgnoreCase "." c.title = false ∧ containsIgnoreCase "." c.ticketId = false) ∧
    containsIgnoreCase "(" secondConcern.title = true ∧
    (getAllConcerns literalDotEngine adminUser (searchFor "(") listWorld).1.status = 500 ∧
    (getAllConcerns literalDotEngine adminUser (searchFor "(") listWorld).1.data = none ∧
    (getAllConcerns literalDotEngine adminUser (searchFor "BRT000001") listWorld).1.data
      = some [secondConcern, sampleConcern] ∧
    secondConcern.ticketId = "BRT000002" ∧
    containsIgnoreCase "BRT000001" secondConcern.ticketId = false := by
  decide

/-- What `getAllConcerns` answers to a search string: the database rejects the
pattern and the answer is 500, or the answer lists the visible concerns whose
`title` or `ticketId` the compiled pattern matches. -/
theorem getAllConcerns_searchFor (regex : RegexEngine) (user : User) (w : World) (s : String)
    (hs : s ≠ "") :
    (regex s = none → getAllConcerns regex user (searchFor s) w = (serverError, w)) ∧
    (∀ test, regex s = some test →
      getAllConcerns regex user (searchFor s) w
        = (listed (sortNewestFirst (w.concerns.filter fun c =>
            roleFilter user c && (test c.title || test c.ticketId))), w)) := by
  have hgiven : given (searchFor s).search = some s := by
    simp [searchFor, given, hs]
  constructor
  · intro hr
    unfold getAllConcerns
    rw [hgiven]
    simp only [hr]
  · intro test hr
    unfold getAllConcerns
    rw [hgiven]
    simp only [hr]
    have hp : (fun c => roleFilter user c && fieldFilter (searchFor s) c &&
          (test c.title || test c.ticketId))
        = fun c => roleFilter user c && (test c.title || test c.ticketId) := by
      funext c
      have hf : fieldFilter (searchFor s) c = true := by
        simp [fieldFilter, fieldMatches, searchFor, noFilters, given]
      rw [hf, Bool.and_true]
    rw [hp]

/-- C14, as amended: `getAllConcerns` hands a non-empty search string `s` to
the database as a regular expression with the option `i`. When the database
rejects the pattern the answer is 500 and nothing changes; otherwise the answer
lists exactly the stored concerns visible to the caller whose `title` or
`ticketId` the pattern matches. For an engine that matches the patterns made of
ordinary characters and dots by the regular-expression semantics, comparing
letters by its own folding `sameLetter`, and a string `s` without
metacharacters, these are exactly the visible concerns whose `title` or
`ticketId` contains `s` as a substring, letters compared by `sameLetter`. A
generated ticket code is such a string, so a search for it returns the visible
concerns whose ticket id or title contains it, the concern with that ticket id
among them. -/
theorem getAllConcerns_search (regex : RegexEngine) (user : User) (w : World) (s : String)
    (hs : s ≠ "") :
    (regex s = none → getAllConcerns regex user (searchFor s) w = (serverError, w)) ∧
    (∀ test, regex s = some test →
      ∃ cs, getAllConcerns regex user (searchFor s) w = (listed cs, w) ∧
        cs.Perm (w.concerns.filter fun c =>
          roleFilter user c && (test c.title || test c.ticketId)) ∧
        ∀ c, c ∈ cs ↔ c ∈ w.concerns ∧ roleFilter user c = true ∧
          (test c.title = true ∨ test c.ticketId = true)) ∧
    (∀ sameLetter : Char → Char → Bool, ImplementsFragment regex sameLetter →
      isLiteralPattern s = true →
      ∃ cs, getAllConcerns regex user (searchFor s) w = (listed cs, w) ∧
        cs.Perm (w.concerns.filter fun c =>
          roleFilter user c &&
            (containsUnder sameLetter s c.title || containsUnder sameLetter s c.ticketId)) ∧
        (∀ c, c ∈ cs ↔ c ∈ w.concerns ∧ roleFilter user c = true ∧
          (containsUnder sameLetter s c.title = true ∨
            containsUnder sameLetter s c.ticketId = true)) ∧
        ((∀ a, sameLetter a a = true) →
          ∀ c, c ∈ w.concerns → roleFilter user c = true → c.ticketId = s → c ∈ cs)) ∧
    (∀ n, isLiteralPattern (ticketIdFor n) = true ∧ ticketIdFor n ≠ "") := by
  obtain ⟨hnone, hsome⟩ := getAllConcerns_searchFor regex user w s hs
  have hmem : ∀ (test : String → Bool) (c : Concern),
      c ∈ sortNewestFirst (w.concerns.filter fun c =>
        roleFilter user c && (test c.title || test c.ticketId)) ↔
      c ∈ w.concerns ∧ roleFilter user c = true ∧
        (test c.title = true ∨ test c.ticketId = true) := by
    intro test c
    rw [(sortNewestFirst_perm _).mem_iff, List.mem_filter]
    simp
  refine ⟨hnone, ?_, ?_, fun n => ⟨ticketIdFor_literal n, ticketIdFor_ne_empty n⟩⟩
  · intro test hr
    exact ⟨_, hsome test hr, sortNewestFirst_perm _, hmem test⟩
  · intro sameLetter hregex hlit
    obtain ⟨test, hr, htest⟩ := hregex s (inFragment_of_literal hlit)
    have htest2 : test = containsUnder sameLetter s := by
      funext subject
      rw [htest, fragmentMatch_literal sameLetter hlit]
    subst htest2
    refine ⟨_, hsome _ hr, sortNewestFirst_perm _, hmem _, ?_⟩
    intro hrefl c hc hrole hid
    exact (hmem _ c).mpr
      ⟨hc, hrole, Or.inr (by rw [hid]; exact containsUnder_self sameLetter hrefl s)⟩

/-- Witness of C14 as amended: the mentor `meera` searches for `wifi` and gets
the one concern assigned to her whose title contains it, whatever the case. -/
theorem getAllConcerns_search_witness :
    ("wifi" : String) ≠ "" ∧ isLiteralPattern "wifi" = true ∧
    ImplementsFragment literalDotEngine asciiSameLetter ∧
    (getAllConcerns literalDotEngine meera (searchFor "wifi") listWorld).1.data
      = some [thirdConcern] ∧
    ∃ cs, getAllConcerns literalDotEngine meera (searchFor "wifi") listWorld
        = (listed cs, listWorld) ∧
      ∀ c, c ∈ cs ↔ c ∈ listWorld.concerns ∧ roleFilter meera c = true ∧
        (containsUnder asciiSameLetter "wifi" c.title = true ∨
          containsUnder asciiSameLetter "wifi" c.ticketId = true) := by
  obtain ⟨cs, h, _, hmem, _⟩ := (getAllConcerns_search literalDotEngine meera listWorld "wifi"
    (by decide)).2.2.1 asciiSameLetter literalDotEngine_implements (by decide)
  exact ⟨by decide, by decide, literalDotEngine_implements, by decide, cs, h, hmem⟩

/-! ## The lifecycle records, it does not enforce -/

/-- Counterexample to C15 as stated: the mentor `meera` supplies the status
`Done`, which is not one of the seven values of the schema; the save fails its
validation, the answer is 500 and the concern keeps its status. The value
`resolved`, the name of a status in small letters, is refused in the same way. -/
theorem updateConcernStatus_unknown_status_counterexample :
    meera.role = "mentor" ∧ findById sampleWorld.concerns 1 = some sampleConcern ∧
    "Done" ∉ statusEnum ∧
    putStatus sampleEnv meera 1 "Done" none sampleWorld = (serverError, sampleWorld) ∧
    (putStatus sampleEnv meera 1 "Done" none sampleWorld).1.status = 500 ∧
    (findById (putStatus sampleEnv meera 1 "Done" none sampleWorld).2.concerns 1).map
      Concern.status = some "Submitted" ∧
    putStatus sampleEnv meera 1 "resolved" none sampleWorld = (serverError, sampleWorld) := by
  decide

/-! ## Events -/

@[simp] theorem sendAssignmentEmail_io (env : Env) (c : Concern) (st : Option User)
    (m : User) (w : World) : (sendAssignmentEmail env c st m w).io = w.io := by
  unfold sendAssignmentEmail
  split
  · simp
  · split <;> simp

@[simp] theorem sendAssignmentEmail_emitted (env : Env) (c : Concern) (st : Option User)
    (m : User) (w : World) : (sendAssignmentEmail env c st m w).emitted = w.emitted := by
  unfold sendAssignmentEmail
  split
  · simp
  · split <;> simp

theorem emitStatusUpdate_emitted (id : ObjectId) (p : Payload) (w : World) (hio : w.io = true) :
    (emitStatusUpdate id p w).emitted = w.emitted ++ [statusUpdateEvent id p] := by
  simp [emitStatusUpdate, hio, statusUpdateEvent]

theorem emitNewMessage_emitted (id : ObjectId) (p : Payload) (w : World) (hio : w.io = true) :
    (emitNewMessage id p w).emitted = w.emitted ++ [newMessageEvent id p] := by
  simp [emitNewMessage, hio, newMessageEvent]

/-- The world after an accepted `updateConcernStatus`. -/
theorem updateConcernStatus_world (env : Env) (user : User) (id : ObjectId) (status : String)
    (comment : Option String) (w : World) (c saved : Concern) (cs1 : List Concern)
    (hc : findById w.concerns id = some c) (hs : status ∈ statusEnum)
    (hsave : save w.concerns (withStatus env user status comment c) = some (saved, cs1)) :
    (updateConcernStatus env user id status comment w).2
      = emitStatusUpdate c._id
          (Payload.statusUpdate status (some user.name) comment none (env.now 1))
          (sendStatusUpdateEmail env saved (findUserById w.users c.student) user comment
            { w with concerns := cs1 }) := by
  simp only [withStatus] at hsave
  simp [updateConcernStatus, hc, hs, hsave]

/-- The world after an accepted `assignConcern`. -/
theorem assignConcern_world (env : Env) (user : User) (id mentorId : ObjectId) (w : World)
    (c saved : Concern) (mentor : User) (cs1 : List Concern)
    (hc : findById w.concerns id = some c) (hm : findUserById w.users mentorId = some mentor)
    (hsave : save w.concerns (withAssignment env user mentorId mentor c) = some (saved, cs1)) :
    (assignConcern env user id mentorId w).2
      = emitStatusUpdate c._id
          (Payload.statusUpdate "Assigned" none none (some mentor.name) (env.now 1))
          (sendStatusUpdateEmail env saved (findUserById w.users c.student) user
            (some ("Assigned to " ++ mentor.name))
            (sendAssignmentEmail env saved (findUserById w.users c.student) mentor
              { w with concerns := cs1 })) := by
  simp only [withAssignment] at hsave
  simp [assignConcern, hc, hm, hsave, statusEnum]

/-- Counterexample to C16 as stated: the admin assigns the sample concern to
`meera`; the one event emitted carries `status`, `assignedTo` and `timestamp`,
and neither `updatedBy` nor `comment`. -/
theorem assignConcern_payload_counterexample :
    (putAssign sampleEnv adminUser 1 20 sampleWorld).1.status = 200 ∧
    (putAssign sampleEnv adminUser 1 20 sampleWorld).2.emitted
      = [{ room := "concern-1", event := "status-update",
           payload := Payload.statusUpdate "Assigned" none none (some "Meera") 1001 }] := by
  decide

/-- C16, as amended: with the socket server set up, every successful
`updateConcernStatus` emits exactly one `status-update` event, to the room
`concern-{id}` of the concern it changed and to no other, whose payload carries
`status` (the new status of the concern), `updatedBy` (the caller's name),
`comment` (as given in the request) and `timestamp`; every successful
`assignConcern` emits exactly one `status-update` event to that room whose
payload carries `status` (`Assigned`, the new status), `assignedTo` (the
mentor's name) and `timestamp`, without `updatedBy` and `comment`. A call that
is not successful emits nothing. -/
theorem status_update_event (w : World) (hio : w.io = true) :
    (∀ (env : Env) (user : User) (id : ObjectId) (status : String) (comment : Option String),
      ((updateConcernStatus env user id status comment w).1.status = 200 →
        (∃ c1, findById (updateConcernStatus env user id status comment w).2.concerns id
            = some c1 ∧ c1.status = status) ∧
        (updateConcernStatus env user id status comment w).2.emitted
          = w.emitted ++ [statusUpdateEvent id
              (Payload.statusUpdate status (some user.name) comment none (env.now 1))]) ∧
      ((updateConcernStatus env user id status comment w).1.status ≠ 200 →
        (updateConcernStatus env user id status comment w).2.emitted = w.emitted)) ∧
    (∀ (env : Env) (user : User) (id mentorId : ObjectId),
      ((assignConcern env user id mentorId w).1.status = 200 →
        ∃ mentor, findUserById w.users mentorId = some mentor ∧
          (∃ c1, findById (assignConcern env user id mentorId w).2.concerns id = some c1 ∧
            c1.status = "Assigned") ∧
          (assignConcern env user id mentorId w).2.emitted
            = w.emitted ++ [statusUpdateEvent id
                (Payload.statusUpdate "Assigned" none none (some mentor.name) (env.now 1))]) ∧
      ((assignConcern env user id mentorId w).1.status ≠ 200 →
        (assignConcern env user id mentorId w).2.emitted = w.emitted)) := by
  constructor
  · intro env user id status comment
    rcases updateConcernStatus_cases env user id status comment w with h | h
    · exact ⟨fun hok => absurd hok h.1, fun _ => by rw [h.2]⟩
    · obtain ⟨c0, saved, cs1, h0, hs, hsave, hok, _, hcs, _⟩ := h
      refine ⟨fun _ => ?_, fun hne => absurd hok hne⟩
      have hid : c0._id = id := findById_id h0
      have h0' : findById w.concerns (withStatus env user status comment c0)._id = some c0 := by
        simpa [withStatus, hid] using h0
      have hfind := findById_save h0' hsave
      constructor
      · refine ⟨saved, ?_, ?_⟩
        · rw [hcs]; simpa [withStatus, hid] using hfind
        · rw [(save_eq_some hsave).1]; simp [withStatus]
      · rw [updateConcernStatus_world env user id status comment w c0 saved cs1 h0 hs hsave,
          emitStatusUpdate_emitted _ _ _ (by simpa using hio), hid]
        simp
  · intro env user id mentorId
    rcases assignConcern_cases env user id mentorId w with h | h
    · exact ⟨fun hok => absurd hok h.1, fun _ => by rw [h.2]⟩
    · obtain ⟨c0, mentor, saved, cs1, h0, hm, hsave, hok, _, hcs, _⟩ := h
      refine ⟨fun _ => ?_, fun hne => absurd hok hne⟩
      have hid : c0._id = id := findById_id h0
      have h0' : findById w.concerns (withAssignment env user mentorId mentor c0)._id
          = some c0 := by
        simpa [withAssignment, hid] using h0
      have hfind := findById_save h0' hsave
      refine ⟨mentor, hm, ⟨saved, ?_, ?_⟩, ?_⟩
      · rw [hcs]; simpa [withAssignment, hid] using hfind
      · rw [(save_eq_some hsave).1]; simp [withAssignment]
      · rw [assignConcern_world env user id mentorId w c0 saved mentor cs1 h0 hm hsave,
          emitStatusUpdate_emitted _ _ _ (by simpa using hio), hid]
        simp

/-- Witness of C16 as amended: `meera` resolves the sample concern and one
event goes to the room `concern-1`. -/
theorem status_update_event_witness :
    sampleWorld.io = true ∧
    (updateConcernStatus sampleEnv meera 1 "Resolved" (some "fixed") sampleWorld).1.status = 200 ∧
    (updateConcernStatus sampleEnv meera 1 "Resolved" (some "fixed") sampleWorld).2.emitted
      = sampleWorld.emitted ++ [statusUpdateEvent 1
          (Payload.statusUpdate "Resolved" (some meera.name) (some "fixed") none
            (sampleEnv.now 1))] ∧
    statusUpdateEvent 1 (Payload.statusUpdate "Resolved" (some meera.name) (some "fixed") none
        (sampleEnv.now 1))
      = { room := "concern-1", event := "status-update",
          payload := Payload.statusUpdate "Resolved" (some "Meera") (some "fixed") none 1001 } :=
  ⟨by decide, by decide,
   (((status_update_event sampleWorld (by decide)).1 sampleEnv meera 1 "Resolved"
      (some "fixed")).1 (by decide)).2, by decide⟩

/-! ## Sending messages -/

/-- C17: `sendMessage` is rejected without side effect: when the concern does
not exist the answer is 404, and when the caller is neither the owning
student, nor the assignee, nor an admin or superadmin the answer is 403; in
both cases the world is unchanged, so no chat message is created and no event
is emitted. Whenever the answer is not 201 the world is unchanged. -/
theorem sendMessage_rejected (env : Env) (user : User) (concernId : ObjectId)
    (message : Option String) (files : Option (List UploadedFile)) (w : World) :
    (findById w.concerns concernId = none →
      sendMessage env user concernId message files w = (failure 404 "Concern not found", w)) ∧
    (∀ c, findById w.concerns concernId = some c →
      ¬ (user.role = "student" ∧ c.student = user._id) → c.assignedTo ≠ some user._id →
      user.role ≠ "admin" → user.role ≠ "superadmin" →
      sendMessage env user concernId message files w
        = (failure 403 "Not authorized to send messages in this chat", w)) ∧
    ((sendMessage env user concernId message files w).1.status ≠ 201 →
      (sendMessage env user concernId message files w).2.chats = w.chats ∧
      (sendMessage env user concernId message files w).2.emitted = w.emitted ∧
      (sendMessage env user concernId message files w).2 = w) := by
  refine ⟨?_, ?_, ?_⟩
  · intro hc
    simp [sendMessage, hc]
  · intro c hc hstudent hassigned hadmin hsuper
    have hacc : chatAccess user c = false := by
      unfold chatAccess
      have h1 : (decide (user.role = "student") && decide (c.student = user._id)) = false := by
        by_cases hr : user.role = "student"
        · have : c.student ≠ user._id := fun e => hstudent ⟨hr, e⟩
          simp [hr, this]
        · simp [hr]
      have h2 : (match c.assignedTo with
          | none => false
          | some a => decide (a = user._id)) = false := by
        cases ha : c.assignedTo with
        | none => rfl
        | some a =>
          have : a ≠ user._id := fun e => hassigned (by rw [ha, e])
          simp [this]
      have h3 : ["admin", "superadmin"].contains user.role = false := by
        simp [hadmin, hsuper]
      simp only [h1, h2, h3, Bool.or_self]
    simp [sendMessage, hc, hacc]
  · intro hne
    rcases sendMessage_cases env user concernId message files w with h | h
    · rw [h.2.2]; exact ⟨rfl, rfl, rfl⟩
    · obtain ⟨_, _, _, _, _, hok, _⟩ := h
      exact absurd hok hne

/-- Witness of C17: `bibin`, a student who does not own the sample concern, is
refused with 403, and a message for a concern that does not exist gets 404;
the chat and the events stay as they were. -/
theorem sendMessage_rejected_witness :
    findById chatWorld.concerns 1 = some sampleConcern ∧
    findById chatWorld.concerns 99 = none ∧
    sendMessage sampleEnv bibin 1 (some "hello") none chatWorld
      = (failure 403 "Not authorized to send messages in this chat", chatWorld) ∧
    sendMessage sampleEnv asha 99 (some "hello") none chatWorld
      = (failure 404 "Concern not found", chatWorld) :=
  ⟨by decide, by decide,
   (sendMessage_rejected sampleEnv bibin 1 (some "hello") none chatWorld).2.1 sampleConcern
     (by decide) (by decide) (by decide) (by decide) (by decide),
   (sendMessage_rejected sampleEnv asha 99 (some "hello") none chatWorld).1 (by decide)⟩

@[simp] theorem emitNewMessage_io (i : ObjectId) (p : Payload) (w : World) :
    (emitNewMessage i p w).io = w.io := by
  unfold emitNewMessage; split <;> rfl

@[simp] theorem emitNewMessage_users (i : ObjectId) (p : Payload) (w : World) :
    (emitNewMessage i p w).users = w.users := by
  unfold emitNewMessage; split <;> rfl

theorem sortByCreatedAt_perm (ms : List Chat) : (sortByCreatedAt ms).Perm ms :=
  List.perm_insertionSort _ ms

theorem sortByCreatedAt_sorted (ms : List Chat) :
    (sortByCreatedAt ms).Sorted fun a b => a.createdAt ≤ b.createdAt := by
  haveI : IsTotal Chat (fun a b => a.createdAt ≤ b.createdAt) :=
    ⟨fun a b => Nat.le_total a.createdAt b.createdAt⟩
  haveI : IsTrans Chat (fun a b => a.createdAt ≤ b.createdAt) :=
    ⟨fun _ _ _ h1 h2 => Nat.le_trans h1 h2⟩
  exact List.sorted_insertionSort _ ms

/-- An accepted `sendMessage`, field by field. -/
theorem sendMessage_ok (env : Env) (user : User) (concernId : ObjectId)
    (message : Option String) (files : Option (List UploadedFile)) (w : World) (c : Concern)
    (hio : w.io = true) (hc : findById w.concerns concernId = some c)
    (hacc : chatAccess user c = true) (hmsg : requiredText message 1000 = true)
    (hfresh : ∀ m ∈ w.chats, m._id ≠ env.newId) :
    (sendMessage env user concernId message files w).1.status = 201 ∧
    (sendMessage env user concernId message files w).1.data
      = some (newChat env user concernId message files) ∧
    (sendMessage env user concernId message files w).2.chats
      = w.chats ++ [newChat env user concernId message files] ∧
    (sendMessage env user concernId message files w).2.emitted
      = w.emitted ++ [newMessageEvent concernId
          (Payload.newMessage (newChat env user concernId message files)
            (findUserById w.users user._id))] ∧
    (sendMessage env user concernId message files w).2.concerns = w.concerns ∧
    (sendMessage env user concernId message files w).2.users = w.users ∧
    (sendMessage env user concernId message files w).2.io = true := by
  rcases sendMessage_cases env user concernId message files w with h | h
  · exfalso
    apply h.1
    have hall : (w.chats.all fun m => m._id != env.newId) = true := by
      rw [List.all_eq_true]
      intro m hm
      simpa using hfresh m hm
    simp [sendMessage, hc, hacc, hmsg, hall]
  · obtain ⟨_, _, _, _, _, hok, hdata, hw⟩ := h
    refine ⟨hok, hdata, ?_, ?_, ?_, ?_, ?_⟩
    · rw [hw]; simp
    · rw [hw, emitNewMessage_emitted _ _ _ (by simpa using hio)]
    · rw [hw]; simp
    · rw [hw]; simp
    · rw [hw]; simpa using hio

theorem getMessages_ok (user : User) (concernId : ObjectId) (w : World) (c : Concern)
    (hc : findById w.concerns concernId = some c) (hacc : chatAccess user c = true) :
    (getMessages user concernId w).1.status = 200 ∧
    (getMessages user concernId w).1.data
      = some (sortByCreatedAt (w.chats.filter fun m => m.concern == concernId)) := by
  simp [getMessages, hc, hacc]

/-- C18: with the socket server set up, every successful `sendMessage` stores
exactly one new chat message, with the ticket as `concern`, the caller as
`sender` and `isRead = false`, and emits exactly one `new-message` event
carrying that message to the room `concern-{concernId}`. Two messages sent to
one ticket by two different authorized senders (valid texts, new ids) are both
accepted; both appear in the answer of `getMessages`, which lists the thread
in ascending order of creation time, and exactly two events are emitted. -/
theorem sendMessage_stores_and_publishes (w : World) (hio : w.io = true) :
    (∀ (env : Env) (user : User) (concernId : ObjectId) (message : Option String)
        (files : Option (List UploadedFile)),
      (sendMessage env user concernId message files w).1.status = 201 →
      ∃ m, (sendMessage env user concernId message files w).1.data = some m ∧
        m.concern = concernId ∧ m.sender = user._id ∧ m.isRead = false ∧
        (sendMessage env user concernId message files w).2.chats = w.chats ++ [m] ∧
        (sendMessage env user concernId message files w).2.emitted
          = w.emitted ++ [newMessageEvent concernId
              (Payload.newMessage m (findUserById w.users user._id))] ∧
        (sendMessage env user concernId message files w).2.concerns = w.concerns) ∧
    (∀ (env1 env2 : Env) (user1 user2 reader : User) (concernId : ObjectId) (c : Concern)
        (message1 message2 : Option String) (files1 files2 : Option (List UploadedFile)),
      findById w.concerns concernId = some c →
      chatAccess user1 c = true → chatAccess user2 c = true → chatAccess reader c = true →
      user1._id ≠ user2._id →
      requiredText message1 1000 = true → requiredText message2 1000 = true →
      (∀ m ∈ w.chats, m._id ≠ env1.newId ∧ m._id ≠ env2.newId) → env1.newId ≠ env2.newId →
      (sendTwo env1 user1 message1 files1 env2 user2 message2 files2 concernId w).1.1.status
        = 201 ∧
      (sendTwo env1 user1 message1 files1 env2 user2 message2 files2 concernId w).1.2.status
        = 201 ∧
      ∃ m1 m2 ms,
        (sendTwo env1 user1 message1 files1 env2 user2 message2 files2 concernId w).1.1.data
          = some m1 ∧
        (sendTwo env1 user1 message1 files1 env2 user2 message2 files2 concernId w).1.2.data
          = some m2 ∧
        m1.sender = user1._id ∧ m2.sender = user2._id ∧ m1 ≠ m2 ∧
        (getMessages reader concernId
          (sendTwo env1 user1 message1 files1 env2 user2 message2 files2 concernId w).2).1.data
          = some ms ∧
        m1 ∈ ms ∧ m2 ∈ ms ∧
        ms.Sorted (fun a b => a.createdAt ≤ b.createdAt) ∧
        ms.Perm ((w.chats.filter fun m => m.concern == concernId) ++ [m1, m2]) ∧
        (sendTwo env1 user1 message1 files1 env2 user2 message2 files2 concernId w).2.emitted
          = w.emitted ++
            [newMessageEvent concernId (Payload.newMessage m1 (findUserById w.users user1._id)),
             newMessageEvent concernId
               (Payload.newMessage m2 (findUserById w.users user2._id))]) := by
  constructor
  · intro env user concernId message files hok
    rcases sendMessage_cases env user concernId message files w with h | h
    · exact absurd hok h.1
    · obtain ⟨c, hc, hacc, hmsg, hfresh, _⟩ := h
      obtain ⟨_, hdata, hchats, hemit, hconc, _, _⟩ :=
        sendMessage_ok env user concernId message files w c hio hc hacc hmsg hfresh
      exact ⟨_, hdata, rfl, rfl, rfl, hchats, hemit, hconc⟩
  · intro env1 env2 user1 user2 reader concernId c message1 message2 files1 files2
      hc hacc1 hacc2 haccr hne hmsg1 hmsg2 hfresh hids
    obtain ⟨hok1, hdata1, hchats1, hemit1, hconc1, husers1, hio1⟩ :=
      sendMessage_ok env1 user1 concernId message1 files1 w c hio hc hacc1 hmsg1
        (fun m hm => (hfresh m hm).1)
    have hfresh2 : ∀ m ∈ (sendMessage env1 user1 concernId message1 files1 w).2.chats,
        m._id ≠ env2.newId := by
      intro m hm
      rw [hchats1, List.mem_append] at hm
      rcases hm with hm | hm
      · exact (hfresh m hm).2
      · have : m = newChat env1 user1 concernId message1 files1 := by simpa using hm
        rw [this]
        simpa [newChat] using hids
    obtain ⟨hok2, hdata2, hchats2, hemit2, hconc2, _, _⟩ :=
      sendMessage_ok env2 user2 concernId message2 files2
        (sendMessage env1 user1 concernId message1 files1 w).2 c hio1 (by rw [hconc1]; exact hc)
        hacc2 hmsg2 hfresh2
    have hget := getMessages_ok reader concernId
      (sendMessage env2 user2 concernId message2 files2
        (sendMessage env1 user1 concernId message1 files1 w).2).2 c
      (by rw [hconc2, hconc1]; exact hc) haccr
    have hfilter : ((sendMessage env2 user2 concernId message2 files2
          (sendMessage env1 user1 concernId message1 files1 w).2).2.chats.filter
          fun m => m.concern == concernId)
        = (w.chats.filter fun m => m.concern == concernId) ++
            [newChat env1 user1 concernId message1 files1,
             newChat env2 user2 concernId message2 files2] := by
      rw [hchats2, hchats1]
      simp [List.filter_append, newChat, List.filter_cons]
    have hperm := sortByCreatedAt_perm ((sendMessage env2 user2 concernId message2 files2
          (sendMessage env1 user1 concernId message1 files1 w).2).2.chats.filter
          fun m => m.concern == concernId)
    rw [hfilter] at hperm
    refine ⟨hok1, hok2, newChat env1 user1 concernId message1 files1,
      newChat env2 user2 concernId message2 files2, _, hdata1, hdata2, rfl, rfl, ?_, hget.2,
      ?_, ?_, sortByCreatedAt_sorted _, ?_, ?_⟩
    · intro e
      have := congrArg Chat.sender e
      exact hne (by simpa [newChat] using this)
    · rw [hfilter]; exact hperm.mem_iff.mpr (by simp)
    · rw [hfilter]; exact hperm.mem_iff.mpr (by simp)
    · rw [hfilter]; exact hperm
    · show (sendMessage env2 user2 concernId message2 files2
        (sendMessage env1 user1 concernId message1 files1 w).2).2.emitted = _
      rw [hemit2, hemit1, husers1]
      simp

/-- Witness of C18: `asha`, the owner, and `meera`, the assignee, each send a
message to the chat of the sample concern; both are stored, the admin reads
them in the order of creation, and two events are emitted. -/
theorem sendMessage_stores_and_publishes_witness :
    assignedWorld.io = true ∧
    (sendTwo chatEnv asha (some "Any update?") none laterEnv meera (some "On it") none 1
      assignedWorld).1.1.status = 201 ∧
    (sendTwo chatEnv asha (some "Any update?") none laterEnv meera (some "On it") none 1
      assignedWorld).1.2.status = 201 ∧
    (getMessages adminUser 1 (sendTwo chatEnv asha (some "Any update?") none laterEnv meera
      (some "On it") none 1 assignedWorld).2).1.data
      = some [newChat chatEnv asha 1 (some "Any update?") none,
              newChat laterEnv meera 1 (some "On it") none] ∧
    (sendTwo chatEnv asha (some "Any update?") none laterEnv meera (some "On it") none 1
      assignedWorld).2.emitted.length = 2 := by
  have h := (sendMessage_stores_and_publishes assignedWorld (by decide)).2 chatEnv laterEnv
    asha meera adminUser 1 { sampleConcern with status := "Assigned", assignedTo := some 20 }
    (some "Any update?") (some "On it") none none (by decide) (by decide) (by decide)
    (by decide) (by decide) (by decide) (by decide) (by decide) (by decide)
  exact ⟨by decide, h.1, h.2.1, by decide, by decide⟩

/-! ## Notification failures -/

@[simp] theorem withTransport_now (env : Env) (t : Mail → Bool) :
    (withTransport env t).now = env.now := rfl

@[simp] theorem withTransport_newId (env : Env) (t : Mail → Bool) :
    (withTransport env t).newId = env.newId := rfl

@[simp] theorem withTransport_adminEmail (env : Env) (t : Mail → Bool) :
    (withTransport env t).adminEmail = env.adminEmail := rfl

@[simp] theorem eraseOutbox_sendMail (env : Env) (m : Mail) (w : World) :
    eraseOutbox (sendMail env m w) = eraseOutbox w := by
  unfold sendMail eraseOutbox; split <;> rfl

@[simp] theorem eraseOutbox_sendStatusUpdateEmail (env : Env) (c : Concern) (st : Option User)
    (u : User) (cm : Option String) (w : World) :
    eraseOutbox (sendStatusUpdateEmail env c st u cm w) = eraseOutbox w := by
  unfold sendStatusUpdateEmail; split <;> simp

@[simp] theorem eraseOutbox_sendAssignmentEmail (env : Env) (c : Concern) (st : Option User)
    (m : User) (w : World) : eraseOutbox (sendAssignmentEmail env c st m w) = eraseOutbox w := by
  unfold sendAssignmentEmail
  split
  · simp
  · split <;> simp

@[simp] theorem eraseOutbox_sendConcernSubmissionEmail (env : Env) (c : Concern) (u : User)
    (w : World) : eraseOutbox (sendConcernSubmissionEmail env c u w) = eraseOutbox w := by
  simp [sendConcernSubmissionEmail]

@[simp] theorem eraseOutbox_emitStatusUpdate (i : ObjectId) (p : Payload) (w : World) :
    eraseOutbox (emitStatusUpdate i p w) = emitStatusUpdate i p (eraseOutbox w) := by
  unfold emitStatusUpdate eraseOutbox
  split <;> simp_all

/-- The response of `updateConcernStatus` and the world it leaves, the outbox
set aside, computed without the mail transport. -/
theorem updateConcernStatus_without_mail (env : Env) (t : Mail → Bool) (user : User)
    (id : ObjectId) (status : String) (comment : Option String) (w : World) :
    (updateConcernStatus (withTransport env t) user id status comment w).1
      = (updateConcernStatus env user id status comment w).1 ∧
    eraseOutbox (updateConcernStatus (withTransport env t) user id status comment w).2
      = eraseOutbox (updateConcernStatus env user id status comment w).2 := by
  unfold updateConcernStatus
  cases findById w.concerns id with
  | none => exact ⟨rfl, rfl⟩
  | some c =>
    simp only [statusEntry, withTransport_now]
    split
    · split
      · exact ⟨rfl, rfl⟩
      · simp
    · exact ⟨rfl, rfl⟩

theorem assignConcern_without_mail (env : Env) (t : Mail → Bool) (user : User)
    (id mentorId : ObjectId) (w : World) :
    (assignConcern (withTransport env t) user id mentorId w).1
      = (assignConcern env user id mentorId w).1 ∧
    eraseOutbox (assignConcern (withTransport env t) user id mentorId w).2
      = eraseOutbox (assignConcern env user id mentorId w).2 := by
  unfold assignConcern
  cases findById w.concerns id with
  | none => exact ⟨rfl, rfl⟩
  | some c =>
    cases findUserById w.users mentorId with
    | none => exact ⟨rfl, rfl⟩
    | some mentor =>
      simp only [assignEntry, withTransport_now]
      split
      · split
        · exact ⟨rfl, rfl⟩
        · simp
      · exact ⟨rfl, rfl⟩

theorem createConcern_without_mail (env : Env) (t : Mail → Bool) (user : User)
    (body : CreateBody) (files : List UploadedFile) (w : World) :
    (createConcern (withTransport env t) user body files w).1
      = (createConcern env user body files w).1 ∧
    eraseOutbox (createConcern (withTransport env t) user body files w).2
      = eraseOutbox (createConcern env user body files w).2 := by
  have hnew : newConcern (withTransport env t) user body = newConcern env user body := rfl
  unfold createConcern
  simp only [hnew, withTransport_now]
  split
  · split
    · split
      · exact ⟨rfl, rfl⟩
      · simp
    · simp
  · exact ⟨rfl, rfl⟩

/-- C19: a notification failure is isolated. For every request to
`createConcern`, `updateConcernStatus` or `assignConcern` and any two
behaviours of the mail transport (it delivers, it throws, per mail), the
response (HTTP status and body) is the same and the world after the request is
the same in everything but the record of delivered mails: the stored concerns,
the users, the chats and the emitted events. -/
theorem notification_failure_isolated (env : Env) (t1 t2 : Mail → Bool) (user : User)
    (w : World) :
    (∀ (body : CreateBody) (files : List UploadedFile),
      (createConcern (withTransport env t1) user body files w).1
        = (createConcern (withTransport env t2) user body files w).1 ∧
      eraseOutbox (createConcern (withTransport env t1) user body files w).2
        = eraseOutbox (createConcern (withTransport env t2) user body files w).2 ∧
      (createConcern (withTransport env t1) user body files w).2.concerns
        = (createConcern (withTransport env t2) user body files w).2.concerns) ∧
    (∀ (id : ObjectId) (status : String) (comment : Option String),
      (updateConcernStatus (withTransport env t1) user id status comment w).1
        = (updateConcernStatus (withTransport env t2) user id status comment w).1 ∧
      eraseOutbox (updateConcernStatus (withTransport env t1) user id status comment w).2
        = eraseOutbox (updateConcernStatus (withTransport env t2) user id status comment w).2 ∧
      (updateConcernStatus (withTransport env t1) user id status comment w).2.concerns
        = (updateConcernStatus (withTransport env t2) user id status comment w).2.concerns) ∧
    (∀ (id mentorId : ObjectId),
      (assignConcern (withTransport env t1) user id mentorId w).1
        = (assignConcern (withTransport env t2) user id mentorId w).1 ∧
      eraseOutbox (assignConcern (withTransport env t1) user id mentorId w).2
        = eraseOutbox (assignConcern (withTransport env t2) user id mentorId w).2 ∧
      (assignConcern (withTransport env t1) user id mentorId w).2.concerns
        = (assignConcern (withTransport env t2) user id mentorId w).2.concerns) := by
  have hconc : ∀ a b : World, eraseOutbox a = eraseOutbox b → a.concerns = b.concerns := by
    intro a b h
    have := congrArg World.concerns h
    simpa [eraseOutbox] using this
  refine ⟨?_, ?_, ?_⟩
  · intro body files
    have h1 := createConcern_without_mail env t1 user body files w
    have h2 := createConcern_without_mail env t2 user body files w
    exact ⟨h1.1.trans h2.1.symm, h1.2.trans h2.2.symm, hconc _ _ (h1.2.trans h2.2.symm)⟩
  · intro id status comment
    have h1 := updateConcernStatus_without_mail env t1 user id status comment w
    have h2 := updateConcernStatus_without_mail env t2 user id status comment w
    exact ⟨h1.1.trans h2.1.symm, h1.2.trans h2.2.symm, hconc _ _ (h1.2.trans h2.2.symm)⟩
  · intro id mentorId
    have h1 := assignConcern_without_mail env t1 user id mentorId w
    have h2 := assignConcern_without_mail env t2 user id mentorId w
    exact ⟨h1.1.trans h2.1.symm, h1.2.trans h2.2.symm, hconc _ _ (h1.2.trans h2.2.symm)⟩

/-! ## Validation failures -/

theorem dropWhile_replicate_a (k : Nat) :
    (List.replicate (k + 1) 'a').dropWhile isJsWhiteSpace = List.replicate (k + 1) 'a' := by
  have ha : isJsWhiteSpace 'a' = false := by decide
  rw [List.replicate_succ, List.dropWhile_cons, ha]
  rfl

theorem trim_padded (k : Nat) :
    trim (String.mk (List.replicate (k + 1) 'a' ++ [' '])) = String.mk (List.replicate (k + 1) 'a') := by
  have ha : isJsWhiteSpace 'a' = false := by decide
  have hsp : isJsWhiteSpace ' ' = true := by decide
  have h1 : (List.replicate (k + 1) 'a' ++ [' ']).dropWhile isJsWhiteSpace
      = List.replicate (k + 1) 'a' ++ [' '] := by
    rw [List.replicate_succ, List.cons_append, List.dropWhile_cons, ha]
    rfl
  have h2 : (List.replicate (k + 1) 'a' ++ [' ']).reverse = ' ' :: List.replicate (k + 1) 'a' := by
    rw [List.reverse_append, List.reverse_replicate]
    rfl
  have h3 : (' ' :: List.replicate (k + 1) 'a').dropWhile isJsWhiteSpace
      = List.replicate (k + 1) 'a' := by
    rw [List.dropWhile_cons, hsp]
    simp only [if_true]
    exact dropWhile_replicate_a k
  unfold trim
  simp only [h1, h2, h3, List.reverse_replicate]

theorem jsLength_replicate_a (k : Nat) : jsLength (String.mk (List.replicate k 'a')) = k := by
  have hone : (if 'a'.toNat < 0x10000 then 1 else 2 : Nat) = 1 := by decide
  show ((List.replicate k 'a').map fun c => if c.toNat < 0x10000 then 1 else 2).sum = k
  rw [List.map_replicate, List.sum_replicate, hone]
  simp

theorem requiredText_paddedMessage : requiredText (some paddedMessage) 1000 = true := by
  have ht : trim paddedMessage = String.mk (List.replicate 1000 'a') := trim_padded 999
  have hne : String.mk (List.replicate 1000 'a') ≠ "" := by
    intro h
    have h2 : (String.mk (List.replicate 1000 'a')).length = 1000 := by
      show (List.replicate 1000 'a').length = 1000
      rw [List.length_replicate]
    rw [h] at h2
    exact absurd h2 (by decide)
  simp only [requiredText, ht, jsLength_replicate_a]
  simp [hne]

/-- Counterexample to C20 as stated: a `sendMessage` of the owner without a
message, or with a message of spaces only, and a `rateConcern` of the owner of
the resolved concern with the rating 0 or 6 are answered 500, not 400; and a
message of 1001 characters whose last character is a space is accepted with
201, since the text is trimmed before its length is checked. -/
theorem validation_status_counterexample :
    chatAccess asha sampleConcern = true ∧
    (sendMessage chatEnv asha 1 none none chatWorld).1.status = 500 ∧
    (sendMessage chatEnv asha 1 (some "   ") none chatWorld).1.status = 500 ∧
    resolvedConcern.student = asha._id ∧ resolvedConcern.status = "Resolved" ∧
    (rateConcern asha 1 (some 0) none resolvedWorld).1.status = 500 ∧
    (rateConcern asha 1 (some 6) none resolvedWorld).1.status = 500 ∧
    paddedMessage.length = 1001 ∧
    (sendMessage chatEnv asha 1 (some paddedMessage) none chatWorld).1.status = 201 := by
  refine ⟨by decide, by decide, by decide, by decide, by decide, by decide, by decide, ?_, ?_⟩
  · show (List.replicate 1000 'a' ++ [' ']).length = 1001
    rw [List.length_append, List.length_replicate]
    rfl
  · exact (sendMessage_ok chatEnv asha 1 (some paddedMessage) none chatWorld sampleConcern
      (by decide) (by decide) (by decide) requiredText_paddedMessage (by decide)).1

/-- C20, as amended: a request that violates a schema field constraint is
answered 500 by the `catch` of the handler and persists nothing. A
`sendMessage` of a caller with access whose message is missing, empty after
trimming or longer than 1000 code units after trimming, and a `rateConcern` by
the owner of a `Resolved` or `Closed` concern whose rating is outside 1..5,
both answer 500 and leave the world unchanged: no message is created, the
rating of the concern stays, and no event is emitted. -/
theorem validation_failure_is_500 :
    (∀ (env : Env) (user : User) (concernId : ObjectId) (message : Option String)
        (files : Option (List UploadedFile)) (w : World) (c : Concern),
      findById w.concerns concernId = some c → chatAccess user c = true →
      (message = none ∨ ∃ s, message = some s ∧ (trim s = "" ∨ 1000 < jsLength (trim s))) →
      sendMessage env user concernId message files w = (serverError, w)) ∧
    (∀ (user : User) (id : ObjectId) (r : Int) (feedback : Option String) (w : World)
        (c : Concern),
      findById w.concerns id = some c → c.student = user._id →
      (c.status = "Resolved" ∨ c.status = "Closed") → (r < 1 ∨ 5 < r) →
      rateConcern user id (some r) feedback w = (serverError, w)) ∧
    (serverError : Response Chat).status = 500 ∧ (serverError : Response Concern).status = 500 := by
  refine ⟨?_, ?_, rfl, rfl⟩
  · intro env user concernId message files w c hc hacc hbad
    have hreq : requiredText message 1000 = false := by
      rcases hbad with h | ⟨s, h, hs⟩
      · rw [h]; rfl
      · rw [h]
        rcases hs with hs | hs
        · simp [requiredText, hs]
        · have : ¬ jsLength (trim s) ≤ 1000 := by omega
          simp [requiredText, this]
    simp [sendMessage, hc, hacc, hreq]
  · intro user id r feedback w c hc hown hst hr
    have hst2 : ¬ (c.status ≠ "Resolved" ∧ c.status ≠ "Closed") := by
      rintro ⟨h1, h2⟩
      rcases hst with h | h
      · exact h1 h
      · exact h2 h
    have hv : validRating (some r) (trim (orEmpty feedback)) = false := by
      have : ¬ (1 ≤ r ∧ r ≤ 5) := by omega
      simp only [validRating]
      rcases hr with h | h
      · have h1 : ¬ 1 ≤ r := by omega
        simp [h1]
      · have h5 : ¬ r ≤ 5 := by omega
        simp [h5]
    simp [rateConcern, hc, hown, hst2, hv]

/-- Witness of C20 as amended: the owner's message of spaces only and her
rating 6 are answered 500 with the world unchanged. -/
theorem validation_failure_is_500_witness :
    findById chatWorld.concerns 1 = some sampleConcern ∧
    chatAccess asha sampleConcern = true ∧
    sendMessage chatEnv asha 1 (some "   ") none chatWorld = (serverError, chatWorld) ∧
    findById resolvedWorld.concerns 1 = some resolvedConcern ∧
    rateConcern asha 1 (some 6) none resolvedWorld = (serverError, resolvedWorld) :=
  ⟨by decide, by decide,
   validation_failure_is_500.1 chatEnv asha 1 (some "   ") none chatWorld sampleConcern
     (by decide) (by decide) (Or.inr ⟨"   ", rfl, Or.inl (by decide)⟩),
   by decide,
   validation_failure_is_500.2.1 asha 1 6 none resolvedWorld resolvedConcern
     (by decide) (by decide) (by decide) (by decide)⟩

/-! ## Status and timeline agree -/

/-- One operation keeps every stored concern and keeps its status equal to the
status of the last entry of its timeline. -/
theorem ConcernOp.run_statusIsLastEntry (op : ConcernOp) (w : World) (id : ObjectId)
    (c : Concern) (hc : findById w.concerns id = some c) (hinv : StatusIsLastEntry c) :
    ∃ c1, findById (op.run w).2.concerns id = some c1 ∧ StatusIsLastEntry c1 := by
  rcases op.run_find w id c hc with h | ⟨env, user, status, comment, _, h⟩ |
    ⟨env, user, mentorId, mentor, h⟩ | ⟨rating, feedback, _, h⟩
  · exact ⟨c, h, hinv⟩
  · refine ⟨_, h, ?_⟩
    simp [StatusIsLastEntry, withStatus, statusEntry]
  · refine ⟨_, h, ?_⟩
    simp [StatusIsLastEntry, withAssignment, assignEntry]
  · refine ⟨_, h, ?_⟩
    simpa [StatusIsLastEntry, withRating] using hinv

theorem runOps_statusIsLastEntry (ops : List ConcernOp) :
    ∀ (w : World) (id : ObjectId) (c : Concern), findById w.concerns id = some c →
      StatusIsLastEntry c →
      ∃ c1, findById (runOps ops w).concerns id = some c1 ∧ StatusIsLastEntry c1 := by
  induction ops with
  | nil => intro w id c hc hinv; exact ⟨c, hc, hinv⟩
  | cons op ops ih =>
    intro w id c hc hinv
    obtain ⟨c1, h1, hinv1⟩ := op.run_statusIsLastEntry w id c hc hinv
    exact ih (op.run w).2 id c1 h1 hinv1

/-- C21: a concern that `createConcern` returns has the status of its single
timeline entry, and in every state reached from there by any sequence of calls
of `updateConcernStatus`, `assignConcern` and `rateConcern` (successful or
rejected, on this concern or on another) the stored concern's status equals the
status of the last entry of its timeline; each single call preserves that
equality for every stored concern. -/
theorem status_is_last_timeline_status :
    (∀ (env : Env) (user : User) (body : CreateBody) (files : List UploadedFile) (w : World)
        (c : Concern), (createConcern env user body files w).1.data = some c →
      StatusIsLastEntry c ∧
      findById (createConcern env user body files w).2.concerns c._id = some c ∧
      ∀ ops : List ConcernOp,
        ∃ c1, findById (runOps ops (createConcern env user body files w).2).concerns c._id
            = some c1 ∧
          c1.timeline.getLast?.map TimelineEntry.status = some c1.status) ∧
    (∀ (op : ConcernOp) (w : World) (id : ObjectId) (c : Concern),
      findById w.concerns id = some c →
      c.timeline.getLast?.map TimelineEntry.status = some c.status →
      ∃ c1, findById (op.run w).2.concerns id = some c1 ∧
        c1.timeline.getLast?.map TimelineEntry.status = some c1.status) := by
  constructor
  · intro env user body files w c hdata
    rcases createConcern_cases env user body files w with ⟨_, h⟩ | h
    · rw [h] at hdata
      simp [serverError] at hdata
    · obtain ⟨_, _, _, hd, hfind, _⟩ := h
      rw [hd] at hdata
      have hcc : createdConcern env user body files w = c := Option.some.inj hdata
      have hid : c._id = env.newId := by rw [← hcc]; simp [createdConcern, newConcern]
      have hinv : StatusIsLastEntry c := by
        rw [← hcc]; simp [StatusIsLastEntry, createdConcern, newConcern]
      rw [hid]
      rw [hcc] at hfind
      exact ⟨hinv, hfind, fun ops => runOps_statusIsLastEntry ops _ env.newId c hfind hinv⟩
  · intro op w id c hc hinv
    exact op.run_statusIsLastEntry w id c hc hinv

/-- Witness of C21: `asha` creates the sample concern; after the admin assigns
it, `meera` resolves it and `asha` rates it, the stored status is `Resolved`,
the status of the last timeline entry. -/
theorem status_is_last_timeline_status_witness :
    (createConcern createEnv asha sampleBody [] emptyWorld).1.data = some sampleConcern ∧
    (∃ c1, findById (runOps [ConcernOp.assign sampleEnv adminUser 1 20,
          ConcernOp.updateStatus sampleEnv meera 1 "Resolved" none,
          ConcernOp.rate asha 1 (some 5) (some "great")]
        (createConcern createEnv asha sampleBody [] emptyWorld).2).concerns sampleConcern._id
        = some c1 ∧
      c1.timeline.getLast?.map TimelineEntry.status = some c1.status) ∧
    (findById (runOps [ConcernOp.assign sampleEnv adminUser 1 20,
          ConcernOp.updateStatus sampleEnv meera 1 "Resolved" none,
          ConcernOp.rate asha 1 (some 5) (some "great")]
        (createConcern createEnv asha sampleBody [] emptyWorld).2).concerns 1).map
      (fun c => (c.status, c.timeline.map TimelineEntry.status))
      = some ("Resolved", ["Submitted", "Assigned", "Resolved"]) :=
  ⟨by decide,
   (status_is_last_timeline_status.1 createEnv asha sampleBody [] emptyWorld sampleConcern
      (by decide)).2.2 _,
   by decide⟩

/-! ## The stored concerns meet the schema -/

theorem mem_saveConcern {cs : List Concern} {c d : Concern} (h : d ∈ saveConcern cs c) :
    d = c ∨ d ∈ cs := by
  induction cs with
  | nil => simp [saveConcern] at h
  | cons x xs ih =>
    simp only [saveConcern] at h
    split at h
    · rcases List.mem_cons.mp h with h1 | h1
      · exact Or.inl h1
      · exact Or.inr (List.mem_cons_of_mem _ h1)
    · rcases List.mem_cons.mp h with h1 | h1
      · exact Or.inr (by rw [h1]; exact List.mem_cons_self _ _)
      · rcases ih h1 with h2 | h2
        · exact Or.inl h2
        · exact Or.inr (List.mem_cons_of_mem _ h2)

theorem mem_deleteOne {cs : List Concern} {id : ObjectId} {d : Concern}
    (h : d ∈ deleteOne cs id) : d ∈ cs := by
  induction cs with
  | nil => simp [deleteOne] at h
  | cons x xs ih =>
    simp only [deleteOne] at h
    split at h
    · exact List.mem_cons_of_mem _ h
    · rcases List.mem_cons.mp h with h1 | h1
      · rw [h1]; exact List.mem_cons_self _ _
      · exact List.mem_cons_of_mem _ (ih h1)

theorem preValidate_ticketId_ne (cs : List Concern) (c : Concern) :
    (preValidate cs c).ticketId ≠ "" := by
  unfold preValidate
  split
  · exact ticketIdFor_ne_empty _
  · assumption

theorem findById_mem {cs : List Concern} {id : ObjectId} {c : Concern}
    (h : findById cs id = some c) : c ∈ cs :=
  List.mem_of_find?_eq_some h

/-- A `save` keeps the collection within the schema. -/
theorem save_wellStored {cs : List Concern} {c saved : Concern} {cs1 : List Concern}
    (hw : WellStored cs) (h : save cs c = some (saved, cs1)) : WellStored cs1 := by
  have hv := save_valid h
  obtain ⟨h1, h2⟩ := save_eq_some h
  intro d hd
  rw [h2] at hd
  rcases mem_saveConcern hd with hd1 | hd1
  · rw [hd1]
    exact ⟨by rw [← h1]; exact hv, preValidate_ticketId_ne cs c⟩
  · exact hw d hd1

theorem createConcern_wellStored (env : Env) (user : User) (body : CreateBody)
    (files : List UploadedFile) (w : World) (hw : WellStored w.concerns) :
    WellStored (createConcern env user body files w).2.concerns := by
  by_cases hv : validCreate user body = true
  · have hnew : WellStored (w.concerns ++ [preValidate w.concerns (newConcern env user body)]) := by
      intro d hd
      rcases List.mem_append.mp hd with hd1 | hd1
      · exact hw d hd1
      · rw [List.mem_singleton.mp hd1]
        refine ⟨?_, preValidate_ticketId_ne _ _⟩
        rw [preValidate_newConcern]
        exact validDocument_newConcern env user body _ _ hv
    simp only [createConcern]
    split
    · split
      · split
        · exact hnew
        · next saved concerns2 hsave =>
          simp only [sendConcernSubmissionEmail_concerns]
          exact save_wellStored hnew hsave
      · simp only [sendConcernSubmissionEmail_concerns]
        exact hnew
    · exact hw
  · rcases createConcern_cases env user body files w with ⟨_, h⟩ | h
    · rw [h]; exact hw
    · exact absurd h.1 hv

/-- Every handler keeps the stored concerns within the schema. -/
theorem Request.handle_wellStored (r : Request) (w : World) (hw : WellStored w.concerns) :
    WellStored (r.handle w).concerns := by
  cases r with
  | createConcern env user body files => exact createConcern_wellStored env user body files w hw
  | getAllConcerns regex user q =>
    simp only [Request.handle, BroBackend.getAllConcerns]
    split
    · exact hw
    · split <;> exact hw
  | getConcernById user id =>
    simp only [Request.handle, BroBackend.getConcernById]
    split
    · exact hw
    · split
      · split
        · exact hw
        · split <;> exact hw
      · exact hw
  | updateConcernStatus env user id status comment =>
    rcases updateConcernStatus_cases env user id status comment w with h | h
    · simp only [Request.handle, h.2]; exact hw
    · obtain ⟨_, _, _, _, _, hsave, _, _, hcs, _⟩ := h
      simp only [Request.handle, hcs]
      exact save_wellStored hw hsave
  | assignConcern env user id mentorId =>
    rcases assignConcern_cases env user id mentorId w with h | h
    · simp only [Request.handle, h.2]; exact hw
    · obtain ⟨_, _, _, _, _, _, hsave, _, _, hcs, _⟩ := h
      simp only [Request.handle, hcs]
      exact save_wellStored hw hsave
  | rateConcern user id rating feedback =>
    rcases rateConcern_cases user id rating feedback w with h | h
    · simp only [Request.handle, h.2]; exact hw
    · obtain ⟨_, _, _, _, _, _, _, hsave, _, _, hcs, _⟩ := h
      simp only [Request.handle, hcs]
      exact save_wellStored hw hsave
  | deleteConcern id =>
    simp only [Request.handle, BroBackend.deleteConcern]
    split
    · exact hw
    · intro d hd
      exact hw d (mem_deleteOne hd)
  | getMessages user concernId =>
    simp only [Request.handle, BroBackend.getMessages]
    split
    · exact hw
    · split <;> exact hw
  | sendMessage env user concernId message files =>
    simp only [Request.handle, BroBackend.sendMessage]
    split
    · exact hw
    · split
      · exact hw
      · split
        · simpa using hw
        · exact hw
  | markAsRead env user concernId =>
    simp only [Request.handle, BroBackend.markAsRead]
    exact hw

/-- The collections the handlers produce from the empty collection hold only
concerns that meet the schema and have their ticket id. -/
theorem reachable_wellStored {cs : List Concern} (h : ReachableStore cs) : WellStored cs := by
  induction h with
  | empty => intro c hc; simp at hc
  | step r w _ ih => exact Request.handle_wellStored r w ih

theorem reachable_found {w : World} {id : ObjectId} {c : Concern}
    (hreach : ReachableStore w.concerns) (hc : findById w.concerns id = some c) :
    validDocument c = true ∧ c.ticketId ≠ "" :=
  reachable_wellStored hreach c (findById_mem hc)

/-- The sample collection is what `createConcern` leaves on the empty database. -/
theorem sampleWorld_reachable : ReachableStore sampleWorld.concerns := by
  have h := ReachableStore.step (Request.createConcern createEnv asha sampleBody []) emptyWorld
    ReachableStore.empty
  have he : ((Request.createConcern createEnv asha sampleBody []).handle emptyWorld).concerns
      = sampleWorld.concerns := by decide
  rw [he] at h
  exact h

/-- The collection with the resolved concern: the sample concern assigned by the
admin at 700 and resolved by the mentor at 800. -/
theorem resolvedWorld_reachable : ReachableStore resolvedWorld.concerns := by
  have h1 := ReachableStore.step (Request.assignConcern (envAt 700) adminUser 1 20) sampleWorld
    sampleWorld_reachable
  have h2 := ReachableStore.step
    (Request.updateConcernStatus (envAt 800) meera 1 "Resolved" (some "fixed")) _ h1
  have he : ((Request.updateConcernStatus (envAt 800) meera 1 "Resolved" (some "fixed")).handle
      ((Request.assignConcern (envAt 700) adminUser 1 20).handle sampleWorld)).concerns
      = resolvedWorld.concerns := by decide
  rw [he] at h2
  exact h2

/-! ## Acceptance on the collections the handlers produce -/

theorem validDocument_withStatus (env : Env) (user : User) (status : String)
    (comment : Option String) (c : Concern) (hv : validDocument c = true)
    (hs : status ∈ statusEnum) :
    validDocument (withStatus env user status comment c) = true := by
  simp only [validDocument, withStatus, Bool.and_eq_true] at hv ⊢
  obtain ⟨⟨⟨⟨⟨⟨⟨h1, h2⟩, h3⟩, h4⟩, _⟩, h6⟩, h7⟩, h8⟩ := hv
  exact ⟨⟨⟨⟨⟨⟨⟨h1, h2⟩, h3⟩, h4⟩, by simpa using hs⟩, h6⟩, h7⟩, h8⟩

theorem validDocument_withAssignment (env : Env) (user : User) (mentorId : ObjectId)
    (mentor : User) (c : Concern) (hv : validDocument c = true) :
    validDocument (withAssignment env user mentorId mentor c) = true := by
  simp only [validDocument, withAssignment, Bool.and_eq_true] at hv ⊢
  obtain ⟨⟨⟨⟨⟨⟨⟨h1, h2⟩, h3⟩, h4⟩, _⟩, h6⟩, h7⟩, h8⟩ := hv
  exact ⟨⟨⟨⟨⟨⟨⟨h1, h2⟩, h3⟩, h4⟩, by decide⟩, h6⟩, h7⟩, h8⟩

theorem validDocument_withRating (rating : Option Int) (feedback : Option String) (c : Concern)
    (hv : validDocument c = true) (hr : validRating rating (trim (orEmpty feedback)) = true) :
    validDocument (withRating rating feedback c) = true := by
  simp only [validDocument, withRating, Bool.and_eq_true] at hv ⊢
  simp only [validRating, Bool.and_eq_true] at hr
  obtain ⟨⟨⟨⟨⟨⟨⟨h1, h2⟩, h3⟩, h4⟩, h5⟩, h6⟩, _⟩, _⟩ := hv
  exact ⟨⟨⟨⟨⟨⟨⟨h1, h2⟩, h3⟩, h4⟩, h5⟩, h6⟩, hr.1⟩, hr.2⟩

/-- On a collection the handlers produced, `updateConcernStatus` with one of
the seven status values saves the concern as the handler changed it. -/
theorem updateConcernStatus_save (env : Env) (user : User) (id : ObjectId) (status : String)
    (comment : Option String) (w : World) (c : Concern)
    (hreach : ReachableStore w.concerns) (hc : findById w.concerns id = some c)
    (hs : status ∈ statusEnum) :
    save w.concerns (withStatus env user status comment c)
      = some (withStatus env user status comment c,
          saveConcern w.concerns (withStatus env user status comment c)) := by
  obtain ⟨hv, ht⟩ := reachable_found hreach hc
  exact save_of_valid (validDocument_withStatus env user status comment c hv hs)
    (by simpa [withStatus] using ht)

theorem putStatus_accepts (env : Env) (user : User) (id : ObjectId) (status : String)
    (comment : Option String) (w : World) (c : Concern)
    (hrole : user.role = "mentor" ∨ user.role = "admin" ∨ user.role = "superadmin")
    (hreach : ReachableStore w.concerns) (hc : findById w.concerns id = some c)
    (hs : status ∈ statusEnum) :
    (putStatus env user id status comment w).1.status = 200 := by
  rw [putStatus_of_role _ _ _ _ _ _ hrole]
  exact ((updateConcernStatus_found env user id status comment w c hc).1 _ _ hs
    (updateConcernStatus_save env user id status comment w c hreach hc hs)).1

theorem putStatus_reachable (env : Env) (user : User) (id : ObjectId) (status : String)
    (comment : Option String) (w : World) (hreach : ReachableStore w.concerns) :
    ReachableStore (putStatus env user id status comment w).2.concerns := by
  unfold putStatus authorize
  split
  · exact ReachableStore.step (Request.updateConcernStatus env user id status comment) w hreach
  · exact hreach

/-- On a collection the handlers produced, every call of a sequence of
`PUT /:id/status` requests with one of the seven status values is accepted. -/
theorem putStatusSeq_accepts (id : ObjectId) (calls : List StatusCall) :
    ∀ (w : World) (c : Concern),
      (∀ call ∈ calls, call.user.role = "mentor" ∨ call.user.role = "admin" ∨
        call.user.role = "superadmin") →
      findById w.concerns id = some c →
      ReachableStore w.concerns →
      (∀ call ∈ calls, call.status ∈ statusEnum) →
      ∀ r ∈ (putStatusSeq id calls w).1, r.status = 200 := by
  induction calls with
  | nil =>
    intro w c _ _ _ _ r hr
    simp [putStatusSeq] at hr
  | cons call rest ih =>
    intro w c hroles hc hreach hstatus r hr
    have hrole := hroles call (List.mem_cons_self _ _)
    have hok := putStatus_accepts call.env call.user id call.status call.comment w c hrole
      hreach hc (hstatus call (List.mem_cons_self _ _))
    obtain ⟨_, c2, _, hfind, _, _⟩ := putStatus_step call id w c hrole hc hok
    simp only [putStatusSeq, List.mem_cons] at hr
    rcases hr with hr | hr
    · rw [hr]; exact hok
    · exact ih _ c2 (fun x hx => hroles x (List.mem_cons_of_mem _ hx)) hfind
        (putStatus_reachable call.env call.user id call.status call.comment w hreach)
        (fun x hx => hstatus x (List.mem_cons_of_mem _ hx)) r hr

/-- C1: for an existing concern and callers with role mentor, admin or
superadmin, a `PUT /:id/status` with status argument `s` that is answered 200
leaves the stored concern with a timeline exactly one entry longer and with
`status = s`, also when `s` is the current status; after any sequence of such
accepted calls the timeline has grown by the number of calls and `status` is the
last call's argument. A call is accepted only with one of the seven status
values; on a collection the handlers produced, each call with one of the seven
values is accepted, and so is every call of a sequence of them. -/
theorem updateConcernStatus_timeline_and_status (id : ObjectId) (w : World) (c : Concern)
    (hc : findById w.concerns id = some c) :
    (∀ call : StatusCall,
      (call.user.role = "mentor" ∨ call.user.role = "admin" ∨ call.user.role = "superadmin") →
      ((putStatus call.env call.user id call.status call.comment w).1.status = 200 →
        ∃ c1, findById (putStatus call.env call.user id call.status call.comment w).2.concerns id
            = some c1 ∧
          (putStatus call.env call.user id call.status call.comment w).1.data = some c1 ∧
          c1.timeline.length = c.timeline.length + 1 ∧ c1.status = call.status) ∧
      ((putStatus call.env call.user id call.status call.comment w).1.status = 200 →
        call.status ∈ statusEnum) ∧
      (ReachableStore w.concerns → call.status ∈ statusEnum →
        (putStatus call.env call.user id call.status call.comment w).1.status = 200)) ∧
    (∀ calls : List StatusCall,
      (∀ call ∈ calls, call.user.role = "mentor" ∨ call.user.role = "admin" ∨
        call.user.role = "superadmin") →
      ((∀ r ∈ (putStatusSeq id calls w).1, r.status = 200) →
        ∃ c1, findById (putStatusSeq id calls w).2.concerns id = some c1 ∧
          c1.timeline.length = c.timeline.length + calls.length ∧
          ∀ last, calls.getLast? = some last → c1.status = last.status) ∧
      (ReachableStore w.concerns → (∀ call ∈ calls, call.status ∈ statusEnum) →
        ∀ r ∈ (putStatusSeq id calls w).1, r.status = 200)) := by
  constructor
  · intro call hrole
    refine ⟨?_, ?_, ?_⟩
    · intro hok
      obtain ⟨_, c1, hdata, hfind, htl, hst⟩ := putStatus_step call id w c hrole hc hok
      exact ⟨c1, hfind, hdata, by rw [htl]; simp, hst⟩
    · intro hok
      exact (putStatus_step call id w c hrole hc hok).1
    · intro hreach hs
      exact putStatus_accepts call.env call.user id call.status call.comment w c hrole hreach hc hs
  · intro calls hroles
    constructor
    · intro hall
      obtain ⟨c1, h1, h2, h3⟩ := putStatusSeq_all_ok id calls w c hroles hc hall
      refine ⟨c1, h1, h2, ?_⟩
      intro last hlast
      rw [h3, hlast]
      rfl
    · intro hreach hstatus
      exact putStatusSeq_accepts id calls w c hroles hc hreach hstatus

/-- Witness of C1: the sample collection is the one `createConcern` left; the
mentor sets `Resolved` twice on the sample concern, both calls are accepted, the
timeline grows from one entry to three and the status is `Resolved`. -/
theorem updateConcernStatus_timeline_and_status_witness :
    findById sampleWorld.concerns 1 = some sampleConcern ∧
    (∀ r ∈ (putStatusSeq 1 [resolveCall, resolveCall] sampleWorld).1, r.status = 200) ∧
    ∃ c1, findById (putStatusSeq 1 [resolveCall, resolveCall] sampleWorld).2.concerns 1 = some c1 ∧
      c1.timeline.length = 3 ∧ c1.status = "Resolved" := by
  have h := (updateConcernStatus_timeline_and_status 1 sampleWorld sampleConcern (by decide)).2
      [resolveCall, resolveCall] (by decide)
  have hall := h.2 sampleWorld_reachable (by decide)
  obtain ⟨c1, h1, h2, h3⟩ := h.1 hall
  exact ⟨by decide, hall, c1, h1, h2, h3 resolveCall rfl⟩

theorem preValidate_fields (cs : List Concern) (c : Concern) :
    (preValidate cs c).assignedTo = c.assignedTo ∧ (preValidate cs c).status = c.status ∧
    (preValidate cs c).timeline = c.timeline ∧ (preValidate cs c).rating = c.rating ∧
    (preValidate cs c).feedback = c.feedback ∧ (preValidate cs c)._id = c._id := by
  unfold preValidate
  split <;> simp

/-- What an accepted `assignConcern` does to the concern it names. -/
theorem assignConcern_step (env : Env) (user : User) (id mentorId : ObjectId) (w : World)
    (c : Concern) (m : User) (hc : findById w.concerns id = some c)
    (hm : findUserById w.users mentorId = some m)
    (hok : (assignConcern env user id mentorId w).1.status = 200) :
    ∃ c1, findById (assignConcern env user id mentorId w).2.concerns id = some c1 ∧
      (assignConcern env user id mentorId w).1.data = some c1 ∧
      c1.assignedTo = some mentorId ∧ c1.status = "Assigned" ∧
      c1.timeline = c.timeline ++ [assignEntry env user m] := by
  rcases assignConcern_cases env user id mentorId w with h | h
  · exact absurd hok h.1
  · obtain ⟨c0, m0, saved, cs1, h0, hm0, hsave, _, hdata, hcs, _⟩ := h
    have hcc : c0 = c := by rw [hc] at h0; exact (Option.some.inj h0).symm
    have hmm : m0 = m := by rw [hm] at hm0; exact (Option.some.inj hm0).symm
    subst hcc hmm
    have hid : c0._id = id := findById_id hc
    have h0' : findById w.concerns (withAssignment env user mentorId m0 c0)._id
        = some c0 := by
      simpa [withAssignment, hid] using hc
    have hfind := findById_save h0' hsave
    obtain ⟨hsaved, _⟩ := save_eq_some hsave
    obtain ⟨f1, f2, f3, _⟩ := preValidate_fields w.concerns
      (withAssignment env user mentorId m0 c0)
    refine ⟨saved, ?_, hdata, ?_, ?_, ?_⟩
    · rw [hcs]; simpa [withAssignment, hid] using hfind
    · rw [hsaved, f1]; simp [withAssignment]
    · rw [hsaved, f2]; simp [withAssignment]
    · rw [hsaved, f3]; simp [withAssignment]

/-- On a collection the handlers produced, `assignConcern` on an existing
concern with an existing user is accepted. -/
theorem assignConcern_accepts (env : Env) (user : User) (id mentorId : ObjectId) (w : World)
    (c : Concern) (m : User) (hreach : ReachableStore w.concerns)
    (hc : findById w.concerns id = some c) (hm : findUserById w.users mentorId = some m) :
    (assignConcern env user id mentorId w).1.status = 200 := by
  obtain ⟨hv, ht⟩ := reachable_found hreach hc
  have hsave : save w.concerns (withAssignment env user mentorId m c)
      = some (withAssignment env user mentorId m c,
          saveConcern w.concerns (withAssignment env user mentorId m c)) :=
    save_of_valid (validDocument_withAssignment env user mentorId m c hv)
      (by simpa [withAssignment] using ht)
  simp only [withAssignment] at hsave
  simp [assignConcern, hc, hm, hsave, statusEnum]

/-- When `assignConcern` on an existing concern with an existing user is not
accepted, the save threw: the answer is 500 and nothing changed. -/
theorem assignConcern_refused (env : Env) (user : User) (id mentorId : ObjectId) (w : World)
    (c : Concern) (m : User) (hc : findById w.concerns id = some c)
    (hm : findUserById w.users mentorId = some m)
    (hno : (assignConcern env user id mentorId w).1.status ≠ 200) :
    assignConcern env user id mentorId w = (serverError, w) := by
  cases hsave : save w.concerns (withAssignment env user mentorId m c) with
  | none =>
    simp only [withAssignment] at hsave
    simp [assignConcern, hc, hm, hsave, statusEnum]
  | some p =>
    exfalso
    apply hno
    simp only [withAssignment] at hsave
    simp [assignConcern, hc, hm, hsave, statusEnum]

/-- C10: for an admin or superadmin caller, `PUT /:id/assign` on an existing
concern with the id of an existing user `M`, when answered 200, sets
`assignedTo` to `M`, sets `status` to `Assigned` whatever it was, and appends
exactly one timeline entry, with status `Assigned`, `updatedBy` the caller's id
and comment `Assigned to ` followed by the name of `M`. On a collection the
handlers produced the answer is 200; otherwise the save can throw on a stored
value that fails the schema, and then the answer is 500 and nothing changes.
When the concern or the user does not exist the answer is 404 and nothing
changes. -/
theorem assignConcern_effect (env : Env) (user : User) (id mentorId : ObjectId) (w : World)
    (hrole : user.role = "admin" ∨ user.role = "superadmin") :
    (∀ c m, findById w.concerns id = some c → findUserById w.users mentorId = some m →
      m._id = mentorId ∧
      (ReachableStore w.concerns → (putAssign env user id mentorId w).1.status = 200) ∧
      ((putAssign env user id mentorId w).1.status = 200 →
        ∃ c1, findById (putAssign env user id mentorId w).2.concerns id = some c1 ∧
          (putAssign env user id mentorId w).1.data = some c1 ∧
          c1.assignedTo = some m._id ∧ c1.status = "Assigned" ∧
          c1.timeline = c.timeline ++
            [{ status := "Assigned", updatedBy := some user._id,
               comment := some ("Assigned to " ++ m.name), timestamp := env.now 0 }] ∧
          c1.timeline.length = c.timeline.length + 1) ∧
      ((putAssign env user id mentorId w).1.status ≠ 200 →
        putAssign env user id mentorId w = (serverError, w))) ∧
    (findById w.concerns id = none →
      putAssign env user id mentorId w = (failure 404 "Concern not found", w)) ∧
    (findUserById w.users mentorId = none →
      (putAssign env user id mentorId w).1.status = 404 ∧
      (putAssign env user id mentorId w).2 = w) := by
  rw [putAssign_of_role env user id mentorId w hrole]
  refine ⟨?_, ?_, ?_⟩
  · intro c m hc hm
    have hmid : m._id = mentorId := findUserById_id hm
    refine ⟨hmid, ?_, ?_, ?_⟩
    · intro hreach
      exact assignConcern_accepts env user id mentorId w c m hreach hc hm
    · intro hok
      obtain ⟨c1, h1, h2, h3, h4, h5⟩ := assignConcern_step env user id mentorId w c m hc hm hok
      refine ⟨c1, h1, h2, by rw [h3, hmid], h4, by rw [h5]; rfl, by rw [h5]; simp⟩
    · intro hno
      exact assignConcern_refused env user id mentorId w c m hc hm hno
  · intro hc
    simp [assignConcern, hc]
  · intro hm
    cases hc : findById w.concerns id with
    | none => simp [assignConcern, hc, failure]
    | some c => simp [assignConcern, hc, hm, failure]

/-- Witness of C10: on the collection `createConcern` left, the admin assigns
the sample concern to `meera`. -/
theorem assignConcern_effect_witness :
    findById sampleWorld.concerns 1 = some sampleConcern ∧
    findUserById sampleWorld.users 20 = some meera ∧
    (putAssign sampleEnv adminUser 1 20 sampleWorld).1.status = 200 ∧
    ∃ c1, findById (putAssign sampleEnv adminUser 1 20 sampleWorld).2.concerns 1 = some c1 ∧
      (putAssign sampleEnv adminUser 1 20 sampleWorld).1.data = some c1 ∧
      c1.assignedTo = some meera._id ∧ c1.status = "Assigned" ∧
      c1.timeline = sampleConcern.timeline ++
        [{ status := "Assigned", updatedBy := some adminUser._id,
           comment := some ("Assigned to " ++ meera.name), timestamp := sampleEnv.now 0 }] ∧
      c1.timeline.length = sampleConcern.timeline.length + 1 := by
  have h := (assignConcern_effect sampleEnv adminUser 1 20 sampleWorld (by decide)).1
    sampleConcern meera (by decide) (by decide)
  have hok := h.2.1 sampleWorld_reachable
  exact ⟨by decide, by decide, hok, h.2.2.1 hok⟩

/-- C8, as amended: `rateConcern` answers 404 when the concern does not exist,
403 when the caller is not the concern's owning student (whatever the status),
400 when the caller is the owner and the status is neither `Resolved` nor
`Closed`, and changes nothing in these cases. When the caller is the owner and
the status is `Resolved` or `Closed`, a rating that passes the validators of
the schema (absent or from 1 to 5, trimmed feedback of at most 1000 code units)
is accepted and persisted on a collection the handlers produced, and one that
does not pass is answered 500 with nothing changed. -/
theorem rateConcern_outcomes (user : User) (id : ObjectId) (rating : Option Int)
    (feedback : Option String) (w : World) :
    (findById w.concerns id = none →
      rateConcern user id rating feedback w = (failure 404 "Concern not found", w)) ∧
    (∀ c, findById w.concerns id = some c → c.student ≠ user._id →
      rateConcern user id rating feedback w
        = (failure 403 "Not authorized to rate this concern", w)) ∧
    (∀ c, findById w.concerns id = some c → c.student = user._id →
      c.status ≠ "Resolved" → c.status ≠ "Closed" →
      rateConcern user id rating feedback w
        = (failure 400 "Can only rate resolved or closed concerns", w)) ∧
    (∀ c, findById w.concerns id = some c → c.student = user._id →
      (c.status = "Resolved" ∨ c.status = "Closed") →
      (validRating rating (trim (orEmpty feedback)) = true → ReachableStore w.concerns →
        (rateConcern user id rating feedback w).1.status = 200 ∧
        (rateConcern user id rating feedback w).1.data = some (withRating rating feedback c) ∧
        findById (rateConcern user id rating feedback w).2.concerns id
          = some (withRating rating feedback c) ∧
        (withRating rating feedback c).rating = rating) ∧
      (validRating rating (trim (orEmpty feedback)) = false →
        rateConcern user id rating feedback w = (serverError, w))) := by
  refine ⟨?_, ?_, ?_, ?_⟩
  · intro hc
    simp [rateConcern, hc]
  · intro c hc hown
    simp [rateConcern, hc, hown]
  · intro c hc hown h1 h2
    simp [rateConcern, hc, hown, h1, h2]
  · intro c hc hown hst
    have hst2 : ¬ (c.status ≠ "Resolved" ∧ c.status ≠ "Closed") := by
      rintro ⟨h1, h2⟩
      rcases hst with h | h
      · exact h1 h
      · exact h2 h
    constructor
    · intro hv hreach
      obtain ⟨hvd, ht⟩ := reachable_found hreach hc
      have hsave : save w.concerns (withRating rating feedback c)
          = some (withRating rating feedback c,
              saveConcern w.concerns (withRating rating feedback c)) :=
        save_of_valid (validDocument_withRating rating feedback c hvd hv)
          (by simpa [withRating] using ht)
      rcases rateConcern_cases user id rating feedback w with h | h
      · exfalso
        apply h.1
        have hsave2 := hsave
        simp only [withRating, hown] at hsave2
        simp [rateConcern, hc, hown, hst2, hv, hsave2]
      · obtain ⟨c0, saved, cs1, h0, _, _, _, hsave0, hok, hdata, hcs, _⟩ := h
        have hcc : c0 = c := by rw [hc] at h0; exact (Option.some.inj h0).symm
        subst hcc
        rw [hsave] at hsave0
        obtain ⟨hs1, hs2⟩ := Prod.mk.inj (Option.some.inj hsave0)
        have hid : c0._id = id := findById_id hc
        have h0' : findById w.concerns (withRating rating feedback c0)._id = some c0 := by
          simpa [withRating, hid] using hc
        have hfind := findById_save h0' hsave
        refine ⟨hok, by rw [hdata, ← hs1], ?_, rfl⟩
        rw [hcs, ← hs2]
        simpa [withRating, hid] using hfind
    · intro hv
      simp [rateConcern, hc, hown, hst2, hv]

/-- Witness of C8 as amended: on the collection the handlers left after the
assignment and the resolution, `asha` rates her resolved concern 5 and the
rating is stored; `bibin` is refused with 403. -/
theorem rateConcern_outcomes_witness :
    findById resolvedWorld.concerns 1 = some resolvedConcern ∧
    (rateConcern asha 1 (some 5) (some "great") resolvedWorld).1.status = 200 ∧
    findById (rateConcern asha 1 (some 5) (some "great") resolvedWorld).2.concerns 1
      = some (withRating (some 5) (some "great") resolvedConcern) ∧
    rateConcern bibin 1 (some 5) (some "great") resolvedWorld
      = (failure 403 "Not authorized to rate this concern", resolvedWorld) := by
  have h := ((rateConcern_outcomes asha 1 (some 5) (some "great") resolvedWorld).2.2.2
    resolvedConcern (by decide) (by decide) (by decide)).1 (by decide) resolvedWorld_reachable
  have h2 := (rateConcern_outcomes bibin 1 (some 5) (some "great") resolvedWorld).2.1
    resolvedConcern (by decide) (by decide)
  exact ⟨by decide, h.1, h.2.2.1, h2⟩

/-- C15, as amended: for an existing concern in any current status, on a
collection the handlers produced, a caller with role mentor, admin or
superadmin and each of the seven status values of the schema, `PUT /:id/status`
is accepted with 200 and records the value as the new status with one new
timeline entry; the current status plays no part, so no pair of current and
target status is rejected. A value outside the seven is answered 500 and
nothing changes. -/
theorem updateConcernStatus_any_transition (env : Env) (user : User) (id : ObjectId)
    (w : World) (c : Concern) (target : String) (comment : Option String)
    (hrole : user.role = "mentor" ∨ user.role = "admin" ∨ user.role = "superadmin")
    (hc : findById w.concerns id = some c) (hreach : ReachableStore w.concerns) :
    (target ∈ statusEnum →
      (putStatus env user id target comment w).1.status = 200 ∧
      ∃ c1, findById (putStatus env user id target comment w).2.concerns id = some c1 ∧
        (putStatus env user id target comment w).1.data = some c1 ∧
        c1.status = target ∧
        c1.timeline = c.timeline ++ [statusEntry env user target comment]) ∧
    (target ∉ statusEnum →
      putStatus env user id target comment w = (serverError, w)) := by
  constructor
  · intro htarget
    have hok := putStatus_accepts env user id target comment w c hrole hreach hc htarget
    obtain ⟨_, c1, hdata, hfind, htl, hst⟩ :=
      putStatus_step { env := env, user := user, status := target, comment := comment } id w c
        hrole hc hok
    exact ⟨hok, c1, hfind, hdata, hst, htl⟩
  · intro htarget
    rw [putStatus_of_role _ _ _ _ _ _ hrole]
    exact (updateConcernStatus_found env user id target comment w c hc).2 (Or.inl htarget)

/-- Witness of C15 as amended: on the collection the handlers left after the
assignment and the resolution, the resolved concern is set back to `Submitted`
by the admin. -/
theorem updateConcernStatus_any_transition_witness :
    findById resolvedWorld.concerns 1 = some resolvedConcern ∧
    resolvedConcern.status = "Resolved" ∧
    (putStatus sampleEnv adminUser 1 "Submitted" none resolvedWorld).1.status = 200 ∧
    ∃ c1, findById (putStatus sampleEnv adminUser 1 "Submitted" none resolvedWorld).2.concerns 1
        = some c1 ∧
      (putStatus sampleEnv adminUser 1 "Submitted" none resolvedWorld).1.data = some c1 ∧
      c1.status = "Submitted" ∧
      c1.timeline = resolvedConcern.timeline ++
        [statusEntry sampleEnv adminUser "Submitted" none] :=
  ⟨by decide, by decide,
   (updateConcernStatus_any_transition sampleEnv adminUser 1 resolvedWorld resolvedConcern
     "Submitted" none (by decide) (by decide) resolvedWorld_reachable).1 (by decide)⟩

end BroBackend
